import Mathlib

/-!
Shallow embedding of the `AnsibleCloudStack` base class and the account,
cluster and NIC resource modules of the ansible-cloudstack repository
(files `cs_account.py`, `cs_cluster.py`, `cs_nic.py`; the base class block is
repeated verbatim in every file, we embed it once).

Remote API responses and Python dictionaries are modelled by the `PyVal` /
`PyDict` types below.  Every remote call made by a run is recorded in a
trace inside the run state `St`; the responses the remote side would give
are part of a fixed environment `Env`.  `fail_json` (which aborts the
module) is modelled by the `Res.fail` constructor, which keeps the state at
the moment of failure so that statements about which calls were issued
before an abort remain expressible.  Python `time.sleep` has no observable
effect in this model and is dropped; the unbounded `while True` polling
loop is modelled by structural recursion on the (finite) list of remote
job-status responses supplied by the environment, running out of responses
is reported as a distinguished failure.
-/

set_option maxHeartbeats 1600000

/-- Python values as they occur in this code base: `None`, booleans,
integers, strings, lists and string-keyed dictionaries. -/
inductive PyVal : Type where
  | vnull : PyVal
  | vbool (b : Bool) : PyVal
  | vint (n : Int) : PyVal
  | vstr (s : String) : PyVal
  | vlist (xs : List PyVal) : PyVal
  | vdict (d : List (String × PyVal)) : PyVal

/-- A Python dictionary with string keys. -/
abbrev PyDict := List (String × PyVal)

/-- Key lookup in a dictionary (`d.get(k)` / `k in d`). -/
def dget : PyDict → String → Option PyVal
  | [], _ => none
  | (k', v) :: rest, k => if k' = k then some v else dget rest k

/-- Assignment `d[k] = v`: replaces the binding if the key exists,
appends it otherwise (insertion order is kept, as in Python). -/
def dset : PyDict → String → PyVal → PyDict
  | [], k, v => [(k, v)]
  | (k', v') :: rest, k, v =>
    if k' = k then (k', v) :: rest else (k', v') :: dset rest k v

theorem dget_dset_self (d : PyDict) (k : String) (v : PyVal) :
    dget (dset d k v) k = some v := by
  induction d with
  | nil => simp [dset, dget]
  | cons hd tl ih =>
    by_cases h : hd.1 = k
    · simp [dset, dget, h]
    · simp [dset, dget, h, ih]

theorem dget_dset_ne (d : PyDict) (k k' : String) (v : PyVal) (h : k ≠ k') :
    dget (dset d k v) k' = dget d k' := by
  induction d with
  | nil => simp [dset, dget, h]
  | cons hd tl ih =>
    by_cases h' : hd.1 = k
    · simp [dset, dget, h', h]
    · simp [dset, dget, h', ih]

/-- Python truthiness for the values above: `None`, `False`, `0`, `""`,
`[]` and `{}` are falsy, everything else is truthy. -/
def pyTruthy : PyVal → Bool
  | .vnull => false
  | .vbool b => b
  | .vint n => n != 0
  | .vstr s => s ≠ ""
  | .vlist xs => !xs.isEmpty
  | .vdict d => !d.isEmpty

/-- Shallow Python equality (`==`) as used in this code base: the compared
values are always scalars (strings, numbers, `None`); compound values are
never compared by the source, so they compare unequal here. -/
def pyEqB : PyVal → PyVal → Bool
  | .vnull, .vnull => true
  | .vbool a, .vbool b => a == b
  | .vint a, .vint b => a == b
  | .vstr a, .vstr b => a == b
  | _, _ => false

/-- Python `x != 0` for the values above (`True`/`False` compare as
`1`/`0`, non-numeric values are unequal to `0`). -/
def neZeroPy : PyVal → Bool
  | .vint n => n != 0
  | .vbool b => b
  | _ => true

/-- `%s`-formatting of a value (shallow; only scalars are ever
formatted by the source). -/
def pyFmt : PyVal → String
  | .vnull => "None"
  | .vbool b => if b then "True" else "False"
  | .vint n => toString n
  | .vstr s => s
  | .vlist _ => "<list>"
  | .vdict _ => "<dict>"

/-- `%s`-formatting of an optional module parameter. -/
def fmtOptStr : Option String → String
  | none => "None"
  | some s => s

/-- Truthiness of an optional string parameter (`None` and `""` are
falsy). -/
def strTruthy : Option String → Bool
  | none => false
  | some s => s ≠ ""

/-- `value = params.get(a); if not value: value = fallback` -/
def strOr (a b : Option String) : Option String :=
  if strTruthy a then a else b

/-- Lift an optional string parameter into a Python value. -/
def optV : Option String → PyVal
  | none => .vnull
  | some s => .vstr s

/-- Python `str.lower()` (ASCII case folding, character by character;
written via `List.map` so that concrete strings evaluate). -/
def pyStrLower (s : String) : String :=
  String.mk (s.data.map Char.toLower)

/-- Decimal digit run parser for `int(str)`. -/
def parseDigitsAux : List Char → Nat → Option Nat
  | [], n => some n
  | c :: rest, n =>
    if c.isDigit then parseDigitsAux rest (10 * n + (c.toNat - 48)) else none

/-- Python `int(s)` on a string: an optional minus sign followed by
decimal digits; anything else raises (`none`). -/
def strToIntPy (s : String) : Option Int :=
  match s.data with
  | [] => none
  | '-' :: rest =>
    match rest with
    | [] => none
    | cs => (parseDigitsAux cs 0).map (fun n => -(n : Int))
  | cs => parseDigitsAux cs 0

/-- Python `int(x)` on the values that can reach the numeric coercion in
`has_changed`: ints stay, booleans become 0/1, numeric strings are
parsed; anything else raises (`none`). -/
def pyToInt : PyVal → Option Int
  | .vint n => some n
  | .vbool b => some (if b then 1 else 0)
  | .vstr s => strToIntPy s
  | _ => none

/-- A key/value tag pair. -/
structure Tag : Type where
  key : String
  value : String
  deriving DecidableEq, Repr

/-- The dictionary `{'key': t.key, 'value': t.value}` of a tag. -/
def tagToPy (t : Tag) : PyVal :=
  .vdict [("key", .vstr t.key), ("value", .vstr t.value)]

/-- A list of tags as it appears in an API resource (`resource['tags']`). -/
def tagsVal (ts : List Tag) : PyVal :=
  .vlist (ts.map tagToPy)

/-- Read one tag dictionary back (`{'key': tag['key'], 'value': tag['value']}`);
`none` when the element is not shaped like a tag. -/
def tagOfPy : PyVal → Option Tag
  | .vdict d =>
    match dget d "key", dget d "value" with
    | some (.vstr k), some (.vstr v) => some ⟨k, v⟩
    | _, _ => none
  | _ => none

theorem tagOfPy_tagToPy (t : Tag) : tagOfPy (tagToPy t) = some t := by
  cases t; rfl

/-- One remote API call, with the request arguments that the source
passes.  `list*` and `queryAsyncJobResult` calls are read-only; the
remaining constructors are the mutating calls. -/
inductive Call : Type where
  | listDomains (args : PyDict)
  | listAccounts (args : PyDict)
  | listZones
  | listOsTypes
  | listHypervisors
  | listPods (args : PyDict)
  | listClusters (args : PyDict)
  | listNics (args : PyDict)
  | listVPCs (args : PyDict)
  | listNetworks (args : PyDict)
  | listVirtualMachines (args : PyDict)
  | listProjects (args : PyDict)
  | listPublicIpAddresses (args : PyDict)
  | listCapabilities
  | queryAsyncJobResult (jobid : PyVal)
  | createAccount (args : PyDict)
  | deleteAccount (id : PyVal)
  | enableAccount (args : PyDict)
  | disableAccount (args : PyDict)
  | addCluster (args : PyDict)
  | updateCluster (args : PyDict)
  | deleteCluster (args : PyDict)
  | addIpToNic (args : PyDict)
  | removeIpFromNic (id : PyVal)
  | createTags (args : PyDict) (tags : List Tag)
  | deleteTags (args : PyDict) (tags : List Tag)

/-- Read-only resource-listing (lookup) calls. -/
def isListCall : Call → Bool
  | .listDomains _ => true
  | .listAccounts _ => true
  | .listZones => true
  | .listOsTypes => true
  | .listHypervisors => true
  | .listPods _ => true
  | .listClusters _ => true
  | .listNics _ => true
  | .listVPCs _ => true
  | .listNetworks _ => true
  | .listVirtualMachines _ => true
  | .listProjects _ => true
  | .listPublicIpAddresses _ => true
  | .listCapabilities => true
  | _ => false

/-- Mutating remote calls (create/update/delete/enable/disable/tag
operations). -/
def isMutating : Call → Bool
  | .createAccount _ => true
  | .deleteAccount _ => true
  | .enableAccount _ => true
  | .disableAccount _ => true
  | .addCluster _ => true
  | .updateCluster _ => true
  | .deleteCluster _ => true
  | .addIpToNic _ => true
  | .removeIpFromNic _ => true
  | .createTags _ _ => true
  | .deleteTags _ _ => true
  | _ => false

/-- Asynchronous job status queries. -/
def isJobQuery : Call → Bool
  | .queryAsyncJobResult _ => true
  | _ => false

/-- The union of the module parameters (`module.params`) of the three
modules; `module.params.get(k)` on a key a module does not declare
returns `None`, so missing keys are simply `none` fields.  `tags` is the
tag-list parameter of modules that support tags. -/
structure Params : Type where
  name : Option String := none
  state : Option String := none
  domain : Option String := none
  account : Option String := none
  project : Option String := none
  zone : Option String := none
  vpc : Option String := none
  network : Option String := none
  vm : Option String := none
  vm_guest_ip : Option String := none
  tags : Option (List Tag) := none
  poll_async : Bool := true
  account_type : Option String := some "user"
  network_domain : Option String := none
  email : Option String := none
  first_name : Option String := none
  last_name : Option String := none
  username : Option String := none
  password : Option String := none
  timezone : Option String := none
  id : Option String := none
  pod : Option String := none
  cluster_type : Option String := none
  hypervisor : Option String := none
  url : Option String := none
  guest_vswitch_name : Option String := none
  guest_vswitch_type : Option String := none
  public_vswitch_name : Option String := none
  public_vswitch_type : Option String := none
  vms_ip_address : Option String := none
  vms_username : Option String := none
  vms_password : Option String := none
  ovm3_cluster : Option String := none
  ovm3_pool : Option String := none
  ovm3_vip : Option String := none
  os_type : Option String := none
  ip_address : Option String := none

/-- The `CLOUDSTACK_*` environment-variable fallbacks read by the base
class. -/
structure OsEnviron : Type where
  domain : Option String := none
  account : Option String := none
  project : Option String := none
  zone : Option String := none
  vpc : Option String := none

/-- The fixed environment of one run: the module parameters, the process
environment and the responses the remote API would return for each call
the source can make.  List responses are the full response dictionary
(e.g. `{'account': [...]}` or `{}`), exactly as the client returns them.
`listClustersResp` depends on the request arguments because
`get_cluster` can issue two differently-filtered list calls in one
run. -/
structure Env : Type where
  params : Params
  environ : OsEnviron := {}
  listDomainsResp : PyVal := .vdict []
  listAccountsResp : PyVal := .vdict []
  listZonesResp : PyVal := .vdict []
  listOsTypesResp : PyVal := .vdict []
  listHypervisorsResp : PyVal := .vdict []
  listPodsResp : PyVal := .vdict []
  listClustersResp : PyDict → PyVal := fun _ => .vdict []
  listNicsResp : PyVal := .vdict []
  listVPCsResp : PyVal := .vdict []
  listNetworksResp : PyVal := .vdict []
  listVirtualMachinesResp : PyVal := .vdict []
  listProjectsResp : PyVal := .vdict []
  listPublicIpAddressesResp : PyVal := .vdict []
  listCapabilitiesResp : PyVal := .vdict []
  createAccountResp : PyVal := .vdict []
  deleteAccountResp : PyVal := .vdict []
  enableAccountResp : PyVal := .vdict []
  disableAccountResp : PyVal := .vdict []
  addClusterResp : PyVal := .vdict []
  updateClusterResp : PyVal := .vdict []
  deleteClusterResp : PyVal := .vdict []
  addIpToNicResp : PyVal := .vdict []
  removeIpFromNicResp : PyVal := .vdict []
  createTagsResp : PyVal := .vdict []
  deleteTagsResp : PyVal := .vdict []

/-- The mutable per-run state: the call trace, the `changed` flag and the
diff of the result object, the per-kind resolution caches
(`self.domain`, `self.account`, ...; `vnull` = unresolved), the cached
VPC network-id list, and the stream of job-status responses still to be
served to the polling loop. -/
structure St : Type where
  trace : List Call := []
  changed : Bool := false
  diffBefore : PyDict := []
  diffAfter : PyDict := []
  domain : PyVal := .vnull
  account : PyVal := .vnull
  project : PyVal := .vnull
  ip_address : PyVal := .vnull
  network : PyVal := .vnull
  vpc : PyVal := .vnull
  zone : PyVal := .vnull
  vm : PyVal := .vnull
  vm_default_nic : PyVal := .vnull
  os_type : PyVal := .vnull
  hypervisor : PyVal := .vnull
  capabilities : PyVal := .vnull
  vpcNetworksIds : Option (List PyVal) := none
  cluster : PyVal := .vnull
  nic : PyVal := .vnull
  vmGuestIp : PyVal := .vnull
  jobResps : List PyVal := []

/-- Result of running a piece of the module: either a value with the
resulting state, or an abort (`fail_json` or an uncaught Python
exception) with the state at the moment of the abort. -/
inductive Res (α : Type) : Type where
  | ok (a : α) (st : St) : Res α
  | fail (msg : String) (st : St) : Res α

/-- The state carried by a result (final state on success, state at the
abort otherwise). -/
def Res.st : Res α → St
  | .ok _ st => st
  | .fail _ st => st

/-- The value of a successful result. -/
def Res.val? : Res α → Option α
  | .ok a _ => some a
  | .fail _ _ => none

/-- Sequencing: aborts propagate. -/
def Res.then (r : Res α) (f : α → St → Res β) : Res β :=
  match r with
  | .ok a st => f a st
  | .fail m st => .fail m st

/-- Record a remote call in the trace and return the environment's
response for it. -/
def emitCall (c : Call) (resp : PyVal) (st : St) : Res PyVal :=
  .ok resp { st with trace := st.trace ++ [c] }

/-- `self.result['changed'] = True` -/
def setChanged (st : St) : St := { st with changed := true }

/-- Subscripting `v[k]`: key lookup on a dictionary (`KeyError` if the
key is missing), `TypeError` on `None` and the other non-subscriptable
values. -/
def pyGetItem (v : PyVal) (k : String) : Except String PyVal :=
  match v with
  | .vdict d =>
    match dget d k with
    | some x => .ok x
    | none => .error ("KeyError: " ++ k)
  | .vnull => .error "TypeError: 'NoneType' object is not subscriptable"
  | _ => .error ("TypeError: object is not subscriptable: " ++ k)

/-- Lift a pure `Except` computation into a run. -/
def liftE (e : Except String α) (st : St) : Res α :=
  match e with
  | .ok a => .ok a st
  | .error m => .fail m st

/-- `AnsibleCloudStack._get_by_key`: with a key, return `my_dict[key]`
or abort; without a key return the whole dictionary.  The caches this is
applied to hold `None` or a dictionary. -/
def getByKey (key : Option String) (v : PyVal) : Except String PyVal :=
  let d : PyVal := match v with | .vnull => .vdict [] | x => x
  match key with
  | some k =>
    match d with
    | .vdict d' =>
      match dget d' k with
      | some x => .ok x
      | none => .error ("Something went wrong: " ++ k ++ " not found")
    | _ => .error ("Something went wrong: " ++ k ++ " not found")
  | none => .ok d

/-- Indexing `xs[0]` on a response list (`IndexError` when empty,
`TypeError` when not a list). -/
def pyIndex0 (v : PyVal) : Except String PyVal :=
  match v with
  | .vlist (x :: _) => .ok x
  | .vlist [] => .error "IndexError: list index out of range"
  | _ => .error "TypeError: object is not subscriptable"

/-- First element of a list satisfying a fallible predicate (the
`for ... if ...: return` pattern of the resolvers). -/
def findFirstM (p : PyVal → Except String Bool) : List PyVal → Except String (Option PyVal)
  | [] => .ok none
  | x :: rest => do
    let b ← p x
    if b then .ok (some x) else findFirstM p rest

/-- `d['path'].lower() in [domain.lower(), "root/" + domain.lower(), "root" + domain.lower()]` -/
def domainMatch (dom : String) (d : PyVal) : Except String Bool := do
  let p ← pyGetItem d "path"
  match p with
  | .vstr s =>
    .ok ((pyStrLower s) == (pyStrLower dom) || (pyStrLower s) == "root/" ++ (pyStrLower dom)
          || (pyStrLower s) == "root" ++ (pyStrLower dom))
  | _ => .error "AttributeError: lower"

/-- `AnsibleCloudStack.get_domain` -/
def get_domain (E : Env) (key : Option String) (st : St) : Res PyVal :=
  if pyTruthy st.domain then liftE (getByKey key st.domain) st else
  match strOr E.params.domain E.environ.domain with
  | none => .ok .vnull st
  | some dom =>
    if dom = "" then .ok .vnull st else
    (emitCall (.listDomains [("listall", .vbool true)]) E.listDomainsResp st).then fun resp st =>
    if pyTruthy resp then
      (liftE (pyGetItem resp "domain") st).then fun dl st =>
      match dl with
      | .vlist xs =>
        (liftE (findFirstM (domainMatch dom) xs) st).then fun found st =>
        match found with
        | some d => liftE (getByKey key d) { st with domain := d }
        | none => .fail ("Domain '" ++ dom ++ "' not found") st
      | _ => .fail "TypeError: not iterable" st
    else .fail ("Domain '" ++ dom ++ "' not found") st

/-- `AnsibleCloudStack.get_account` (the base-class resolver used by the
cluster and NIC modules; the account module overrides it). -/
def base_get_account (E : Env) (key : Option String) (st : St) : Res PyVal :=
  if pyTruthy st.account then liftE (getByKey key st.account) st else
  match strOr E.params.account E.environ.account with
  | none => .ok .vnull st
  | some acc =>
    if acc = "" then .ok .vnull st else
    if strTruthy E.params.domain = false then
      .fail "Account must be specified with Domain" st
    else
      (get_domain E (some "id") st).then fun did st =>
      (emitCall (.listAccounts
          [("name", .vstr acc), ("domainid", did), ("listall", .vbool true)])
          E.listAccountsResp st).then fun resp st =>
      if pyTruthy resp then
        (liftE (pyGetItem resp "account") st).then fun al st =>
        (liftE (pyIndex0 al) st).then fun a st =>
        liftE (getByKey key a) { st with account := a }
      else .fail ("Account '" ++ acc ++ "' not found") st

/-- `zone.lower() in [z['name'].lower(), z['id']]` -/
def zoneMatch (z : String) (zd : PyVal) : Except String Bool := do
  let n ← pyGetItem zd "name"
  let i ← pyGetItem zd "id"
  match n with
  | .vstr ns => .ok ((pyStrLower z) == (pyStrLower ns) || pyEqB (.vstr (pyStrLower z)) i)
  | _ => .error "AttributeError: lower"

/-- `AnsibleCloudStack.get_zone` (silently selects the first zone when no
zone parameter is given). -/
def get_zone (E : Env) (key : Option String) (st : St) : Res PyVal :=
  if pyTruthy st.zone then liftE (getByKey key st.zone) st else
  let zone := strOr E.params.zone E.environ.zone
  (emitCall .listZones E.listZonesResp st).then fun resp st =>
  if strTruthy zone = false then
    (liftE (pyGetItem resp "zone") st).then fun zl st =>
    (liftE (pyIndex0 zl) st).then fun z st =>
    liftE (getByKey key z) { st with zone := z }
  else
    let zn := zone.getD ""
    if pyTruthy resp then
      (liftE (pyGetItem resp "zone") st).then fun zl st =>
      match zl with
      | .vlist xs =>
        (liftE (findFirstM (zoneMatch zn) xs) st).then fun found st =>
        match found with
        | some z => liftE (getByKey key z) { st with zone := z }
        | none => .fail ("zone '" ++ zn ++ "' not found") st
      | _ => .fail "TypeError: not iterable" st
    else .fail ("zone '" ++ zn ++ "' not found") st

/-- `os_type in [o['description'], o['id']]` -/
def osTypeMatch (ot : String) (o : PyVal) : Except String Bool := do
  let d ← pyGetItem o "description"
  let i ← pyGetItem o "id"
  .ok (pyEqB (.vstr ot) d || pyEqB (.vstr ot) i)

/-- `AnsibleCloudStack.get_os_type`, exactly as written in the source:
note that the cached branch reads `self.zone`, not `self.os_type`
(`return self._get_by_key(key, self.zone)`). -/
def get_os_type (E : Env) (key : Option String) (st : St) : Res PyVal :=
  if pyTruthy st.os_type then liftE (getByKey key st.zone) st else
  match E.params.os_type with
  | none => .ok .vnull st
  | some ot =>
    if ot = "" then .ok .vnull st else
    (emitCall .listOsTypes E.listOsTypesResp st).then fun resp st =>
    if pyTruthy resp then
      (liftE (pyGetItem resp "ostype") st).then fun ol st =>
      match ol with
      | .vlist xs =>
        (liftE (findFirstM (osTypeMatch ot) xs) st).then fun found st =>
        match found with
        | some o => liftE (getByKey key o) { st with os_type := o }
        | none => .fail ("OS type '" ++ ot ++ "' not found") st
      | _ => .fail "TypeError: not iterable" st
    else .fail ("OS type '" ++ ot ++ "' not found") st

/-- `project.lower() in [p['name'].lower(), p['id']]` -/
def projectMatch (p : String) (pd : PyVal) : Except String Bool := do
  let n ← pyGetItem pd "name"
  let i ← pyGetItem pd "id"
  match n with
  | .vstr ns => .ok ((pyStrLower p) == (pyStrLower ns) || pyEqB (.vstr (pyStrLower p)) i)
  | _ => .error "AttributeError: lower"

/-- `AnsibleCloudStack.get_project` -/
def get_project (E : Env) (key : Option String) (st : St) : Res PyVal :=
  if pyTruthy st.project then liftE (getByKey key st.project) st else
  match strOr E.params.project E.environ.project with
  | none => .ok .vnull st
  | some proj =>
    if proj = "" then .ok .vnull st else
    (base_get_account E (some "name") st).then fun acc st =>
    (get_domain E (some "id") st).then fun did st =>
    (emitCall (.listProjects [("account", acc), ("domainid", did)])
        E.listProjectsResp st).then fun resp st =>
    if pyTruthy resp then
      (liftE (pyGetItem resp "project") st).then fun pl st =>
      match pl with
      | .vlist xs =>
        (liftE (findFirstM (projectMatch proj) xs) st).then fun found st =>
        match found with
        | some p => liftE (getByKey key p) { st with project := p }
        | none => .fail ("project '" ++ proj ++ "' not found") st
      | _ => .fail "TypeError: not iterable" st
    else .fail ("project '" ++ proj ++ "' not found") st

/-- `vpc in [v['displaytext'], v['name'], v['id']]` -/
def vpcMatch (name : String) (v : PyVal) : Except String Bool := do
  let dt ← pyGetItem v "displaytext"
  let n ← pyGetItem v "name"
  let i ← pyGetItem v "id"
  .ok (pyEqB (.vstr name) dt || pyEqB (.vstr name) n || pyEqB (.vstr name) i)

/-- `AnsibleCloudStack.get_vpc` -/
def get_vpc (E : Env) (key : Option String) (st : St) : Res PyVal :=
  if pyTruthy st.vpc then liftE (getByKey key st.vpc) st else
  match strOr E.params.vpc E.environ.vpc with
  | none => .ok .vnull st
  | some vpc =>
    if vpc = "" then .ok .vnull st else
    (base_get_account E (some "name") st).then fun acc st =>
    (get_domain E (some "id") st).then fun did st =>
    (get_project E (some "id") st).then fun pid st =>
    (get_zone E (some "id") st).then fun zid st =>
    (emitCall (.listVPCs
        [("account", acc), ("domainid", did), ("projectid", pid), ("zoneid", zid)])
        E.listVPCsResp st).then fun resp st =>
    if pyTruthy resp = false then .fail "No VPCs available." st else
    (liftE (pyGetItem resp "vpc") st).then fun vl st =>
    match vl with
    | .vlist xs =>
      (liftE (findFirstM (vpcMatch vpc) xs) st).then fun found st =>
      match found with
      | some v => liftE (getByKey key v) { st with vpc := v }
      | none => .fail ("VPC '" ++ vpc ++ "' not found") st
    | _ => .fail "TypeError: not iterable" st

/-- `n['id']` for every entry of a VPC's `network` list. -/
def netIdsOf : List PyVal → Except String (List PyVal)
  | [] => .ok []
  | n :: rest => do
    let i ← pyGetItem n "id"
    let more ← netIdsOf rest
    .ok (i :: more)

/-- Collect `n['id']` over `vpc.get('network', [])` for every VPC in the
response. -/
def collectVpcNetIds : List PyVal → Except String (List PyVal)
  | [] => .ok []
  | v :: rest =>
    match v with
    | .vdict d =>
      match dget d "network" with
      | none => collectVpcNetIds rest
      | some (.vlist ns) => do
        let ids ← netIdsOf ns
        let more ← collectVpcNetIds rest
        .ok (ids ++ more)
      | some _ => .error "TypeError: not iterable"
    | _ => .error "AttributeError: get"

/-- `AnsibleCloudStack.is_vpc_network`: memoizes the ids of all
VPC-associated networks, then answers membership. -/
def is_vpc_network (E : Env) (network_id : PyVal) (st : St) : Res Bool :=
  match st.vpcNetworksIds with
  | some ids => .ok (ids.any (pyEqB network_id)) st
  | none =>
    (base_get_account E (some "name") st).then fun acc st =>
    (get_domain E (some "id") st).then fun did st =>
    (get_project E (some "id") st).then fun pid st =>
    (get_zone E (some "id") st).then fun zid st =>
    (emitCall (.listVPCs
        [("account", acc), ("domainid", did), ("projectid", pid), ("zoneid", zid)])
        E.listVPCsResp st).then fun resp st =>
    let st := { st with vpcNetworksIds := some [] }
    if pyTruthy resp then
      (liftE (pyGetItem resp "vpc") st).then fun vl st =>
      match vl with
      | .vlist vs =>
        (liftE (collectVpcNetIds vs) st).then fun ids st =>
        .ok (ids.any (pyEqB network_id)) { st with vpcNetworksIds := some ids }
      | _ => .fail "TypeError: not iterable" st
    else .ok false st

/-- The `networkid` of the first NIC with a truthy `isdefault` flag. -/
def findDefaultNic : List PyVal → Except String (Option PyVal)
  | [] => .ok none
  | n :: rest =>
    match n with
    | .vdict d =>
      let isdef := match dget d "isdefault" with | some x => x | none => .vbool false
      if pyTruthy isdef then
        match dget d "networkid" with
        | some nid => .ok (some nid)
        | none => .error "KeyError: networkid"
      else findDefaultNic rest
    | _ => .error "AttributeError: get"

/-- `AnsibleCloudStack.is_vm_in_vpc` -/
def is_vm_in_vpc (E : Env) (vm : PyVal) (st : St) : Res Bool :=
  match vm with
  | .vdict d =>
    match dget d "nic" with
    | some (.vlist ns) =>
      (liftE (findDefaultNic ns) st).then fun found st =>
      match found with
      | some nid => is_vpc_network E nid st
      | none => .fail "VM has no default nic" st
    | _ => .fail "TypeError: not iterable" st
  | _ => .fail "AttributeError: get" st

/-- `vm.lower() in [v['name'].lower(), v['displayname'].lower(), v['id']]` -/
def vmMatch (vmName : String) (v : PyVal) : Except String Bool := do
  let n ← pyGetItem v "name"
  let dn ← pyGetItem v "displayname"
  let i ← pyGetItem v "id"
  match n, dn with
  | .vstr ns, .vstr ds =>
    .ok ((pyStrLower vmName) == (pyStrLower ns) || (pyStrLower vmName) == (pyStrLower ds)
          || pyEqB (.vstr (pyStrLower vmName)) i)
  | _, _ => .error "AttributeError: lower"

/-- The candidate loop of `get_vm`: VPC-membership filtering (only when no
VPC scope was given) followed by the name match. -/
def vmFindLoop (E : Env) (vmName : String) (vpcId : PyVal) :
    List PyVal → St → Res (Option PyVal)
  | [], st => .ok none st
  | v :: rest, st =>
    (if pyTruthy vpcId = false then is_vm_in_vpc E v st else .ok false st).then fun skip st =>
    if skip then vmFindLoop E vmName vpcId rest st
    else
      (liftE (vmMatch vmName v) st).then fun m st =>
      if m then .ok (some v) st else vmFindLoop E vmName vpcId rest st

/-- `AnsibleCloudStack.get_vm` -/
def get_vm (E : Env) (key : Option String) (st : St) : Res PyVal :=
  if pyTruthy st.vm then liftE (getByKey key st.vm) st else
  match E.params.vm with
  | none => .fail "Virtual machine param 'vm' is required" st
  | some vmName =>
    if vmName = "" then .fail "Virtual machine param 'vm' is required" st else
    (get_vpc E (some "id") st).then fun vpcId st =>
    (base_get_account E (some "name") st).then fun acc st =>
    (get_domain E (some "id") st).then fun did st =>
    (get_project E (some "id") st).then fun pid st =>
    (get_zone E (some "id") st).then fun zid st =>
    (emitCall (.listVirtualMachines
        [("account", acc), ("domainid", did), ("projectid", pid), ("zoneid", zid),
         ("vpcid", vpcId)]) E.listVirtualMachinesResp st).then fun resp st =>
    (if pyTruthy resp then
      (liftE (pyGetItem resp "virtualmachine") st).then fun vl st =>
      match vl with
      | .vlist xs => vmFindLoop E vmName vpcId xs st
      | _ => .fail "TypeError: not iterable" st
     else .ok none st).then fun found st =>
    match found with
    | some v => liftE (getByKey key v) { st with vm := v }
    | none => .fail ("Virtual machine '" ++ vmName ++ "' not found") st

/-- `network in [n['displaytext'], n['name'], n['id']]` -/
def netMatch (name : String) (n : PyVal) : Except String Bool := do
  let dt ← pyGetItem n "displaytext"
  let nm ← pyGetItem n "name"
  let i ← pyGetItem n "id"
  .ok (pyEqB (.vstr name) dt || pyEqB (.vstr name) nm || pyEqB (.vstr name) i)

/-- The candidate loop of `get_network`: any VPC network is skipped when
the `vpc` parameter is unset. -/
def netFindLoop (E : Env) (netName : String) : List PyVal → St → Res (Option PyVal)
  | [], st => .ok none st
  | n :: rest, st =>
    match n with
    | .vdict d =>
      (if (dget d "vpcid").isSome then
        (get_vpc E (some "id") st).then fun vid st => .ok (!pyTruthy vid) st
       else .ok false st).then fun skip st =>
      if skip then netFindLoop E netName rest st
      else
        (liftE (netMatch netName n) st).then fun m st =>
        if m then .ok (some n) st else netFindLoop E netName rest st
    | _ => .fail "TypeError: argument of type is not iterable" st

/-- `AnsibleCloudStack.get_network` -/
def get_network (E : Env) (key : Option String) (st : St) : Res PyVal :=
  if pyTruthy st.network then liftE (getByKey key st.network) st else
  match E.params.network with
  | none => .ok .vnull st
  | some net =>
    if net = "" then .ok .vnull st else
    (base_get_account E (some "name") st).then fun acc st =>
    (get_domain E (some "id") st).then fun did st =>
    (get_project E (some "id") st).then fun pid st =>
    (get_zone E (some "id") st).then fun zid st =>
    (get_vpc E (some "id") st).then fun vid st =>
    (emitCall (.listNetworks
        [("account", acc), ("domainid", did), ("projectid", pid), ("zoneid", zid),
         ("vpcid", vid)]) E.listNetworksResp st).then fun resp st =>
    if pyTruthy resp = false then .fail "No networks available." st else
    (liftE (pyGetItem resp "network") st).then fun nl st =>
    match nl with
    | .vlist xs =>
      (netFindLoop E net xs st).then fun found st =>
      match found with
      | some n => liftE (getByKey key n) { st with network := n }
      | none => .fail ("Network '" ++ net ++ "' not found") st
    | _ => .fail "TypeError: not iterable" st

/-- Read the tag dictionaries of `resource.get('tags', [])` back into
key/value pairs (`AnsibleCloudStack.get_tags`; CloudStack tags are
string key/value pairs). -/
def tagsOfList : List PyVal → Except String (List Tag)
  | [] => .ok []
  | x :: rest =>
    match tagOfPy x with
    | some t => do
      let ts ← tagsOfList rest
      .ok (t :: ts)
    | none => .error "KeyError: key"

/-- `AnsibleCloudStack.get_tags` -/
def get_tags (resource : PyDict) : Except String (List Tag) :=
  match dget resource "tags" with
  | none => .ok []
  | some (.vlist xs) => tagsOfList xs
  | some _ => .error "TypeError: not iterable"

/-- `AnsibleCloudStack._tags_that_should_exist_or_be_updated` -/
def tags_that_should_exist_or_be_updated (resource : PyDict) (ts : List Tag) :
    Except String (List Tag) := do
  let ex ← get_tags resource
  .ok (ts.filter (fun t => !decide (t ∈ ex)))

/-- `AnsibleCloudStack._tags_that_should_not_exist` -/
def tags_that_should_not_exist (resource : PyDict) (ts : List Tag) :
    Except String (List Tag) := do
  let ex ← get_tags resource
  .ok (ex.filter (fun t => !decide (t ∈ ts)))

/-- The body of the `while True` polling loop of
`AnsibleCloudStack.poll_job`, consuming the environment's stream of
`queryAsyncJobResult` responses. -/
def pollLoop (jid : PyVal) (key : Option String) (job : PyVal) :
    List PyVal → St → Res PyVal
  | [], st => .fail "DIVERGENCE: job status response stream exhausted while pending" st
  | r :: rest, st =>
    let st := { st with trace := st.trace ++ [.queryAsyncJobResult jid], jobResps := rest }
    match r with
    | .vdict rd =>
      match dget rd "jobstatus" with
      | none => .fail "KeyError: jobstatus" st
      | some status =>
        if neZeroPy status && (dget rd "jobresult").isSome then
          match dget rd "jobresult" with
          | some (.vdict jrd) =>
            match dget jrd "errortext" with
            | some e => .fail ("Failed: '" ++ pyFmt e ++ "'") st
            | none =>
              match key with
              | some k =>
                match dget jrd k with
                | some v => .ok v st
                | none => .ok job st
              | none => .ok job st
          | _ => .fail "TypeError: argument of type is not iterable" st
        else pollLoop jid key job rest st
    | _ => .fail "TypeError: string indices must be integers" st

/-- `AnsibleCloudStack.poll_job`: a response without a `jobid` field is
returned unchanged without any status query. -/
def poll_job (job : PyVal) (key : Option String) (st : St) : Res PyVal :=
  match job with
  | .vdict d =>
    match dget d "jobid" with
    | some jid => pollLoop jid key job st.jobResps st
    | none => .ok job st
  | .vstr s =>
    if (s.splitOn "jobid").length > 1 then
      .fail "TypeError: string indices must be integers" st
    else .ok job st
  | .vlist xs =>
    if xs.any (pyEqB (.vstr "jobid")) then
      .fail "TypeError: list indices must be integers" st
    else .ok job st
  | _ => .fail "TypeError: argument of type is not iterable" st

/-- `self.case_sensitive_keys` of the base class. -/
def case_sensitive_keys : List String := ["id", "displaytext", "displayname", "description"]

/-- The wanted value in the numeric branch of `has_changed`
(`isinstance(value, (int, float, long, complex))`; booleans are `int`
instances in Python). -/
def pyNumVal : PyVal → Option Int
  | .vint n => some n
  | .vbool b => some (if b then 1 else 0)
  | _ => none

/-- Output of one `has_changed` evaluation: the boolean result, the two
diff dictionaries and the (mutated) current dictionary. -/
structure HCOut : Type where
  changed : Bool
  before : PyDict
  after : PyDict
  current : PyDict

/-- `value is None` (skip test of `has_changed`). -/
def PyVal.isNull : PyVal → Bool
  | .vnull => true
  | _ => false

/-- The string branch of `has_changed`: keys listed in
`case_sensitive_keys` are compared case-sensitively, every other string
field case-insensitively; a non-string wanted or current value raises.
Returns whether the field differs. -/
def strDiffers (k : String) (v c : PyVal) : Except String Bool :=
  match v, c with
  | .vstr s, .vstr cs =>
    if !case_sensitive_keys.isEmpty && case_sensitive_keys.contains k then .ok (s ≠ cs)
    else .ok ((pyStrLower s) ≠ (pyStrLower cs))
  | .vstr _, _ => .error "AttributeError: encode"
  | _, _ => .error "AttributeError: lower"

/-- `only_keys and key not in only_keys`: the key filter of
`has_changed`. -/
def onlySkip (only : Option (List String)) (k : String) : Bool :=
  match only with
  | some ks => !(ks.contains k)
  | none => false

/-- The field loop of `AnsibleCloudStack.has_changed`, threading the
current dictionary (which the numeric branch mutates in place) and the
`diff` dictionaries of the result object. -/
def hasChangedCore (only : Option (List String)) :
    List (String × PyVal) → PyDict → PyDict → PyDict → Bool → Except String HCOut
  | [], cur, db, da, acc => .ok ⟨acc, db, da, cur⟩
  | (k, v) :: rest, cur, db, da, acc =>
    if onlySkip only k then
      hasChangedCore only rest cur db da acc
    else if v.isNull then
      hasChangedCore only rest cur db da acc
    else
      match dget cur k with
      | some c =>
        match pyNumVal v with
        | some n =>
          match pyToInt c with
          | none => .error "ValueError: invalid literal for int()"
          | some m =>
            let cur' := dset cur k (.vint m)
            if n ≠ m then
              hasChangedCore only rest cur' (dset db k (.vint m)) (dset da k v) true
            else hasChangedCore only rest cur' db da acc
        | none =>
          match strDiffers k v c with
          | .error m => .error m
          | .ok true => hasChangedCore only rest cur (dset db k c) (dset da k v) true
          | .ok false => hasChangedCore only rest cur db da acc
      | none =>
        hasChangedCore only rest cur (dset db k .vnull) (dset da k v) true

/-- `AnsibleCloudStack.has_changed`: runs the field loop against the
`diff` dictionaries of the result object and returns the flag together
with the mutated current dictionary. -/
def has_changed (want current : PyDict) (only : Option (List String)) (st : St) :
    Res (Bool × PyDict) :=
  match hasChangedCore only want current st.diffBefore st.diffAfter false with
  | .error m => .fail m st
  | .ok o => .ok (o.changed, o.current) { st with diffBefore := o.before, diffAfter := o.after }

/-- `AnsibleCloudStack._process_tags` -/
def process_tags (E : Env) (cm : Bool) (resource : PyDict) (rtype : String)
    (ts : List Tag) (operation : String) (st : St) : Res Unit :=
  if ts.isEmpty then .ok () st
  else
    let st := setChanged st
    if cm then .ok () st
    else
      (liftE (pyGetItem (.vdict resource) "id") st).then fun rid st =>
      let args : PyDict :=
        [("resourceids", rid), ("resourcetype", .vstr rtype), ("tags", tagsVal ts)]
      let call := if operation = "create" then Call.createTags args ts else Call.deleteTags args ts
      let resp := if operation = "create" then E.createTagsResp else E.deleteTagsResp
      (emitCall call resp st).then fun resp st =>
      (poll_job resp none st).then fun _ st =>
      .ok () st

/-- `AnsibleCloudStack.ensure_tags` -/
def ensure_tags (E : Env) (cm : Bool) (resource : PyDict) (resource_type : Option String)
    (st : St) : Res PyDict :=
  if !strTruthy resource_type || resource.isEmpty then
    .fail "Error: Missing resource or resource_type for tags." st
  else
    let rt := resource_type.getD ""
    if (dget resource "tags").isSome then
      match E.params.tags with
      | none => .ok resource st
      | some ts =>
        (liftE (tags_that_should_not_exist resource ts) st).then fun rm st =>
        (process_tags E cm resource rt rm "delete" st).then fun _ st =>
        (liftE (tags_that_should_exist_or_be_updated resource ts) st).then fun add st =>
        (process_tags E cm resource rt add "create" st).then fun _ st =>
        .ok (dset resource "tags" (tagsVal ts)) st
    else .ok resource st

/-- Python `in` on a response value: key membership for dictionaries,
substring for strings, element membership for lists. -/
def pyContains (v : PyVal) (k : String) : Except String Bool :=
  match v with
  | .vdict d => .ok (dget d k).isSome
  | .vstr s => .ok ((s.splitOn k).length > 1)
  | .vlist xs => .ok (xs.any (pyEqB (.vstr k)))
  | _ => .error "TypeError: argument of type is not iterable"

/-- `if 'errortext' in res: fail_json(msg="Failed: '%s'" % res['errortext'])` -/
def errCheck (res : PyVal) : Except String Unit := do
  let b ← pyContains res "errortext"
  if b then do
    let e ← pyGetItem res "errortext"
    Except.error ("Failed: '" ++ pyFmt e ++ "'")
  else .ok ()

/-- `.lower()` on a response value. -/
def pyLower (v : PyVal) : Except String String :=
  match v with
  | .vstr s => .ok (pyStrLower s)
  | _ => .error "AttributeError: lower"

/-- `AnsibleModule.fail_on_missing_params`: a parameter is missing when
it is `None`. -/
def fail_on_missing_params (required : List (String × Option String)) (st : St) : Res Unit :=
  let missing := (required.filter (fun p => p.2.isNone)).map Prod.fst
  if missing.isEmpty then .ok () st
  else .fail ("missing required arguments: " ++ String.intercalate ", " missing) st

/-- `account_name == a['name']` -/
def accNameMatch (name : Option String) (a : PyVal) : Except String Bool := do
  let n ← pyGetItem a "name"
  .ok (pyEqB (optV name) n)

/-- `AnsibleCloudStackAccount.get_account` (the override in the account
module: lists the accounts of the domain and picks the one whose name
matches the `name` parameter exactly). -/
def acc_get_account (E : Env) (st : St) : Res PyVal :=
  if pyTruthy st.account then .ok st.account st else
  (get_domain E (some "id") st).then fun did st =>
  (emitCall (.listAccounts [("listall", .vbool true), ("domainid", did)])
      E.listAccountsResp st).then fun resp st =>
  if pyTruthy resp then
    (liftE (pyGetItem resp "account") st).then fun al st =>
    match al with
    | .vlist xs =>
      (liftE (findFirstM (accNameMatch E.params.name) xs) st).then fun found st =>
      match found with
      | some a => .ok a { st with account := a }
      | none => .ok st.account st
    | _ => .fail "TypeError: not iterable" st
  else .ok st.account st

/-- `AnsibleCloudStackAccount.get_account_type`
(`self.account_types[account_type]`). -/
def get_account_type (E : Env) : Except String Int :=
  match E.params.account_type with
  | some "user" => .ok 0
  | some "root_admin" => .ok 1
  | some "domain_admin" => .ok 2
  | _ => .error "KeyError: account_type"

/-- The required-parameter list checked by `present_account`. -/
def accountRequiredParams (E : Env) : List (String × Option String) :=
  [("email", E.params.email), ("username", E.params.username),
   ("password", E.params.password), ("first_name", E.params.first_name),
   ("last_name", E.params.last_name)]

/-- The required-parameter list checked by `_create_cluster`. -/
def clusterRequiredParams (E : Env) : List (String × Option String) :=
  [("cluster_type", E.params.cluster_type), ("hypervisor", E.params.hypervisor)]

/-- `AnsibleCloudStackAccount.present_account` -/
def present_account (E : Env) (cm : Bool) (st : St) : Res PyVal :=
  (fail_on_missing_params (accountRequiredParams E) st).then fun _ st =>
  (acc_get_account E st).then fun account st =>
  if pyTruthy account then .ok account st
  else
    let st := setChanged st
    (get_domain E (some "id") st).then fun did st =>
    (liftE (get_account_type E) st).then fun atype st =>
    let args : PyDict :=
      [("account", optV E.params.name), ("domainid", did), ("accounttype", .vint atype),
       ("networkdomain", optV E.params.network_domain), ("username", optV E.params.username),
       ("password", optV E.params.password), ("firstname", optV E.params.first_name),
       ("lastname", optV E.params.last_name), ("email", optV E.params.email),
       ("timezone", optV E.params.timezone)]
    if cm then .ok account st
    else
      (emitCall (.createAccount args) E.createAccountResp st).then fun res st =>
      (liftE (errCheck res) st).then fun _ st =>
      (liftE (pyGetItem res "account") st).then fun acc st =>
      .ok acc st

/-- `AnsibleCloudStackAccount.absent_account` -/
def absent_account (E : Env) (cm : Bool) (st : St) : Res PyVal :=
  (acc_get_account E st).then fun account st =>
  if pyTruthy account then
    let st := setChanged st
    if cm then .ok account st
    else
      (liftE (pyGetItem account "id") st).then fun aid st =>
      (emitCall (.deleteAccount aid) E.deleteAccountResp st).then fun res st =>
      (liftE (errCheck res) st).then fun _ st =>
      (if E.params.poll_async then
        (poll_job res (some "account") st).then fun _ st => .ok () st
       else .ok () st).then fun _ st =>
      .ok account st
  else .ok account st

/-- `AnsibleCloudStackAccount.enable_account` -/
def enable_account (E : Env) (cm : Bool) (st : St) : Res PyVal :=
  (acc_get_account E st).then fun account st =>
  (if pyTruthy account then .ok account st else present_account E cm st).then fun account st =>
  (liftE (pyGetItem account "state") st).then fun state st =>
  (liftE (pyLower state) st).then fun sl st =>
  if sl = "enabled" then .ok account st
  else
    let st := setChanged st
    (liftE (pyGetItem account "id") st).then fun aid st =>
    (get_domain E (some "id") st).then fun did st =>
    let args : PyDict := [("id", aid), ("account", optV E.params.name), ("domainid", did)]
    if cm then .ok account st
    else
      (emitCall (.enableAccount args) E.enableAccountResp st).then fun res st =>
      (liftE (errCheck res) st).then fun _ st =>
      (liftE (pyGetItem res "account") st).then fun acc st =>
      .ok acc st

/-- `AnsibleCloudStackAccount.lock_or_disable_account` (an account in
`disabled` state is first enabled before it can be locked). -/
def lock_or_disable_account (E : Env) (cm : Bool) (lock : Bool) (st : St) : Res PyVal :=
  (acc_get_account E st).then fun account st =>
  (if pyTruthy account then .ok account st else present_account E cm st).then fun account st =>
  (if lock then
     (liftE (pyGetItem account "state") st).then fun s st =>
     (liftE (pyLower s) st).then fun sl st =>
     if sl = "disabled" then enable_account E cm st else .ok account st
   else .ok account st).then fun account st =>
  (liftE (pyGetItem account "state") st).then fun s st =>
  (liftE (pyLower s) st).then fun sl st =>
  if (lock = true ∧ sl ≠ "locked") ∨ (lock = false ∧ sl ≠ "disabled") then
    let st := setChanged st
    (liftE (pyGetItem account "id") st).then fun aid st =>
    (get_domain E (some "id") st).then fun did st =>
    let args : PyDict :=
      [("id", aid), ("account", optV E.params.name), ("domainid", did), ("lock", .vbool lock)]
    if cm then .ok account st
    else
      (emitCall (.disableAccount args) E.disableAccountResp st).then fun res st =>
      (liftE (errCheck res) st).then fun _ st =>
      (if E.params.poll_async then poll_job res (some "account") st else .ok res st).then
        fun account st =>
      .ok account st
  else .ok account st

/-- `AnsibleCloudStackAccount.lock_account` -/
def lock_account (E : Env) (cm : Bool) (st : St) : Res PyVal :=
  lock_or_disable_account E cm true st

/-- `AnsibleCloudStackAccount.disable_account` -/
def disable_account (E : Env) (cm : Bool) (st : St) : Res PyVal :=
  lock_or_disable_account E cm false st

/-- Python `str.capitalize()`. -/
def pyCapitalize (s : String) : String :=
  match s.toList with
  | [] => ""
  | c :: rest => String.mk (c.toUpper :: rest.map Char.toLower)

/-- `AnsibleCloudStackCluster._get_common_cluster_args` -/
def get_common_cluster_args (E : Env) : PyDict :=
  let args : PyDict :=
    [("clustername", optV E.params.name), ("hypervisor", optV E.params.hypervisor),
     ("clustertype", optV E.params.cluster_type)]
  match E.params.state with
  | some s =>
    if s = "enabled" ∨ s = "disabled" then
      dset args "allocationstate" (.vstr (pyCapitalize s))
    else args
  | none => args

/-- `AnsibleCloudStackCluster.get_pod` (no caching; picks the first pod
of the response). -/
def get_pod (E : Env) (key : Option String) (st : St) : Res PyVal :=
  (get_zone E (some "id") st).then fun zid st =>
  let args : PyDict := [("name", optV E.params.pod), ("zoneid", zid)]
  (emitCall (.listPods args) E.listPodsResp st).then fun resp st =>
  if pyTruthy resp then
    (liftE (pyGetItem resp "pod") st).then fun pl st =>
    (liftE (pyIndex0 pl) st).then fun p st =>
    liftE (getByKey key p) st
  else
    (get_zone E (some "name") st).then fun zname st =>
    .fail ("Pod " ++ fmtOptStr E.params.pod ++ " not found in zone " ++ pyFmt zname ++ ".") st

/-- `AnsibleCloudStackCluster.get_cluster` (an `id`-filtered list first
when an id parameter is present, then a `name`-filtered list; the found
cluster dictionary gets `hypervisor`/`clustername` aliases added). -/
def get_cluster (E : Env) (st : St) : Res PyVal :=
  if pyTruthy st.cluster then .ok st.cluster st else
  let uuid := E.params.id
  let args0 : PyDict := if strTruthy uuid then [("id", optV uuid)] else []
  (if strTruthy uuid then
    (emitCall (.listClusters args0) (E.listClustersResp args0) st).then fun resp st =>
    if pyTruthy resp then
      (liftE (pyGetItem resp "cluster") st).then fun cl st =>
      (liftE (pyIndex0 cl) st).then fun c st =>
      .ok (some c) { st with cluster := c }
    else .ok none st
   else .ok none st).then fun found st =>
  match found with
  | some c => .ok c st
  | none =>
    let args := dset args0 "name" (optV E.params.name)
    (emitCall (.listClusters args) (E.listClustersResp args) st).then fun resp st =>
    if pyTruthy resp then
      (liftE (pyGetItem resp "cluster") st).then fun c st =>
      (liftE (pyIndex0 c) st).then fun c st =>
      let st := { st with cluster := c }
      (liftE (pyGetItem c "hypervisortype") st).then fun ht st =>
      match c with
      | .vdict cd =>
        let cd := dset cd "hypervisor" ht
        (liftE (pyGetItem (.vdict cd) "name") st).then fun nm st =>
        let cd := dset cd "clustername" nm
        .ok (.vdict cd) { st with cluster := .vdict cd }
      | _ => .fail "TypeError: object does not support item assignment" st
    else .ok st.cluster st

/-- `AnsibleCloudStackCluster._create_cluster` -/
def create_cluster (E : Env) (cm : Bool) (st : St) : Res PyVal :=
  (fail_on_missing_params (clusterRequiredParams E) st).then fun _ st =>
  (get_zone E (some "id") st).then fun zid st =>
  (get_pod E (some "id") st).then fun pid st =>
  let args := get_common_cluster_args E
  let args := dset args "zoneid" zid
  let args := dset args "podid" pid
  let args := dset args "url" (optV E.params.url)
  let args := dset args "username" (optV E.params.username)
  let args := dset args "password" (optV E.params.password)
  let args := dset args "guestvswitchname" (optV E.params.guest_vswitch_name)
  let args := dset args "guestvswitchtype" (optV E.params.guest_vswitch_type)
  let args := dset args "publicvswitchtype" (optV E.params.public_vswitch_name)
  let args := dset args "publicvswitchtype" (optV E.params.public_vswitch_type)
  let args := dset args "vsmipaddress" (optV E.params.vms_ip_address)
  let args := dset args "vsmusername" (optV E.params.vms_username)
  let args := dset args "vmspassword" (optV E.params.vms_password)
  let args := dset args "ovm3cluster" (optV E.params.ovm3_cluster)
  let args := dset args "ovm3pool" (optV E.params.ovm3_pool)
  let args := dset args "ovm3vip" (optV E.params.ovm3_vip)
  let st := setChanged st
  if cm then .ok .vnull st
  else
    (emitCall (.addCluster args) E.addClusterResp st).then fun res st =>
    (liftE (errCheck res) st).then fun _ st =>
    (liftE (pyGetItem res "cluster") st).then fun cl st =>
    match cl with
    | .vlist _ => (liftE (pyIndex0 cl) st).then fun c st => .ok c st
    | c => .ok c st

/-- `AnsibleCloudStackCluster._update_cluster` (a `has_changed` diff over
the common arguments decides whether an update call is issued; the diff
coerces values inside the cached cluster dictionary in place). -/
def update_cluster (E : Env) (cm : Bool) (st : St) : Res PyVal :=
  (get_cluster E st).then fun cluster st =>
  (liftE (pyGetItem cluster "id") st).then fun cid st =>
  let args := dset (get_common_cluster_args E) "id" cid
  (match cluster with
   | .vdict cd => has_changed args cd none st
   | _ => .fail "TypeError: argument of type is not iterable" st).then fun bc st =>
  let cluster := PyVal.vdict bc.2
  let st := { st with cluster := cluster }
  if bc.1 then
    let st := setChanged st
    if cm then .ok cluster st
    else
      (emitCall (.updateCluster args) E.updateClusterResp st).then fun res st =>
      (liftE (errCheck res) st).then fun _ st =>
      (liftE (pyGetItem res "cluster") st).then fun c st =>
      .ok c st
  else .ok cluster st

/-- `AnsibleCloudStackCluster.present_cluster` -/
def present_cluster (E : Env) (cm : Bool) (st : St) : Res PyVal :=
  (get_cluster E st).then fun cluster st =>
  if pyTruthy cluster then update_cluster E cm st else create_cluster E cm st

/-- `AnsibleCloudStackCluster.absent_cluster` -/
def absent_cluster (E : Env) (cm : Bool) (st : St) : Res PyVal :=
  (get_cluster E st).then fun cluster st =>
  if pyTruthy cluster then
    let st := setChanged st
    (liftE (pyGetItem cluster "id") st).then fun cid st =>
    let args : PyDict := [("id", cid)]
    if cm then .ok cluster st
    else
      (emitCall (.deleteCluster args) E.deleteClusterResp st).then fun res st =>
      (liftE (errCheck res) st).then fun _ st =>
      .ok cluster st
  else .ok cluster st

/-- `AnsibleCloudStackNic.get_nic` (note the `networkdid` request key and
the malformed not-found `fail_json` invocation of the source, which
raises a `TypeError` after evaluating its arguments). -/
def get_nic (E : Env) (st : St) : Res PyVal :=
  if pyTruthy st.nic then .ok st.nic st else
  (get_vm E (some "id") st).then fun vmid st =>
  (get_network E (some "id") st).then fun nid st =>
  let args : PyDict := [("virtualmachineid", vmid), ("networkdid", nid)]
  (emitCall (.listNics args) E.listNicsResp st).then fun resp st =>
  if pyTruthy resp then
    (liftE (pyGetItem resp "nic") st).then fun nl st =>
    (liftE (pyIndex0 nl) st).then fun n st =>
    .ok n { st with nic := n }
  else
    (get_vm E (some "name") st).then fun _ st =>
    (get_network E (some "name") st).then fun _ st =>
    .fail "TypeError: 'str' object is not callable" st

/-- `secondary_ip['ipaddress'] == self.vm_guest_ip` -/
def secIpMatch (ip : PyVal) (sec : PyVal) : Except String Bool := do
  let a ← pyGetItem sec "ipaddress"
  .ok (pyEqB a ip)

/-- `AnsibleCloudStackNic.get_secondary_ip` -/
def get_secondary_ip (E : Env) (st : St) : Res PyVal :=
  (get_nic E st).then fun nic st =>
  if pyTruthy st.vmGuestIp then
    (liftE (match nic with
      | .vdict d =>
        match dget d "secondaryip" with
        | some (.vlist xs) => .ok xs
        | some v => if pyTruthy v then .error "TypeError: not iterable" else .ok []
        | none => .ok []
      | _ => .error "AttributeError: get") st).then fun xs st =>
    (liftE (findFirstM (secIpMatch st.vmGuestIp) xs) st).then fun found st =>
    match found with
    | some sec => .ok sec st
    | none => .ok .vnull st
  else .ok .vnull st

/-- `AnsibleCloudStackNic.present_nic` -/
def present_nic (E : Env) (cm : Bool) (st : St) : Res PyVal :=
  (get_nic E st).then fun nic st =>
  (get_secondary_ip E st).then fun sec st =>
  if pyTruthy sec then .ok nic st
  else
    let st := setChanged st
    (liftE (pyGetItem nic "id") st).then fun nid st =>
    let args : PyDict := [("nicid", nid), ("ipaddress", st.vmGuestIp)]
    if cm then .ok nic st
    else
      (emitCall (.addIpToNic args) E.addIpToNicResp st).then fun res st =>
      (liftE (errCheck res) st).then fun _ st =>
      if E.params.poll_async then
        (poll_job res (some "nicsecondaryip") st).then fun nic2 st =>
        (liftE (pyGetItem nic2 "ipaddress") st).then fun gip st =>
        .ok nic2 { st with vmGuestIp := gip }
      else .ok nic st

/-- `AnsibleCloudStackNic.absent_nic` (the error branch of the source
formats `nic['errortext']`, not the response's). -/
def absent_nic (E : Env) (cm : Bool) (st : St) : Res PyVal :=
  (get_nic E st).then fun nic st =>
  (get_secondary_ip E st).then fun sec st =>
  if pyTruthy sec then
    let st := setChanged st
    if cm then .ok nic st
    else
      (liftE (pyGetItem sec "id") st).then fun sid st =>
      (emitCall (.removeIpFromNic sid) E.removeIpFromNicResp st).then fun res st =>
      (liftE (do
        let b ← pyContains res "errortext"
        if b then do
          let e ← pyGetItem nic "errortext"
          Except.error ("Failed: '" ++ pyFmt e ++ "'")
        else Except.ok ()) st).then fun _ st =>
      (if E.params.poll_async then
        (poll_job res (some "nicsecondaryip") st).then fun _ st => .ok () st
       else .ok () st).then fun _ st =>
      .ok nic st
  else .ok nic st

/-! ### Frame lemmas: lookup helpers only append list calls -/

/-- `st'` extends `st` by read-only list calls and leaves the changed
flag and the diff untouched (lookup helpers satisfy this for their
result state, on success and on abort alike). -/
def StExt (st st' : St) : Prop :=
  (∃ new, st'.trace = st.trace ++ new ∧ new.all isListCall = true) ∧
  st'.changed = st.changed ∧ st'.diffBefore = st.diffBefore ∧ st'.diffAfter = st.diffAfter

theorem StExt.rflS (st : St) : StExt st st :=
  ⟨⟨[], by simp, by simp⟩, Eq.refl _, Eq.refl _, Eq.refl _⟩

theorem StExt.transS {a b c : St} (h1 : StExt a b) (h2 : StExt b c) : StExt a c := by
  obtain ⟨⟨n1, ht1, ha1⟩, hc1, hb1, hf1⟩ := h1
  obtain ⟨⟨n2, ht2, ha2⟩, hc2, hb2, hf2⟩ := h2
  refine ⟨⟨n1 ++ n2, ?_, ?_⟩, hc2.trans hc1, hb2.trans hb1, hf2.trans hf1⟩
  · rw [ht2, ht1, List.append_assoc]
  · simp_all [List.all_append]

theorem liftE_st {α : Type} (e : Except String α) (st : St) : (liftE e st).st = st := by
  cases e <;> rfl

theorem liftE_ok {α : Type} (a : α) (st : St) : liftE (Except.ok a) st = Res.ok a st := rfl

theorem liftE_error {α : Type} (m : String) (st : St) :
    (liftE (Except.error m) st : Res α) = Res.fail m st := rfl

theorem stExt_liftE {α : Type} (e : Except String α) (st0 st : St) (h : StExt st0 st) :
    StExt st0 (liftE e st).st := by
  rw [liftE_st]; exact h

theorem stExt_emitCall (c : Call) (resp : PyVal) (st0 st : St) (h : StExt st0 st)
    (hc : isListCall c = true) : StExt st0 (emitCall c resp st).st := by
  refine h.transS ⟨⟨[c], by simp [emitCall, Res.st], by simp [hc]⟩, ?_, ?_, ?_⟩ <;>
    simp [emitCall, Res.st]

theorem stExt_then {α β : Type} {st0 : St} {r : Res α} {f : α → St → Res β}
    (h1 : StExt st0 r.st) (h2 : ∀ a st1, StExt st0 st1 → StExt st0 (f a st1).st) :
    StExt st0 (r.then f).st := by
  cases r with
  | ok a st => exact h2 a st h1
  | fail m st => exact h1

theorem stExt_cache (st0 st st' : St)
    (h : StExt st0 st)
    (ht : st'.trace = st.trace) (hc : st'.changed = st.changed)
    (hb : st'.diffBefore = st.diffBefore) (hf : st'.diffAfter = st.diffAfter) :
    StExt st0 st' := by
  obtain ⟨⟨n, h1, h2⟩, h3, h4, h5⟩ := h
  exact ⟨⟨n, by rw [ht, h1], h2⟩, by rw [hc, h3], by rw [hb, h4], by rw [hf, h5]⟩

theorem get_domain_ext (E : Env) (key : Option String) (st : St) :
    StExt st (get_domain E key st).st := by
  unfold get_domain
  split
  · rw [liftE_st]; exact StExt.rflS st
  split
  · exact StExt.rflS st
  split
  · exact StExt.rflS st
  refine stExt_then (stExt_emitCall _ _ _ _ (StExt.rflS st) (by rfl)) ?_
  intro resp st1 h1
  split
  · refine stExt_then (stExt_liftE _ _ _ h1) ?_
    intro dl st2 h2
    split
    · refine stExt_then (stExt_liftE _ _ _ h2) ?_
      intro found st3 h3
      split
      · rw [liftE_st]
        exact stExt_cache _ _ _ h3 rfl rfl rfl rfl
      · exact h3
    · exact h2
  · exact h1

theorem stExt_then_call {α β : Type} {st0 st : St} {f : St → Res α} {g : α → St → Res β}
    (h : StExt st0 st) (hf : ∀ s, StExt s (f s).st)
    (hg : ∀ a st1, StExt st0 st1 → StExt st0 (g a st1).st) :
    StExt st0 ((f st).then g).st :=
  stExt_then (h.transS (hf st)) hg

theorem base_get_account_ext (E : Env) (key : Option String) (st : St) :
    StExt st (base_get_account E key st).st := by
  unfold base_get_account
  split
  · rw [liftE_st]; exact StExt.rflS st
  split
  · exact StExt.rflS st
  split
  · exact StExt.rflS st
  split
  · exact StExt.rflS st
  refine stExt_then_call (StExt.rflS st) (get_domain_ext E (some "id")) ?_
  intro did st1 h1
  refine stExt_then (stExt_emitCall _ _ _ _ h1 (by rfl)) ?_
  intro resp st2 h2
  split
  · refine stExt_then (stExt_liftE _ _ _ h2) ?_
    intro al st3 h3
    refine stExt_then (stExt_liftE _ _ _ h3) ?_
    intro a st4 h4
    rw [liftE_st]
    exact stExt_cache _ _ _ h4 rfl rfl rfl rfl
  · exact h2

theorem get_zone_ext (E : Env) (key : Option String) (st : St) :
    StExt st (get_zone E key st).st := by
  unfold get_zone
  split
  · rw [liftE_st]; exact StExt.rflS st
  refine stExt_then (stExt_emitCall _ _ _ _ (StExt.rflS st) (by rfl)) ?_
  intro resp st1 h1
  split
  · refine stExt_then (stExt_liftE _ _ _ h1) ?_
    intro zl st2 h2
    refine stExt_then (stExt_liftE _ _ _ h2) ?_
    intro z st3 h3
    rw [liftE_st]
    exact stExt_cache _ _ _ h3 rfl rfl rfl rfl
  · split
    · refine stExt_then (stExt_liftE _ _ _ h1) ?_
      intro zl st2 h2
      split
      · refine stExt_then (stExt_liftE _ _ _ h2) ?_
        intro found st3 h3
        split
        · rw [liftE_st]
          exact stExt_cache _ _ _ h3 rfl rfl rfl rfl
        · exact h3
      · exact h2
    · exact h1

theorem get_os_type_ext (E : Env) (key : Option String) (st : St) :
    StExt st (get_os_type E key st).st := by
  unfold get_os_type
  split
  · rw [liftE_st]; exact StExt.rflS st
  split
  · exact StExt.rflS st
  split
  · exact StExt.rflS st
  refine stExt_then (stExt_emitCall _ _ _ _ (StExt.rflS st) (by rfl)) ?_
  intro resp st1 h1
  split
  · refine stExt_then (stExt_liftE _ _ _ h1) ?_
    intro ol st2 h2
    split
    · refine stExt_then (stExt_liftE _ _ _ h2) ?_
      intro found st3 h3
      split
      · rw [liftE_st]
        exact stExt_cache _ _ _ h3 rfl rfl rfl rfl
      · exact h3
    · exact h2
  · exact h1

theorem get_project_ext (E : Env) (key : Option String) (st : St) :
    StExt st (get_project E key st).st := by
  unfold get_project
  split
  · rw [liftE_st]; exact StExt.rflS st
  split
  · exact StExt.rflS st
  split
  · exact StExt.rflS st
  refine stExt_then_call (StExt.rflS st) (base_get_account_ext E (some "name")) ?_
  intro acc st1 h1
  refine stExt_then (h1.transS (get_domain_ext E (some "id") st1)) ?_
  intro did st2 h2
  refine stExt_then (stExt_emitCall _ _ _ _ h2 (by rfl)) ?_
  intro resp st3 h3
  split
  · refine stExt_then (stExt_liftE _ _ _ h3) ?_
    intro pl st4 h4
    split
    · refine stExt_then (stExt_liftE _ _ _ h4) ?_
      intro found st5 h5
      split
      · rw [liftE_st]
        exact stExt_cache _ _ _ h5 rfl rfl rfl rfl
      · exact h5
    · exact h4
  · exact h3

theorem get_vpc_ext (E : Env) (key : Option String) (st : St) :
    StExt st (get_vpc E key st).st := by
  unfold get_vpc
  split
  · rw [liftE_st]; exact StExt.rflS st
  split
  · exact StExt.rflS st
  split
  · exact StExt.rflS st
  refine stExt_then_call (StExt.rflS st) (base_get_account_ext E (some "name")) ?_
  intro acc st1 h1
  refine stExt_then (h1.transS (get_domain_ext E (some "id") st1)) ?_
  intro did st2 h2
  refine stExt_then (h2.transS (get_project_ext E (some "id") st2)) ?_
  intro pid st3 h3
  refine stExt_then (h3.transS (get_zone_ext E (some "id") st3)) ?_
  intro zid st4 h4
  refine stExt_then (stExt_emitCall _ _ _ _ h4 (by rfl)) ?_
  intro resp st5 h5
  split
  · exact h5
  refine stExt_then (stExt_liftE _ _ _ h5) ?_
  intro vl st6 h6
  split
  · refine stExt_then (stExt_liftE _ _ _ h6) ?_
    intro found st7 h7
    split
    · rw [liftE_st]
      exact stExt_cache _ _ _ h7 rfl rfl rfl rfl
    · exact h7
  · exact h6

theorem is_vpc_network_ext (E : Env) (nid : PyVal) (st : St) :
    StExt st (is_vpc_network E nid st).st := by
  unfold is_vpc_network
  split
  · exact StExt.rflS st
  refine stExt_then_call (StExt.rflS st) (base_get_account_ext E (some "name")) ?_
  intro acc st1 h1
  refine stExt_then (h1.transS (get_domain_ext E (some "id") st1)) ?_
  intro did st2 h2
  refine stExt_then (h2.transS (get_project_ext E (some "id") st2)) ?_
  intro pid st3 h3
  refine stExt_then (h3.transS (get_zone_ext E (some "id") st3)) ?_
  intro zid st4 h4
  refine stExt_then (stExt_emitCall _ _ _ _ h4 (by rfl)) ?_
  intro resp st5 h5
  have h5' : StExt st { st5 with vpcNetworksIds := some [] } :=
    stExt_cache _ _ _ h5 rfl rfl rfl rfl
  split
  · refine stExt_then (stExt_liftE _ _ _ h5') ?_
    intro vl st6 h6
    split
    · refine stExt_then (stExt_liftE _ _ _ h6) ?_
      intro ids st7 h7
      exact stExt_cache _ _ _ h7 rfl rfl rfl rfl
    · exact h6
  · exact h5'

theorem is_vm_in_vpc_ext (E : Env) (vm : PyVal) (st : St) :
    StExt st (is_vm_in_vpc E vm st).st := by
  unfold is_vm_in_vpc
  split
  · split
    · refine stExt_then (stExt_liftE _ _ _ (StExt.rflS st)) ?_
      intro found st1 h1
      split
      · exact h1.transS (is_vpc_network_ext E _ st1)
      · exact h1
    · exact StExt.rflS st
  · exact StExt.rflS st

theorem vmFindLoop_ext (E : Env) (vmName : String) (vpcId : PyVal) (xs : List PyVal)
    (st : St) : StExt st (vmFindLoop E vmName vpcId xs st).st := by
  induction xs generalizing st with
  | nil => exact StExt.rflS st
  | cons v rest ih =>
    unfold vmFindLoop
    refine stExt_then ?_ ?_
    · split
      · exact is_vm_in_vpc_ext E v st
      · exact StExt.rflS st
    intro skip st1 h1
    split
    · exact h1.transS (ih st1)
    refine stExt_then (stExt_liftE _ _ _ h1) ?_
    intro m st2 h2
    split
    · exact h2
    · exact h2.transS (ih st2)

theorem get_vm_ext (E : Env) (key : Option String) (st : St) :
    StExt st (get_vm E key st).st := by
  unfold get_vm
  split
  · rw [liftE_st]; exact StExt.rflS st
  split
  · exact StExt.rflS st
  split
  · exact StExt.rflS st
  refine stExt_then_call (StExt.rflS st) (get_vpc_ext E (some "id")) ?_
  intro vpcId st1 h1
  refine stExt_then (h1.transS (base_get_account_ext E (some "name") st1)) ?_
  intro acc st2 h2
  refine stExt_then (h2.transS (get_domain_ext E (some "id") st2)) ?_
  intro did st3 h3
  refine stExt_then (h3.transS (get_project_ext E (some "id") st3)) ?_
  intro pid st4 h4
  refine stExt_then (h4.transS (get_zone_ext E (some "id") st4)) ?_
  intro zid st5 h5
  refine stExt_then (stExt_emitCall _ _ _ _ h5 (by rfl)) ?_
  intro resp st6 h6
  refine stExt_then ?_ ?_
  · split
    · refine stExt_then (stExt_liftE _ _ _ h6) ?_
      intro vl st7 h7
      split
      · exact h7.transS (vmFindLoop_ext E _ _ _ st7)
      · exact h7
    · exact h6
  intro found st8 h8
  split
  · rw [liftE_st]
    exact stExt_cache _ _ _ h8 rfl rfl rfl rfl
  · exact h8

theorem netFindLoop_ext (E : Env) (netName : String) (xs : List PyVal) (st : St) :
    StExt st (netFindLoop E netName xs st).st := by
  induction xs generalizing st with
  | nil => exact StExt.rflS st
  | cons n rest ih =>
    unfold netFindLoop
    split
    · refine stExt_then ?_ ?_
      · split
        · refine stExt_then_call (StExt.rflS st) (get_vpc_ext E (some "id")) ?_
          intro vid st1 h1
          exact h1
        · exact StExt.rflS st
      intro skip st1 h1
      split
      · exact h1.transS (ih st1)
      refine stExt_then (stExt_liftE _ _ _ h1) ?_
      intro m st2 h2
      split
      · exact h2
      · exact h2.transS (ih st2)
    · exact StExt.rflS st

theorem get_network_ext (E : Env) (key : Option String) (st : St) :
    StExt st (get_network E key st).st := by
  unfold get_network
  split
  · rw [liftE_st]; exact StExt.rflS st
  split
  · exact StExt.rflS st
  split
  · exact StExt.rflS st
  refine stExt_then_call (StExt.rflS st) (base_get_account_ext E (some "name")) ?_
  intro acc st1 h1
  refine stExt_then (h1.transS (get_domain_ext E (some "id") st1)) ?_
  intro did st2 h2
  refine stExt_then (h2.transS (get_project_ext E (some "id") st2)) ?_
  intro pid st3 h3
  refine stExt_then (h3.transS (get_zone_ext E (some "id") st3)) ?_
  intro zid st4 h4
  refine stExt_then (h4.transS (get_vpc_ext E (some "id") st4)) ?_
  intro vid st5 h5
  refine stExt_then (stExt_emitCall _ _ _ _ h5 (by rfl)) ?_
  intro resp st6 h6
  split
  · exact h6
  refine stExt_then (stExt_liftE _ _ _ h6) ?_
  intro nl st7 h7
  split
  · refine stExt_then (h7.transS (netFindLoop_ext E _ _ st7)) ?_
    intro found st8 h8
    split
    · rw [liftE_st]
      exact stExt_cache _ _ _ h8 rfl rfl rfl rfl
    · exact h8
  · exact h7

theorem acc_get_account_ext (E : Env) (st : St) :
    StExt st (acc_get_account E st).st := by
  unfold acc_get_account
  split
  · exact StExt.rflS st
  refine stExt_then_call (StExt.rflS st) (get_domain_ext E (some "id")) ?_
  intro did st1 h1
  refine stExt_then (stExt_emitCall _ _ _ _ h1 (by rfl)) ?_
  intro resp st2 h2
  split
  · refine stExt_then (stExt_liftE _ _ _ h2) ?_
    intro al st3 h3
    split
    · refine stExt_then (stExt_liftE _ _ _ h3) ?_
      intro found st4 h4
      split
      · exact stExt_cache _ _ _ h4 rfl rfl rfl rfl
      · exact h4
    · exact h3
  · exact h2

theorem get_pod_ext (E : Env) (key : Option String) (st : St) :
    StExt st (get_pod E key st).st := by
  unfold get_pod
  refine stExt_then_call (StExt.rflS st) (get_zone_ext E (some "id")) ?_
  intro zid st1 h1
  refine stExt_then (stExt_emitCall _ _ _ _ h1 (by rfl)) ?_
  intro resp st2 h2
  split
  · refine stExt_then (stExt_liftE _ _ _ h2) ?_
    intro pl st3 h3
    refine stExt_then (stExt_liftE _ _ _ h3) ?_
    intro p st4 h4
    rw [liftE_st]
    exact h4
  · refine stExt_then (h2.transS (get_zone_ext E (some "name") st2)) ?_
    intro zname st3 h3
    exact h3

theorem get_cluster_ext (E : Env) (st : St) :
    StExt st (get_cluster E st).st := by
  unfold get_cluster
  split
  · exact StExt.rflS st
  refine stExt_then ?_ ?_
  · split
    · refine stExt_then (stExt_emitCall _ _ _ _ (StExt.rflS st) (by rfl)) ?_
      intro resp st1 h1
      split
      · refine stExt_then (stExt_liftE _ _ _ h1) ?_
        intro cl st2 h2
        refine stExt_then (stExt_liftE _ _ _ h2) ?_
        intro c st3 h3
        exact stExt_cache _ _ _ h3 rfl rfl rfl rfl
      · exact h1
    · exact StExt.rflS st
  intro found st1 h1
  split
  · exact h1
  refine stExt_then (stExt_emitCall _ _ _ _ h1 (by rfl)) ?_
  intro resp st2 h2
  split
  · refine stExt_then (stExt_liftE _ _ _ h2) ?_
    intro cl st3 h3
    refine stExt_then (stExt_liftE _ _ _ h3) ?_
    intro c st4 h4
    have h4' : StExt st { st4 with cluster := c } :=
      stExt_cache _ _ _ h4 rfl rfl rfl rfl
    refine stExt_then (stExt_liftE _ _ _ h4') ?_
    intro ht st5 h5
    split
    · refine stExt_then (stExt_liftE _ _ _ h5) ?_
      intro nm st6 h6
      exact stExt_cache _ _ _ h6 rfl rfl rfl rfl
    · exact h5
  · exact h2

theorem get_nic_ext (E : Env) (st : St) :
    StExt st (get_nic E st).st := by
  unfold get_nic
  split
  · exact StExt.rflS st
  refine stExt_then_call (StExt.rflS st) (get_vm_ext E (some "id")) ?_
  intro vmid st1 h1
  refine stExt_then (h1.transS (get_network_ext E (some "id") st1)) ?_
  intro nid st2 h2
  refine stExt_then (stExt_emitCall _ _ _ _ h2 (by rfl)) ?_
  intro resp st3 h3
  split
  · refine stExt_then (stExt_liftE _ _ _ h3) ?_
    intro nl st4 h4
    refine stExt_then (stExt_liftE _ _ _ h4) ?_
    intro n st5 h5
    exact stExt_cache _ _ _ h5 rfl rfl rfl rfl
  · refine stExt_then (h3.transS (get_vm_ext E (some "name") st3)) ?_
    intro a st4 h4
    refine stExt_then (h4.transS (get_network_ext E (some "name") st4)) ?_
    intro b st5 h5
    exact h5

theorem get_secondary_ip_ext (E : Env) (st : St) :
    StExt st (get_secondary_ip E st).st := by
  unfold get_secondary_ip
  refine stExt_then_call (StExt.rflS st) (get_nic_ext E) ?_
  intro nic st1 h1
  split
  · refine stExt_then (stExt_liftE _ _ _ h1) ?_
    intro xs st2 h2
    refine stExt_then (stExt_liftE _ _ _ h2) ?_
    intro found st3 h3
    split
    · exact h3
    · exact h3
  · exact h1

/-! ### Check-mode frame: relating a normal run to a check-mode run -/

/-- All calls issued so far are read-only lookups. -/
def TraceAll (st : St) : Prop := st.trace.all isListCall = true

theorem traceAll_step {st1 st2 : St} (h : TraceAll st1) (hext : StExt st1 st2) :
    TraceAll st2 := by
  obtain ⟨⟨new, ht, ha⟩, _, _, _⟩ := hext
  unfold TraceAll at h ⊢
  rw [ht, List.all_append, h, ha]
  rfl

/-- `st'` extends `st` by non-lookup calls only (mutations and job
queries), leaving changed flag and diff untouched: the shape of the
mutation phase of every operation. -/
def MutExt (st st' : St) : Prop :=
  (∃ new, st'.trace = st.trace ++ new ∧ new.all (fun c => !isListCall c) = true) ∧
  st'.changed = st.changed ∧ st'.diffBefore = st.diffBefore ∧ st'.diffAfter = st.diffAfter

theorem MutExt.rflM (st : St) : MutExt st st :=
  ⟨⟨[], by simp, by simp⟩, Eq.refl _, Eq.refl _, Eq.refl _⟩

theorem MutExt.transM {a b c : St} (h1 : MutExt a b) (h2 : MutExt b c) : MutExt a c := by
  obtain ⟨⟨n1, ht1, ha1⟩, hc1, hb1, hf1⟩ := h1
  obtain ⟨⟨n2, ht2, ha2⟩, hc2, hb2, hf2⟩ := h2
  refine ⟨⟨n1 ++ n2, ?_, ?_⟩, hc2.trans hc1, hb2.trans hb1, hf2.trans hf1⟩
  · rw [ht2, ht1, List.append_assoc]
  · simp_all [List.all_append]

theorem mutExt_liftE {α : Type} (e : Except String α) (st0 st : St) (h : MutExt st0 st) :
    MutExt st0 (liftE e st).st := by
  rw [liftE_st]; exact h

theorem mutExt_emitCall (c : Call) (resp : PyVal) (st0 st : St) (h : MutExt st0 st)
    (hc : isListCall c = false) : MutExt st0 (emitCall c resp st).st := by
  refine h.transM ⟨⟨[c], by simp [emitCall, Res.st], by simp [hc]⟩, ?_, ?_, ?_⟩ <;>
    simp [emitCall, Res.st]

theorem mutExt_then {α β : Type} {st0 : St} {r : Res α} {f : α → St → Res β}
    (h1 : MutExt st0 r.st) (h2 : ∀ a st1, MutExt st0 st1 → MutExt st0 (f a st1).st) :
    MutExt st0 (r.then f).st := by
  cases r with
  | ok a st => exact h2 a st h1
  | fail m st => exact h1

theorem mutExt_cache (st0 st st' : St)
    (h : MutExt st0 st)
    (ht : st'.trace = st.trace) (hc : st'.changed = st.changed)
    (hb : st'.diffBefore = st.diffBefore) (hf : st'.diffAfter = st.diffAfter) :
    MutExt st0 st' := by
  obtain ⟨⟨n, h1, h2⟩, h3, h4, h5⟩ := h
  exact ⟨⟨n, by rw [ht, h1], h2⟩, by rw [hc, h3], by rw [hb, h4], by rw [hf, h5]⟩

theorem mutExt_append_one {st0 st : St} (c : Call) (h : MutExt st0 st)
    (hc : isListCall c = false) :
    MutExt st0 { st with trace := st.trace ++ [c] } :=
  h.transM ⟨⟨[c], by simp, by simp [hc]⟩, Eq.refl _, Eq.refl _, Eq.refl _⟩

theorem stExt_append_one {st0 st : St} (c : Call) (h : StExt st0 st)
    (hc : isListCall c = true) :
    StExt st0 { st with trace := st.trace ++ [c] } :=
  h.transS ⟨⟨[c], by simp, by simp [hc]⟩, Eq.refl _, Eq.refl _, Eq.refl _⟩

theorem pollLoop_mut (jid : PyVal) (key : Option String) (job : PyVal)
    (rs : List PyVal) (st : St) : MutExt st (pollLoop jid key job rs st).st := by
  induction rs generalizing st with
  | nil => exact MutExt.rflM st
  | cons r rest ih =>
    unfold pollLoop
    have hstep : MutExt st
        { st with trace := st.trace ++ [.queryAsyncJobResult jid], jobResps := rest } :=
      ⟨⟨[.queryAsyncJobResult jid], by simp, by simp [isListCall]⟩, Eq.refl _, Eq.refl _, Eq.refl _⟩
    split
    · split
      · exact hstep
      · split
        · split
          · split
            · exact hstep
            · split
              · split
                · exact hstep
                · exact hstep
              · exact hstep
          · exact hstep
        · exact hstep.transM (ih _)
    · exact hstep

theorem poll_job_mut (job : PyVal) (key : Option String) (st : St) :
    MutExt st (poll_job job key st).st := by
  unfold poll_job
  split
  · split
    · exact pollLoop_mut _ _ _ _ st
    · exact MutExt.rflM st
  · split
    · exact MutExt.rflM st
    · exact MutExt.rflM st
  · split
    · exact MutExt.rflM st
    · exact MutExt.rflM st
  · exact MutExt.rflM st

theorem filter_list_self {l : List Call} (h : l.all isListCall = true) :
    l.filter isListCall = l := by
  induction l with
  | nil => rfl
  | cons c rest ih =>
    simp only [List.all_cons, Bool.and_eq_true] at h
    simp [List.filter, h.1, ih h.2]

theorem filter_list_none {l : List Call} (h : l.all (fun c => !isListCall c) = true) :
    l.filter isListCall = [] := by
  induction l with
  | nil => rfl
  | cons c rest ih =>
    simp only [List.all_cons, Bool.and_eq_true, Bool.not_eq_true'] at h
    simp [List.filter, h.1, ih h.2]

/-- The check-mode/normal-mode relation of one operation: the check run's
trace is exactly the lookup part of the normal run's trace (so the check
run issues no mutating call and no job query), and both runs agree on
the changed flag and on the recorded diff. -/
def ckRel {α : Type} (rN rC : Res α) : Prop :=
  rC.st.trace = rN.st.trace.filter isListCall ∧
  rC.st.changed = rN.st.changed ∧
  rC.st.diffBefore = rN.st.diffBefore ∧
  rC.st.diffAfter = rN.st.diffAfter

theorem ckRel_diag {α : Type} {r : Res α} (h : TraceAll r.st) : ckRel r r :=
  ⟨(filter_list_self h).symm, Eq.refl _, Eq.refl _, Eq.refl _⟩

theorem ckRel_mut {α : Type} {st1 : St} {rN rC : Res α}
    (hC : rC.st = st1) (hall : TraceAll st1) (hm : MutExt st1 rN.st) : ckRel rN rC := by
  obtain ⟨⟨new, ht, ha⟩, hc, hb, hf⟩ := hm
  refine ⟨?_, by rw [hC, hc], by rw [hC, hb], by rw [hC, hf]⟩
  rw [hC, ht, List.filter_append, filter_list_self hall, filter_list_none ha,
    List.append_nil]

theorem fail_on_missing_params_st (l : List (String × Option String)) (st : St) :
    (fail_on_missing_params l st).st = st := by
  simp only [fail_on_missing_params]
  split <;> rfl

theorem ck_present_account (E : Env) (st : St) (h0 : TraceAll st) :
    ckRel (present_account E false st) (present_account E true st) := by
  unfold present_account
  cases hf : fail_on_missing_params (accountRequiredParams E) st with
  | fail m st1 =>
    have hst : st1 = st := by
      have h := fail_on_missing_params_st (accountRequiredParams E) st
      rw [hf] at h; exact h
    rw [hst]
    simp only [Res.then]
    exact ckRel_diag h0
  | ok a st1 =>
    have hst : st1 = st := by
      have h := fail_on_missing_params_st (accountRequiredParams E) st
      rw [hf] at h; exact h
    rw [hst]
    simp only [Res.then]
    cases hacc : acc_get_account E st with
    | fail m st2 =>
      have hext := acc_get_account_ext E st
      rw [hacc] at hext
      simp only [Res.st] at hext
      simp only [Res.then]
      exact ckRel_diag (traceAll_step h0 hext)
    | ok account st2 =>
      have hext := acc_get_account_ext E st
      rw [hacc] at hext
      simp only [Res.st] at hext
      have hta2 : TraceAll st2 := traceAll_step h0 hext
      simp only [Res.then]
      by_cases hpt : pyTruthy account = true
      · simp only [if_pos hpt]
        exact ckRel_diag hta2
      · simp only [if_neg hpt]
        have hta2s : TraceAll (setChanged st2) := hta2
        cases hdom : get_domain E (some "id") (setChanged st2) with
        | fail m st3 =>
          have hext2 := get_domain_ext E (some "id") (setChanged st2)
          rw [hdom] at hext2
          simp only [Res.st] at hext2
          simp only [Res.then]
          exact ckRel_diag (traceAll_step hta2s hext2)
        | ok did st3 =>
          have hext2 := get_domain_ext E (some "id") (setChanged st2)
          rw [hdom] at hext2
          simp only [Res.st] at hext2
          have hta3 : TraceAll st3 := traceAll_step hta2s hext2
          simp only [Res.then]
          cases hat : get_account_type E with
          | error m =>
            simp only [liftE_error, Res.then]
            exact ckRel_diag hta3
          | ok atype =>
            simp only [liftE_ok, Res.then, Bool.false_eq_true, if_false, if_true]
            refine ckRel_mut rfl hta3 ?_
            refine mutExt_then
              (mutExt_liftE _ _ _ (mutExt_append_one _ (MutExt.rflM st3) (by rfl))) ?_
            intro u st5 h5
            refine mutExt_then (mutExt_liftE _ _ _ h5) ?_
            intro acc st6 h6
            exact h6

/-! ### C3: account resolution requires a resolved domain -/

/-- C3: if the `account` parameter is supplied (truthy) and the `domain`
parameter is not, `AnsibleCloudStack.get_account` aborts immediately
with "Account must be specified with Domain", leaving the state (and in
particular the call trace) untouched: no `listAccounts` call is ever
issued. -/
theorem account_requires_domain (E : Env) (key : Option String) (st : St)
    (hc : pyTruthy st.account = false)
    (ha : strTruthy E.params.account = true)
    (hd : strTruthy E.params.domain = false) :
    base_get_account E key st = Res.fail "Account must be specified with Domain" st ∧
    (base_get_account E key st).st.trace = st.trace := by
  have hmain : base_get_account E key st = Res.fail "Account must be specified with Domain" st := by
    unfold base_get_account
    rw [if_neg (by simp [hc])]
    unfold strOr
    rw [if_pos ha]
    match hp : E.params.account with
    | none => rw [hp] at ha; simp [strTruthy] at ha
    | some a =>
      rw [hp] at ha
      have hne : a ≠ "" := by simpa [strTruthy] using ha
      simp only [hd, if_neg hne, eq_self_iff_true, if_true]
  exact ⟨hmain, by rw [hmain]; rfl⟩

/-- Witness for `account_requires_domain` at a concrete input. -/
theorem account_requires_domain_witness :
    base_get_account { params := { account := some "acme" } } (some "id") {} =
      Res.fail "Account must be specified with Domain" {} :=
  (account_requires_domain { params := { account := some "acme" } } (some "id") {}
    rfl (by decide) rfl).1

/-! ### C4: the cached branch of `get_os_type` reads the zone cache -/

/-- The run state of a second `get_os_type` call: the os type was
resolved earlier in the run (cached), and the zone was resolved too. -/
def osTypeBugSt : St :=
  { os_type := .vdict [("id", .vstr "os-id-1"), ("description", .vstr "CentOS 5.6")],
    zone := .vdict [("id", .vstr "zone-id-1"), ("name", .vstr "z1")] }

/-- C4: caching is broken for the os-type kind: once `self.os_type` is
cached, a subsequent `get_os_type(key='id')` returns the value taken
from the cached *zone* dictionary (`zone-id-1`), not from the cached
os-type resource (`os-id-1`), because the source's cached branch reads
`self.zone`.  No remote call is made (the trace is unchanged), but the
wrong cached resource is consulted. -/
theorem get_os_type_cached_reads_zone :
    get_os_type { params := { os_type := some "CentOS 5.6" } } (some "id") osTypeBugSt =
      Res.ok (.vstr "zone-id-1") osTypeBugSt ∧
    (match osTypeBugSt.os_type with
      | .vdict d => dget d "id"
      | _ => none) = some (.vstr "os-id-1") ∧
    PyVal.vstr "zone-id-1" ≠ PyVal.vstr "os-id-1" := by
  refine ⟨rfl, rfl, ?_⟩
  intro h
  have h2 : "zone-id-1" = "os-id-1" := by injection h
  exact absurd h2 (by decide)

/-! ### C6: a response without a jobid short-circuits the poller -/

/-- C6: `poll_job` on a response dictionary lacking a `jobid` field
returns the response unchanged and leaves the state untouched: zero
`queryAsyncJobResult` calls are issued. -/
theorem poll_job_no_jobid (d : PyDict) (key : Option String) (st : St)
    (h : dget d "jobid" = none) :
    poll_job (.vdict d) key st = Res.ok (.vdict d) st ∧
    (poll_job (.vdict d) key st).st.trace = st.trace := by
  have hmain : poll_job (.vdict d) key st = Res.ok (.vdict d) st := by
    unfold poll_job
    simp only [h]
  exact ⟨hmain, by rw [hmain]; rfl⟩

/-- Witness for `poll_job_no_jobid` at a concrete input. -/
theorem poll_job_no_jobid_witness :
    poll_job (.vdict [("displaytext", .vstr "done"), ("success", .vbool true)]) (some "account")
      {} = Res.ok (.vdict [("displaytext", .vstr "done"), ("success", .vbool true)]) {} :=
  (poll_job_no_jobid [("displaytext", .vstr "done"), ("success", .vbool true)]
    (some "account") {} rfl).1

/-! ### C5: what `poll_job` returns when the job reaches success -/

/-- A job-status response that keeps the polling loop waiting: either
`jobstatus` is `0` or there is no `jobresult` yet. -/
def pendingResp (p : PyVal) : Prop :=
  ∃ pd s, p = PyVal.vdict pd ∧ dget pd "jobstatus" = some s ∧
    (neZeroPy s = false ∨ dget pd "jobresult" = none)

theorem pollLoop_skip_pending (jid : PyVal) (key : Option String) (job : PyVal)
    (pend rs : List PyVal) (st : St) (hpend : ∀ p ∈ pend, pendingResp p) :
    ∃ st', pollLoop jid key job (pend ++ rs) st = pollLoop jid key job rs st' := by
  induction pend generalizing st with
  | nil => exact ⟨st, rfl⟩
  | cons p rest ih =>
    obtain ⟨pd, s, hp, hs, hcond⟩ := hpend p (by simp)
    subst hp
    have hrec := ih ({ st with
        trace := st.trace ++ [.queryAsyncJobResult jid], jobResps := rest ++ rs })
      (fun q hq => hpend q (by simp [hq]))
    obtain ⟨st', hst'⟩ := hrec
    refine ⟨st', ?_⟩
    rw [List.cons_append]
    conv_lhs => rw [pollLoop]
    simp only [hs]
    cases hcond with
    | inl h1 =>
      simp only [h1, Bool.false_and, Bool.false_eq_true, if_false]
      exact hst'
    | inr h2 =>
      simp only [h2, Option.isSome_none, Bool.and_false, Bool.false_eq_true, if_false]
      exact hst'

/-- C5 (amended): when a polled job reaches the success terminal state
(after any number of pending statuses): if `key` is supplied and present
in the job result payload, `poll_job` returns that nested value;
otherwise it returns the *original response passed in* unchanged (not
the job result payload). -/
theorem poll_job_success (d : PyDict) (jid : PyVal) (key : Option String) (st : St)
    (pend : List PyVal) (rd : PyDict) (jr : PyDict) (rest : List PyVal) (s : PyVal)
    (hjid : dget d "jobid" = some jid)
    (hresps : st.jobResps = pend ++ PyVal.vdict rd :: rest)
    (hpend : ∀ p ∈ pend, pendingResp p)
    (hs : dget rd "jobstatus" = some s) (hnz : neZeroPy s = true)
    (hjr : dget rd "jobresult" = some (.vdict jr)) (herr : dget jr "errortext" = none) :
    (∀ k v, key = some k → dget jr k = some v →
        Res.val? (poll_job (.vdict d) key st) = some v) ∧
    ((key = none ∨ ∃ k, key = some k ∧ dget jr k = none) →
        Res.val? (poll_job (.vdict d) key st) = some (.vdict d)) := by
  have hred : ∃ st', poll_job (.vdict d) key st =
      pollLoop jid key (.vdict d) (PyVal.vdict rd :: rest) st' := by
    unfold poll_job
    simp only [hjid, hresps]
    exact pollLoop_skip_pending jid key (.vdict d) pend (PyVal.vdict rd :: rest) st hpend
  obtain ⟨st', hst'⟩ := hred
  have hterm : ∀ res : PyVal,
      (key = some "x" → True) → True := fun _ _ => trivial
  constructor
  · intro k v hk hv
    subst hk
    rw [hst']
    unfold pollLoop
    simp only [hs, hnz, hjr, Option.isSome_some, Bool.and_true, if_true, herr, hv]
    rfl
  · intro hcase
    rw [hst']
    unfold pollLoop
    simp only [hs, hnz, hjr, Option.isSome_some, Bool.and_true, if_true, herr]
    cases hcase with
    | inl h => subst h; rfl
    | inr h =>
      obtain ⟨k, hk, hnone⟩ := h
      subst hk
      simp only [hnone]
      rfl

/-- C5 witness: a concrete success response with an extractable key and
a concrete run without a key. -/
theorem poll_job_success_witness :
    Res.val? (poll_job (.vdict [("jobid", .vstr "j1")]) (some "account")
      { jobResps := [.vdict [("jobstatus", .vint 0)],
                     .vdict [("jobstatus", .vint 1),
                             ("jobresult", .vdict [("account", .vdict [("id", .vstr "a1")])])]] }) =
      some (.vdict [("id", .vstr "a1")]) :=
  (poll_job_success [("jobid", .vstr "j1")] (.vstr "j1") (some "account")
    { jobResps := [.vdict [("jobstatus", .vint 0)],
                   .vdict [("jobstatus", .vint 1),
                           ("jobresult", .vdict [("account", .vdict [("id", .vstr "a1")])])]] }
    [.vdict [("jobstatus", .vint 0)]]
    [("jobstatus", .vint 1), ("jobresult", .vdict [("account", .vdict [("id", .vstr "a1")])])]
    [("account", .vdict [("id", .vstr "a1")])] [] (.vint 1)
    rfl rfl
    (by
      intro p hp
      simp only [List.mem_singleton] at hp
      exact ⟨[("jobstatus", .vint 0)], .vint 0, hp, rfl, Or.inl rfl⟩)
    rfl rfl rfl rfl).1 "account" (.vdict [("id", .vstr "a1")]) rfl rfl

/-- C5 counterexample to the claim as stated: on success with no key
supplied, `poll_job` returns the original response (which still carries
only the `jobid` field), not the full job result payload (which carries
the `x` field): the claim's "otherwise it returns the full job result"
does not hold. -/
theorem poll_job_no_key_counterexample :
    Res.val? (poll_job (.vdict [("jobid", .vstr "j1")]) none
      { jobResps := [.vdict [("jobstatus", .vint 1), ("jobresult", .vdict [("x", .vstr "v")])]] }) =
      some (.vdict [("jobid", .vstr "j1")]) ∧
    dget [("jobid", .vstr "j1")] "x" = none ∧
    dget [("x", .vstr "v")] "x" = some (.vstr "v") ∧
    Res.val? (poll_job (.vdict [("jobid", .vstr "j1")]) none
      { jobResps := [.vdict [("jobstatus", .vint 1), ("jobresult", .vdict [("x", .vstr "v")])]] }) ≠
      some (.vdict [("x", .vstr "v")]) := by
  refine ⟨rfl, rfl, rfl, ?_⟩
  intro h
  rw [show Res.val? (poll_job (.vdict [("jobid", .vstr "j1")]) none
      { jobResps := [.vdict [("jobstatus", .vint 1), ("jobresult", .vdict [("x", .vstr "v")])]] }) =
      some (.vdict [("jobid", .vstr "j1")]) from rfl] at h
  simp at h

/-! ### C7: multiple candidates are not rejected, the first is taken -/

theorem val_some_ne_fail {α : Type} {r : Res α} {v : α} (h : Res.val? r = some v) :
    ∀ m st', r ≠ Res.fail m st' := by
  intro m st' hf
  rw [hf] at h
  exact Option.noConfusion h

/-- Two pods in the same zone carrying the same name. -/
def ambiguousPod1 : PyVal :=
  .vdict [("id", .vstr "pod-1"), ("name", .vstr "p1"), ("zoneid", .vstr "z-1")]

/-- The second pod with the same name. -/
def ambiguousPod2 : PyVal :=
  .vdict [("id", .vstr "pod-2"), ("name", .vstr "p1"), ("zoneid", .vstr "z-1")]

/-- A remote environment whose `listPods` response returns the two
equally-named pods for the requested name/zone filter. -/
def ambiguousPodEnv : Env :=
  { params := { pod := some "p1", zone := some "z1" },
    listPodsResp := .vdict [("pod", .vlist [ambiguousPod1, ambiguousPod2])] }

/-- A run state in which the zone is already resolved. -/
def ambiguousPodSt : St := { zone := .vdict [("id", .vstr "z-1"), ("name", .vstr "z1")] }

/-- C7 counterexample to the claim as stated: the remote list call
returns two candidates with the identical name `p1` in the same zone
and no further filter narrows them down, yet `get_pod` does not fail:
it silently answers with the first candidate's id. -/
theorem get_pod_ambiguous_counterexample :
    pyGetItem ambiguousPodEnv.listPodsResp "pod" =
      Except.ok (.vlist [ambiguousPod1, ambiguousPod2]) ∧
    pyGetItem ambiguousPod1 "name" = Except.ok (.vstr "p1") ∧
    pyGetItem ambiguousPod2 "name" = Except.ok (.vstr "p1") ∧
    Res.val? (get_pod ambiguousPodEnv (some "id") ambiguousPodSt) = some (.vstr "pod-1") ∧
    (∀ m st', get_pod ambiguousPodEnv (some "id") ambiguousPodSt ≠ Res.fail m st') :=
  ⟨rfl, rfl, rfl, rfl, val_some_ne_fail rfl⟩

/-- C7 (amended), pods: whenever the `listPods` response is non-empty,
`get_pod` answers from the first listed candidate, whatever else the
list contains. -/
theorem get_pod_picks_first (E : Env) (key : Option String) (st : St)
    (zid : PyVal) (st1 : St) (p : PyVal) (rest : List PyVal) (v : PyVal)
    (hz : get_zone E (some "id") st = Res.ok zid st1)
    (hresp : pyTruthy E.listPodsResp = true)
    (hpl : pyGetItem E.listPodsResp "pod" = Except.ok (.vlist (p :: rest)))
    (hval : getByKey key p = Except.ok v) :
    get_pod E key st = Res.ok v
      { st1 with trace := st1.trace ++ [.listPods [("name", optV E.params.pod), ("zoneid", zid)]] } := by
  unfold get_pod
  rw [hz]
  simp only [Res.then, emitCall, if_pos hresp, hpl, liftE, pyIndex0, hval]

/-- C7 (amended), accounts: whenever the `listAccounts` response of the
base-class `get_account` is non-empty, the first listed account is
taken, whatever else the list contains. -/
theorem base_get_account_picks_first (E : Env) (key : Option String) (st : St)
    (a : String) (did : PyVal) (st1 : St) (acc : PyVal) (rest : List PyVal) (v : PyVal)
    (hc : pyTruthy st.account = false)
    (hp : E.params.account = some a) (hne : a ≠ "")
    (hd : strTruthy E.params.domain = true)
    (hdom : get_domain E (some "id") st = Res.ok did st1)
    (hresp : pyTruthy E.listAccountsResp = true)
    (hal : pyGetItem E.listAccountsResp "account" = Except.ok (.vlist (acc :: rest)))
    (hval : getByKey key acc = Except.ok v) :
    base_get_account E key st = Res.ok v
      { st1 with
        trace := st1.trace ++
          [.listAccounts [("name", .vstr a), ("domainid", did), ("listall", .vbool true)]],
        account := acc } := by
  unfold base_get_account
  rw [if_neg (by simp [hc])]
  unfold strOr
  rw [if_pos (by rw [hp]; simpa [strTruthy] using hne)]
  rw [hp]
  simp only [if_neg hne, hd, Bool.true_eq_false, if_false, if_neg (by simp : ¬(true = false))]
  rw [hdom]
  simp only [Res.then, emitCall, if_pos hresp, hal, liftE, pyIndex0, hval]

/-- C7 (amended), NICs: whenever the `listNics` response is non-empty,
`get_nic` caches and returns the first listed NIC, whatever else the
list contains. -/
theorem get_nic_picks_first (E : Env) (st : St)
    (vmid nid : PyVal) (st1 st2 : St) (n : PyVal) (rest : List PyVal)
    (hc : pyTruthy st.nic = false)
    (hvm : get_vm E (some "id") st = Res.ok vmid st1)
    (hnet : get_network E (some "id") st1 = Res.ok nid st2)
    (hresp : pyTruthy E.listNicsResp = true)
    (hnl : pyGetItem E.listNicsResp "nic" = Except.ok (.vlist (n :: rest))) :
    get_nic E st = Res.ok n
      { st2 with
        trace := st2.trace ++ [.listNics [("virtualmachineid", vmid), ("networkdid", nid)]],
        nic := n } := by
  unfold get_nic
  rw [if_neg (by simp [hc]), hvm]
  simp only [Res.then]
  rw [hnet]
  simp only [Res.then, emitCall, if_pos hresp, hnl, liftE, pyIndex0]

/-- C7 (amended): when the remote list call returns multiple candidates
matching the supplied name within the same scope, the resolvers cited by
the claim (`get_pod`, the base-class `get_account`, `get_nic`) do not
fail: each silently selects the first candidate of the response. -/
theorem resolver_picks_first_candidate :
    (∀ (E : Env) (key : Option String) (st : St) (zid : PyVal) (st1 : St) (p : PyVal)
        (rest : List PyVal) (v : PyVal),
      get_zone E (some "id") st = Res.ok zid st1 →
      pyTruthy E.listPodsResp = true →
      pyGetItem E.listPodsResp "pod" = Except.ok (.vlist (p :: rest)) →
      getByKey key p = Except.ok v →
      get_pod E key st = Res.ok v
        { st1 with
          trace := st1.trace ++ [.listPods [("name", optV E.params.pod), ("zoneid", zid)]] }) ∧
    (∀ (E : Env) (key : Option String) (st : St) (a : String) (did : PyVal) (st1 : St)
        (acc : PyVal) (rest : List PyVal) (v : PyVal),
      pyTruthy st.account = false → E.params.account = some a → a ≠ "" →
      strTruthy E.params.domain = true →
      get_domain E (some "id") st = Res.ok did st1 →
      pyTruthy E.listAccountsResp = true →
      pyGetItem E.listAccountsResp "account" = Except.ok (.vlist (acc :: rest)) →
      getByKey key acc = Except.ok v →
      base_get_account E key st = Res.ok v
        { st1 with
          trace := st1.trace ++
            [.listAccounts [("name", .vstr a), ("domainid", did), ("listall", .vbool true)]],
          account := acc }) ∧
    (∀ (E : Env) (st : St) (vmid nid : PyVal) (st1 st2 : St) (n : PyVal) (rest : List PyVal),
      pyTruthy st.nic = false →
      get_vm E (some "id") st = Res.ok vmid st1 →
      get_network E (some "id") st1 = Res.ok nid st2 →
      pyTruthy E.listNicsResp = true →
      pyGetItem E.listNicsResp "nic" = Except.ok (.vlist (n :: rest)) →
      get_nic E st = Res.ok n
        { st2 with
          trace := st2.trace ++ [.listNics [("virtualmachineid", vmid), ("networkdid", nid)]],
          nic := n }) :=
  ⟨fun E key st zid st1 p rest v hz hresp hpl hval =>
      get_pod_picks_first E key st zid st1 p rest v hz hresp hpl hval,
   fun E key st a did st1 acc rest v hc hp hne hd hdom hresp hal hval =>
      base_get_account_picks_first E key st a did st1 acc rest v hc hp hne hd hdom hresp hal hval,
   fun E st vmid nid st1 st2 n rest hc hvm hnet hresp hnl =>
      get_nic_picks_first E st vmid nid st1 st2 n rest hc hvm hnet hresp hnl⟩

/-- Witness for `resolver_picks_first_candidate` at the ambiguous
two-pod input. -/
theorem resolver_picks_first_candidate_witness :
    get_pod ambiguousPodEnv (some "id") ambiguousPodSt = Res.ok (.vstr "pod-1")
      { ambiguousPodSt with
        trace := [.listPods [("name", optV ambiguousPodEnv.params.pod), ("zoneid", .vstr "z-1")]] } :=
  resolver_picks_first_candidate.1 ambiguousPodEnv (some "id") ambiguousPodSt (.vstr "z-1")
    ambiguousPodSt ambiguousPod1 [ambiguousPod2] (.vstr "pod-1")
    rfl rfl rfl rfl

/-! ### C9 / C10: the field loop of `has_changed` -/

theorem hasChangedCore_mono (only : Option (List String)) :
    ∀ (want : List (String × PyVal)) (cur db da : PyDict) (o : HCOut),
      hasChangedCore only want cur db da true = .ok o → o.changed = true := by
  intro want
  induction want with
  | nil =>
    intro cur db da o h
    unfold hasChangedCore at h
    cases h
    rfl
  | cons p rest ih =>
    intro cur db da o h
    obtain ⟨k', v'⟩ := p
    unfold hasChangedCore at h
    split at h
    · exact ih _ _ _ _ h
    split at h
    · exact ih _ _ _ _ h
    split at h
    · split at h
      · split at h
        · exact Except.noConfusion h
        · split at h
          · exact ih _ _ _ _ h
          · exact ih _ _ _ _ h
      · split at h
        · exact Except.noConfusion h
        · exact ih _ _ _ _ h
        · exact ih _ _ _ _ h
    · exact ih _ _ _ _ h

theorem hasChangedCore_preserve (only : Option (List String)) (k : String) :
    ∀ (want : List (String × PyVal)) (cur db da : PyDict) (acc : Bool) (o : HCOut),
      k ∉ want.map Prod.fst →
      hasChangedCore only want cur db da acc = .ok o →
      dget o.before k = dget db k ∧ dget o.after k = dget da k ∧
        dget o.current k = dget cur k := by
  intro want
  induction want with
  | nil =>
    intro cur db da acc o _ h
    unfold hasChangedCore at h
    cases h
    exact ⟨rfl, rfl, rfl⟩
  | cons p rest ih =>
    intro cur db da acc o hk h
    obtain ⟨k', v'⟩ := p
    have hne : k' ≠ k := by
      intro e
      exact hk (by simp [e])
    have hk' : k ∉ rest.map Prod.fst := by
      intro e
      exact hk (by simp [e])
    unfold hasChangedCore at h
    split at h
    · exact ih _ _ _ _ _ hk' h
    split at h
    · exact ih _ _ _ _ _ hk' h
    split at h
    · split at h
      · split at h
        · exact Except.noConfusion h
        · split at h
          · obtain ⟨hb, ha, hc⟩ := ih _ _ _ _ _ hk' h
            exact ⟨hb.trans (dget_dset_ne db k' k _ hne),
              ha.trans (dget_dset_ne da k' k _ hne),
              hc.trans (dget_dset_ne cur k' k _ hne)⟩
          · obtain ⟨hb, ha, hc⟩ := ih _ _ _ _ _ hk' h
            exact ⟨hb, ha, hc.trans (dget_dset_ne cur k' k _ hne)⟩
      · split at h
        · exact Except.noConfusion h
        · obtain ⟨hb, ha, hc⟩ := ih _ _ _ _ _ hk' h
          exact ⟨hb.trans (dget_dset_ne db k' k _ hne),
            ha.trans (dget_dset_ne da k' k _ hne), hc⟩
        · exact ih _ _ _ _ _ hk' h
    · obtain ⟨hb, ha, hc⟩ := ih _ _ _ _ _ hk' h
      exact ⟨hb.trans (dget_dset_ne db k' k _ hne),
        ha.trans (dget_dset_ne da k' k _ hne), hc⟩

theorem hasChangedCore_absent (only : Option (List String)) (k : String) (v : PyVal)
    (honly : onlySkip only k = false) (hv : v ≠ .vnull) :
    ∀ (want : List (String × PyVal)) (cur db da : PyDict) (acc : Bool) (o : HCOut),
      (want.map Prod.fst).Nodup →
      dget want k = some v → dget cur k = none →
      hasChangedCore only want cur db da acc = .ok o →
      o.changed = true ∧ dget o.before k = some .vnull ∧ dget o.after k = some v := by
  intro want
  induction want with
  | nil =>
    intro cur db da acc o _ hw _ _
    exact absurd hw (by simp [dget])
  | cons p rest ih =>
    intro cur db da acc o hnd hw habs h
    obtain ⟨k', v'⟩ := p
    rw [List.map_cons] at hnd
    have hnd12 := List.nodup_cons.mp hnd
    by_cases hkk : k' = k
    · subst hkk
      have hv' : v' = v := by
        unfold dget at hw
        simp at hw
        exact hw
      subst hv'
      have hnn : v'.isNull = false := by
        cases v'
        · exact absurd rfl hv
        all_goals rfl
      unfold hasChangedCore at h
      rw [honly, hnn] at h
      simp only [Bool.false_eq_true, if_false] at h
      rw [habs] at h
      obtain ⟨hb, ha, _⟩ := hasChangedCore_preserve only k' rest _ _ _ _ _ hnd12.1 h
      exact ⟨hasChangedCore_mono only rest _ _ _ _ h,
        by rw [hb, dget_dset_self], by rw [ha, dget_dset_self]⟩
    · have hw2 : dget rest k = some v := by
        unfold dget at hw
        rw [if_neg hkk] at hw
        exact hw
      have hnd2 : (rest.map Prod.fst).Nodup := hnd12.2
      unfold hasChangedCore at h
      split at h
      · exact ih _ _ _ _ _ hnd2 hw2 habs h
      split at h
      · exact ih _ _ _ _ _ hnd2 hw2 habs h
      split at h
      · split at h
        · split at h
          · exact Except.noConfusion h
          · split at h
            · exact ih _ _ _ _ _ hnd2 hw2
                ((dget_dset_ne cur k' k _ hkk).trans habs) h
            · exact ih _ _ _ _ _ hnd2 hw2
                ((dget_dset_ne cur k' k _ hkk).trans habs) h
        · split at h
          · exact Except.noConfusion h
          · exact ih _ _ _ _ _ hnd2 hw2 habs h
          · exact ih _ _ _ _ _ hnd2 hw2 habs h
      · exact ih _ _ _ _ _ hnd2 hw2 habs h

theorem hasChangedCore_numeric (only : Option (List String)) (k : String) (n : Int)
    (honly : onlySkip only k = false) :
    ∀ (want : List (String × PyVal)) (cur db da : PyDict) (acc : Bool) (o : HCOut)
      (c : PyVal) (m : Int),
      (want.map Prod.fst).Nodup →
      dget want k = some (.vint n) →
      dget cur k = some c → pyToInt c = some m →
      hasChangedCore only want cur db da acc = .ok o →
      dget o.current k = some (.vint m) := by
  intro want
  induction want with
  | nil =>
    intro cur db da acc o c m _ hw _ _ _
    exact absurd hw (by simp [dget])
  | cons p rest ih =>
    intro cur db da acc o c m hnd hw hcur hm h
    obtain ⟨k', v'⟩ := p
    rw [List.map_cons] at hnd
    have hnd12 := List.nodup_cons.mp hnd
    by_cases hkk : k' = k
    · subst hkk
      have hv' : v' = .vint n := by
        unfold dget at hw
        simp at hw
        exact hw
      subst hv'
      unfold hasChangedCore at h
      rw [honly] at h
      simp only [PyVal.isNull, Bool.false_eq_true, if_false, hcur, pyNumVal, hm] at h
      have hdone : ∀ db' da' acc',
          hasChangedCore only rest (dset cur k' (.vint m)) db' da' acc' = .ok o →
          dget o.current k' = some (.vint m) := by
        intro db' da' acc' hh
        obtain ⟨_, _, hcc⟩ :=
          hasChangedCore_preserve only k' rest _ _ _ _ _ hnd12.1 hh
        rw [hcc, dget_dset_self]
      split at h
      · exact hdone _ _ _ h
      · exact hdone _ _ _ h
    · have hw2 : dget rest k = some (.vint n) := by
        unfold dget at hw
        rw [if_neg hkk] at hw
        exact hw
      have hnd2 : (rest.map Prod.fst).Nodup := hnd12.2
      unfold hasChangedCore at h
      split at h
      · exact ih _ _ _ _ _ _ _ hnd2 hw2 hcur hm h
      split at h
      · exact ih _ _ _ _ _ _ _ hnd2 hw2 hcur hm h
      split at h
      · split at h
        · split at h
          · exact Except.noConfusion h
          · split at h
            · exact ih _ _ _ _ _ _ _ hnd2 hw2
                ((dget_dset_ne cur k' k _ hkk).trans hcur) hm h
            · exact ih _ _ _ _ _ _ _ hnd2 hw2
                ((dget_dset_ne cur k' k _ hkk).trans hcur) hm h
        · split at h
          · exact Except.noConfusion h
          · exact ih _ _ _ _ _ _ _ hnd2 hw2 hcur hm h
          · exact ih _ _ _ _ _ _ _ hnd2 hw2 hcur hm h
      · exact ih _ _ _ _ _ _ _ hnd2 hw2 hcur hm h

/-- C9: a wanted field with a non-`None` value whose key is absent from
the current resource dictionary makes `has_changed` return true and
records the field in the diff with `before = None` and `after` = the
wanted value (the key filter, when given, must admit the key; Python
dictionaries have unique keys, hence the no-duplicates hypothesis). -/
theorem has_changed_absent_field (want current : PyDict) (only : Option (List String))
    (st : St) (k : String) (v : PyVal) (b : Bool) (cur' : PyDict) (st' : St)
    (hnd : (want.map Prod.fst).Nodup)
    (hw : dget want k = some v) (hv : v ≠ .vnull)
    (habs : dget current k = none)
    (honly : onlySkip only k = false)
    (hrun : has_changed want current only st = Res.ok (b, cur') st') :
    b = true ∧ dget st'.diffBefore k = some .vnull ∧ dget st'.diffAfter k = some v := by
  unfold has_changed at hrun
  cases hc : hasChangedCore only want current st.diffBefore st.diffAfter false with
  | error m =>
    rw [hc] at hrun
    exact Res.noConfusion hrun
  | ok o =>
    rw [hc] at hrun
    injection hrun with h1 h2
    obtain ⟨hch, hb, ha⟩ :=
      hasChangedCore_absent only k v honly hv want _ _ _ _ _ hnd hw habs hc
    have hb' : b = o.changed := by
      have := congrArg Prod.fst h1
      exact this.symm
    have hst : st' = { st with diffBefore := o.before, diffAfter := o.after } := h2.symm
    subst hst
    exact ⟨by rw [hb', hch], hb, ha⟩

/-- Witness for `has_changed_absent_field`: a wanted `email` field that
the current resource lacks. -/
theorem has_changed_absent_field_witness :
    true = true ∧
    dget [("email", PyVal.vnull)] "email" = some PyVal.vnull ∧
    dget [("email", PyVal.vstr "a@b.c")] "email" = some (.vstr "a@b.c") :=
  has_changed_absent_field [("email", .vstr "a@b.c")] [("id", .vstr "42")] none {}
    "email" (.vstr "a@b.c") true [("id", .vstr "42")]
    { diffBefore := [("email", PyVal.vnull)], diffAfter := [("email", PyVal.vstr "a@b.c")] }
    (by simp) rfl (by simp) rfl rfl rfl

/-- C10: `has_changed` mutates the current dictionary passed to it: a
wanted field with a numeric value whose key is present in the current
dictionary gets the current value overwritten by its coercion to the
wanted numeric type — also when no change at all is reported.  The
returned dictionary is the caller's `current_dict` after this in-place
mutation. -/
theorem has_changed_mutates_current (want current : PyDict) (only : Option (List String))
    (st : St) (k : String) (n : Int) (c : PyVal) (m : Int) (b : Bool) (cur' : PyDict)
    (st' : St)
    (hnd : (want.map Prod.fst).Nodup)
    (hw : dget want k = some (.vint n))
    (hc : dget current k = some c) (hm : pyToInt c = some m)
    (honly : onlySkip only k = false)
    (hrun : has_changed want current only st = Res.ok (b, cur') st') :
    dget cur' k = some (.vint m) := by
  unfold has_changed at hrun
  cases hcore : hasChangedCore only want current st.diffBefore st.diffAfter false with
  | error e =>
    rw [hcore] at hrun
    exact Res.noConfusion hrun
  | ok o =>
    rw [hcore] at hrun
    injection hrun with h1 h2
    have hcur' : cur' = o.current := by
      have := congrArg Prod.snd h1
      exact this.symm
    rw [hcur']
    exact hasChangedCore_numeric only k n honly want _ _ _ _ _ _ _ hnd hw hc hm hcore

/-- Witness for `has_changed_mutates_current`: the current resource
holds the string `"5"`, the wanted value is the integer `5`: no change
is reported, yet the current dictionary now holds the integer `5`. -/
theorem has_changed_mutates_current_witness :
    has_changed [("size", .vint 5)] [("size", .vstr "5")] none {} =
      Res.ok (false, [("size", PyVal.vint 5)]) {} ∧
    dget [("size", PyVal.vint 5)] "size" = some (.vint 5) :=
  ⟨rfl,
   has_changed_mutates_current [("size", .vint 5)] [("size", .vstr "5")] none {}
     "size" 5 (.vstr "5") 5 false [("size", PyVal.vint 5)] {}
     (by simp) rfl rfl rfl rfl rfl⟩

/-! ### C2: tag reconciliation as a set operation -/

theorem tagsOfList_map (ts : List Tag) : tagsOfList (ts.map tagToPy) = .ok ts := by
  induction ts with
  | nil => rfl
  | cons t rest ih =>
    unfold tagsOfList
    rw [List.map_cons]
    simp only [tagOfPy_tagToPy, ih]
    rfl

theorem get_tags_dset (r : PyDict) (ts : List Tag) :
    get_tags (dset r "tags" (tagsVal ts)) = .ok ts := by
  unfold get_tags
  rw [dget_dset_self]
  exact tagsOfList_map ts

theorem filter_not_mem_self (ts : List Tag) :
    ts.filter (fun t => !decide (t ∈ ts)) = [] := by
  rw [List.filter_eq_nil_iff]
  intro t ht
  simp [ht]

theorem dset_ne_nil (r : PyDict) (k : String) (v : PyVal) : dset r k v ≠ [] := by
  cases r with
  | nil => simp [dset]
  | cons hd tl =>
    unfold dset
    split <;> simp

theorem tags_not_exist_dset (r : PyDict) (ts : List Tag) :
    tags_that_should_not_exist (dset r "tags" (tagsVal ts)) ts = .ok [] := by
  unfold tags_that_should_not_exist
  rw [get_tags_dset]
  show Except.ok (List.filter (fun t => !decide (t ∈ ts)) ts) = Except.ok []
  rw [filter_not_mem_self]

theorem tags_exist_dset (r : PyDict) (ts : List Tag) :
    tags_that_should_exist_or_be_updated (dset r "tags" (tagsVal ts)) ts = .ok [] := by
  unfold tags_that_should_exist_or_be_updated
  rw [get_tags_dset]
  show Except.ok (List.filter (fun t => !decide (t ∈ ts)) ts) = Except.ok []
  rw [filter_not_mem_self]

/-- The result value of a successful `ensure_tags` run over a resource
that carries a `tags` field, with a supplied tags parameter: the
resource with its `tags` entry replaced by the wanted tags. -/
theorem ensure_tags_ok_shape (E : Env) (cm : Bool) (resource : PyDict)
    (rt : Option String) (st : St) (ts : List Tag) (r1 : PyDict) (st1 : St)
    (hts : E.params.tags = some ts)
    (htk : (dget resource "tags").isSome = true)
    (h : ensure_tags E cm resource rt st = .ok r1 st1) :
    r1 = dset resource "tags" (tagsVal ts) := by
  unfold ensure_tags at h
  split at h
  · exact Res.noConfusion h
  · simp only [hts] at h
    cases h1 : tags_that_should_not_exist resource ts with
    | error m =>
      rw [h1] at h
      simp only [liftE, Res.then] at h
      exact Res.noConfusion h
    | ok rm =>
      rw [h1] at h
      simp only [liftE, Res.then] at h
      cases h2 : process_tags E cm resource (rt.getD "") rm "delete" st with
      | fail m st2 =>
        rw [h2] at h
        simp only [Res.then] at h
        exact Res.noConfusion h
      | ok u st2 =>
        rw [h2] at h
        simp only [Res.then] at h
        cases h3 : tags_that_should_exist_or_be_updated resource ts with
        | error m =>
          rw [h3] at h
          simp only [liftE, Res.then] at h
          exact Res.noConfusion h
        | ok add =>
          rw [h3] at h
          simp only [liftE, Res.then] at h
          cases h4 : process_tags E cm resource (rt.getD "") add "create" st2 with
          | fail m st3 =>
            rw [h4] at h
            simp only [Res.then] at h
            exact Res.noConfusion h
          | ok u2 st3 =>
            rw [h4] at h
            simp only [Res.then] at h
            injection h with hv hs
            exact hv.symm

/-- C2 (amended): for every resource that carries a `tags` field and a
supplied wanted tag list, a second `ensure_tags` run right after a
successful one issues zero further calls of any kind (the state,
including the call trace and the changed flag, is exactly the state
after the first run) and returns a resource whose tag set is exactly the
wanted tags; and whenever both the to-remove and the to-add batches are
empty, `ensure_tags` never touches the changed flag. -/
theorem ensure_tags_set_semantics :
    (∀ (E : Env) (cm : Bool) (resource : PyDict) (rt : Option String) (st : St)
        (ts : List Tag) (r1 : PyDict) (st1 : St),
      strTruthy rt = true →
      E.params.tags = some ts →
      (dget resource "tags").isSome = true →
      ensure_tags E cm resource rt st = .ok r1 st1 →
      ensure_tags E cm r1 rt st1 = .ok (dset r1 "tags" (tagsVal ts)) st1 ∧
      get_tags (dset r1 "tags" (tagsVal ts)) = .ok ts ∧
      (ensure_tags E cm r1 rt st1).st.trace = st1.trace ∧
      (ensure_tags E cm r1 rt st1).st.changed = st1.changed) ∧
    (∀ (E : Env) (cm : Bool) (resource : PyDict) (rt : Option String) (st : St)
        (ts : List Tag),
      E.params.tags = some ts →
      tags_that_should_not_exist resource ts = .ok [] →
      tags_that_should_exist_or_be_updated resource ts = .ok [] →
      (ensure_tags E cm resource rt st).st.changed = st.changed) := by
  constructor
  · intro E cm resource rt st ts r1 st1 hrt hts htk h1
    have hshape := ensure_tags_ok_shape E cm resource rt st ts r1 st1 hts htk h1
    subst hshape
    have hrun2 : ensure_tags E cm (dset resource "tags" (tagsVal ts)) rt st1 =
        .ok (dset (dset resource "tags" (tagsVal ts)) "tags" (tagsVal ts)) st1 := by
      unfold ensure_tags
      rw [if_neg (by simp [hrt, dset_ne_nil])]
      rw [show (dget (dset resource "tags" (tagsVal ts)) "tags").isSome = true by
        rw [dget_dset_self]; rfl]
      simp only [if_true, hts]
      rw [tags_not_exist_dset]
      simp only [liftE, Res.then,
        show process_tags E cm (dset resource "tags" (tagsVal ts)) (rt.getD "") []
          "delete" st1 = Res.ok () st1 from rfl]
      rw [tags_exist_dset]
      simp only [liftE, Res.then,
        show process_tags E cm (dset resource "tags" (tagsVal ts)) (rt.getD "") []
          "create" st1 = Res.ok () st1 from rfl]
    refine ⟨hrun2, get_tags_dset _ ts, ?_, ?_⟩
    · rw [hrun2]; rfl
    · rw [hrun2]; rfl
  · intro E cm resource rt st ts hts hrm hadd
    unfold ensure_tags
    split
    · rfl
    · simp only [hts, hrm, hadd, liftE, Res.then]
      split
      · simp only [show process_tags E cm resource (rt.getD "") [] "delete" st =
            Res.ok () st from rfl,
          show process_tags E cm resource (rt.getD "") [] "create" st =
            Res.ok () st from rfl, Res.st]
      · rfl

/-- Witness for `ensure_tags_set_semantics` at a concrete two-run
sequence: the first run replaces tag `a=c` by `a=b`; the second run
issues nothing and the tag set equals the wanted list. -/
theorem ensure_tags_set_semantics_witness :
    ensure_tags { params := { tags := some [⟨"a", "b"⟩] } } false
        (dset [("id", .vstr "r1"), ("tags", tagsVal [⟨"a", "c"⟩])] "tags"
          (tagsVal [⟨"a", "b"⟩]))
        (some "UserVm")
        { trace := [.deleteTags [("resourceids", .vstr "r1"), ("resourcetype", .vstr "UserVm"),
                      ("tags", tagsVal [⟨"a", "c"⟩])] [⟨"a", "c"⟩],
                    .createTags [("resourceids", .vstr "r1"), ("resourcetype", .vstr "UserVm"),
                      ("tags", tagsVal [⟨"a", "b"⟩])] [⟨"a", "b"⟩]],
          changed := true } =
      .ok (dset (dset [("id", .vstr "r1"), ("tags", tagsVal [⟨"a", "c"⟩])] "tags"
            (tagsVal [⟨"a", "b"⟩])) "tags" (tagsVal [⟨"a", "b"⟩]))
        { trace := [.deleteTags [("resourceids", .vstr "r1"), ("resourcetype", .vstr "UserVm"),
                      ("tags", tagsVal [⟨"a", "c"⟩])] [⟨"a", "c"⟩],
                    .createTags [("resourceids", .vstr "r1"), ("resourcetype", .vstr "UserVm"),
                      ("tags", tagsVal [⟨"a", "b"⟩])] [⟨"a", "b"⟩]],
          changed := true } :=
  (ensure_tags_set_semantics.1 { params := { tags := some [⟨"a", "b"⟩] } } false
    [("id", .vstr "r1"), ("tags", tagsVal [⟨"a", "c"⟩])] (some "UserVm") {}
    [⟨"a", "b"⟩] _ _ rfl rfl rfl rfl).1

/-- C2 counterexample to the claim as stated: for a resource without a
`tags` field, `ensure_tags` silently skips reconciliation, so after two
runs (the second issues zero calls) the resource's tag set is still
empty and differs from the wanted tags `a=b`. -/
theorem ensure_tags_no_tags_key_counterexample :
    ensure_tags { params := { tags := some [⟨"a", "b"⟩] } } false [("id", .vstr "r1")]
      (some "UserVm") {} = Res.ok [("id", .vstr "r1")] {} ∧
    get_tags [("id", .vstr "r1")] = .ok [] ∧
    ([] : List Tag) ≠ [⟨"a", "b"⟩] :=
  ⟨rfl, rfl, by decide⟩

/-! ### C8: locking a disabled account issues enable then disable(lock) -/

/-- `errCheck` succeeds on a response dictionary without `errortext`. -/
theorem errCheck_none (d : PyDict) (h : dget d "errortext" = none) :
    errCheck (.vdict d) = .ok () := by
  have hc : pyContains (.vdict d) "errortext" = .ok false := by
    show Except.ok (dget d "errortext").isSome = Except.ok false
    rw [h]
    rfl
  unfold errCheck
  rw [hc]
  rfl

/-- C8: requesting `state=locked` for an account whose current remote
state is `disabled` issues exactly two mutating calls, in order: first
`enableAccount`, then `disableAccount` with `lock=True`. -/
theorem lock_disabled_two_calls
    (E : Env) (st : St) (accD domD erd eacc drd : PyDict)
    (aid did eid : PyVal) (sD sE : String)
    (htr : st.trace = [])
    (hacc : st.account = .vdict accD)
    (haccne : accD.isEmpty = false)
    (hstD : dget accD "state" = some (.vstr sD))
    (hsD : pyStrLower sD = "disabled")
    (haid : dget accD "id" = some aid)
    (hdom : st.domain = .vdict domD)
    (hdomne : domD.isEmpty = false)
    (hdid : dget domD "id" = some did)
    (hEr : E.enableAccountResp = .vdict erd)
    (hEe : dget erd "errortext" = none)
    (hEa : dget erd "account" = some (.vdict eacc))
    (hestate : dget eacc "state" = some (.vstr sE))
    (hsE : pyStrLower sE ≠ "locked")
    (heid : dget eacc "id" = some eid)
    (hDr : E.disableAccountResp = .vdict drd)
    (hDe : dget drd "errortext" = none)
    (hDj : dget drd "jobid" = none) :
    ∃ st', lock_account E false st = .ok (.vdict drd) st' ∧
      st'.trace.filter isMutating =
        [.enableAccount [("id", aid), ("account", optV E.params.name), ("domainid", did)],
         .disableAccount [("id", eid), ("account", optV E.params.name), ("domainid", did),
           ("lock", .vbool true)]] := by
  have h : lock_account E false st
      = Res.ok (.vdict drd)
        { st with
          changed := true,
          trace := (st.trace ++
            [Call.enableAccount
              [("id", aid), ("account", optV E.params.name), ("domainid", did)]]) ++
            [Call.disableAccount
              [("id", eid), ("account", optV E.params.name), ("domainid", did),
               ("lock", .vbool true)]] } := by
    simp [lock_account, lock_or_disable_account, enable_account, acc_get_account,
      get_domain, getByKey, emitCall, setChanged, liftE, Res.then, pyGetItem, pyLower,
      pyTruthy, poll_job, hacc, haccne, hstD, hsD, haid, hdom,
      hdomne, hdid, hEr, hEa, hestate, hsE, heid, hDr, hDj,
      errCheck_none erd hEe, errCheck_none drd hDe]
  refine ⟨_, h, ?_⟩
  rw [htr]
  rfl

/-- Witness for `lock_disabled_two_calls`: a concrete disabled account
`jdoe` is locked; the run succeeds and emits exactly `enableAccount`
followed by `disableAccount` with `lock=True`. -/
theorem lock_disabled_two_calls_witness :
    ∃ st',
      lock_account
        { params := { name := some "jdoe" },
          enableAccountResp := .vdict [("account",
            .vdict [("id", .vstr "a1"), ("state", .vstr "Enabled")])],
          disableAccountResp := .vdict [("state", .vstr "Locked")] } false
        { account := .vdict [("id", .vstr "a1"), ("state", .vstr "Disabled")],
          domain := .vdict [("id", .vstr "d1")] }
        = .ok (.vdict [("state", .vstr "Locked")]) st' ∧
      st'.trace.filter isMutating =
        [.enableAccount [("id", .vstr "a1"), ("account", .vstr "jdoe"), ("domainid", .vstr "d1")],
         .disableAccount [("id", .vstr "a1"), ("account", .vstr "jdoe"), ("domainid", .vstr "d1"),
           ("lock", .vbool true)]] :=
  lock_disabled_two_calls _ _
    [("id", .vstr "a1"), ("state", .vstr "Disabled")]
    [("id", .vstr "d1")]
    [("account", .vdict [("id", .vstr "a1"), ("state", .vstr "Enabled")])]
    [("id", .vstr "a1"), ("state", .vstr "Enabled")]
    [("state", .vstr "Locked")]
    (.vstr "a1") (.vstr "d1") (.vstr "a1") "Disabled" "Enabled"
    rfl rfl rfl rfl rfl rfl rfl rfl rfl rfl rfl rfl rfl (by decide) rfl rfl rfl rfl

/-! ### C1: check mode as a pure dry run -/

/-- Paired-state form of `ckRel`: the check-mode state's trace is the
lookup part of the normal-mode state's trace, and both agree on the
changed flag and on the diff. -/
def CkSt (stN stC : St) : Prop :=
  stC.trace = stN.trace.filter isListCall ∧
  stC.changed = stN.changed ∧
  stC.diffBefore = stN.diffBefore ∧
  stC.diffAfter = stN.diffAfter

theorem ckSt_diag {st : St} (h : TraceAll st) : CkSt st st :=
  ⟨(filter_list_self h).symm, Eq.refl _, Eq.refl _, Eq.refl _⟩

theorem ckRel_of_ckSt {α : Type} {rN rC : Res α} (h : CkSt rN.st rC.st) : ckRel rN rC := h

theorem filter_all_list (l : List Call) : (l.filter isListCall).all isListCall = true := by
  induction l with
  | nil => rfl
  | cons c rest ih =>
    rw [List.filter_cons]
    split
    · rw [List.all_cons]
      simp_all
    · exact ih

/-- A check-mode trace related by `ckRel` consists of list calls only:
the check run issued no mutating call and no job query. -/
theorem ckRel_traceAll {α : Type} {rN rC : Res α} (h : ckRel rN rC) : TraceAll rC.st := by
  unfold TraceAll
  rw [h.1]
  exact filter_all_list _

/-- A falsy Python value is never subscriptable by key: `None`, `False`,
`0`, `""`, `[]` raise `TypeError`; `{}` raises `KeyError`. -/
theorem pyGetItem_falsy {v : PyVal} (k : String) (h : pyTruthy v = false) :
    ∃ m, pyGetItem v k = .error m := by
  cases v with
  | vnull => exact ⟨_, rfl⟩
  | vbool b => exact ⟨_, rfl⟩
  | vint n => exact ⟨_, rfl⟩
  | vstr s => exact ⟨_, rfl⟩
  | vlist xs => exact ⟨_, rfl⟩
  | vdict d =>
    cases d with
    | nil => exact ⟨_, rfl⟩
    | cons p rest => simp [pyTruthy] at h

/-- A successful subscript implies the value is a nonempty dictionary,
hence truthy. -/
theorem pyGetItem_ok_truthy {d : PyVal} {k : String} {p : PyVal}
    (h : pyGetItem d k = .ok p) : pyTruthy d = true := by
  cases d with
  | vdict dd =>
    cases dd with
    | nil => simp [pyGetItem, dget] at h
    | cons q rest => rfl
  | vnull => simp [pyGetItem] at h
  | vbool b => simp [pyGetItem] at h
  | vint n => simp [pyGetItem] at h
  | vstr s => simp [pyGetItem] at h
  | vlist xs => simp [pyGetItem] at h

theorem except_ok_then {α β : Type} (a : α) (f : α → Except String β) :
    (do let b ← (Except.ok a : Except String α); f b) = f a := rfl

theorem except_error_then {α β : Type} (m : String) (f : α → Except String β) :
    (do let b ← (Except.error m : Except String α); f b) =
      (Except.error m : Except String β) := rfl

theorem findFirstM_some_true {p : PyVal → Except String Bool} {xs : List PyVal} {d : PyVal}
    (h : findFirstM p xs = .ok (some d)) : p d = .ok true := by
  induction xs with
  | nil => exact Option.noConfusion (Except.ok.inj h)
  | cons x rest ih =>
    unfold findFirstM at h
    cases hp : p x with
    | error m =>
      rw [hp, except_error_then] at h
      exact Except.noConfusion h
    | ok b =>
      rw [hp, except_ok_then] at h
      cases b with
      | true =>
        rw [if_pos (Eq.refl true)] at h
        have hx : x = d := Option.some.inj (Except.ok.inj h)
        rw [hx] at hp
        exact hp
      | false =>
        rw [if_neg (by simp)] at h
        exact ih h

theorem domainMatch_truthy {dom : String} {d : PyVal} {b : Bool}
    (h : domainMatch dom d = .ok b) : pyTruthy d = true := by
  unfold domainMatch at h
  cases hp : pyGetItem d "path" with
  | error m =>
    rw [hp, except_error_then] at h
    exact Except.noConfusion h
  | ok p => exact pyGetItem_ok_truthy hp

/-- The domain resolver is quiet for `E` at cache value `d`: run from any
state carrying `d` in the domain cache, it issues no call and leaves the
state untouched (it may still fail on a missing key). -/
def DomQuiet (E : Env) (d : PyVal) : Prop :=
  ∀ k2 st2, st2.domain = d → (get_domain E k2 st2).st = st2

/-- After a successful domain resolution the resolver is quiet: the
domain is cached (or the parameter is absent) and later calls issue no
further remote call. -/
theorem get_domain_quiet {E : Env} {k : Option String} {st : St} {v : PyVal} {st' : St}
    (h : get_domain E k st = .ok v st') : DomQuiet E st'.domain := by
  unfold get_domain at h
  by_cases hdm : pyTruthy st.domain = true
  · rw [if_pos hdm] at h
    have hst : st' = st := by
      cases hg : getByKey k st.domain with
      | ok a =>
        rw [hg, liftE_ok] at h
        exact ((Res.ok.inj h).2).symm
      | error m =>
        rw [hg, liftE_error] at h
        exact Res.noConfusion h
    intro k2 st2 h2
    unfold get_domain
    rw [if_pos (by rw [h2, hst]; exact hdm)]
    exact liftE_st _ _
  · rw [if_neg hdm] at h
    cases hso : strOr E.params.domain E.environ.domain with
    | none =>
      simp only [hso] at h
      have hst : st' = st := ((Res.ok.inj h).2).symm
      intro k2 st2 h2
      unfold get_domain
      rw [if_neg (by rw [h2, hst]; exact hdm)]
      simp only [hso]
      rfl
    | some dom =>
      simp only [hso] at h
      by_cases hde : dom = ""
      · rw [if_pos hde] at h
        have hst : st' = st := ((Res.ok.inj h).2).symm
        intro k2 st2 h2
        unfold get_domain
        rw [if_neg (by rw [h2, hst]; exact hdm)]
        simp only [hso, if_pos hde]
        rfl
      · rw [if_neg hde] at h
        simp only [emitCall, Res.then] at h
        by_cases hresp : pyTruthy E.listDomainsResp = true
        · rw [if_pos hresp] at h
          cases hdl : pyGetItem E.listDomainsResp "domain" with
          | error m =>
            rw [hdl, liftE_error] at h
            simp only [Res.then] at h
            exact Res.noConfusion h
          | ok dl =>
            rw [hdl, liftE_ok] at h
            simp only [Res.then] at h
            cases dl with
            | vlist xs =>
              cases hff : findFirstM (domainMatch dom) xs with
              | error m =>
                simp only [hff, liftE_error, Res.then] at h
                exact Res.noConfusion h
              | ok found =>
                simp only [hff, liftE_ok, Res.then] at h
                cases found with
                | none => exact Res.noConfusion h
                | some d =>
                  have hd : pyTruthy d = true :=
                    domainMatch_truthy (findFirstM_some_true hff)
                  have hdom : st'.domain = d := by
                    cases hg : getByKey k d with
                    | ok a =>
                      simp only [hg, liftE_ok] at h
                      rw [← (Res.ok.inj h).2]
                    | error m =>
                      simp only [hg, liftE_error] at h
                      exact Res.noConfusion h
                  intro k2 st2 h2
                  unfold get_domain
                  rw [if_pos (by rw [h2, hdom]; exact hd)]
                  exact liftE_st _ _
            | vnull => exact Res.noConfusion h
            | vbool b => exact Res.noConfusion h
            | vint n => exact Res.noConfusion h
            | vstr s => exact Res.noConfusion h
            | vdict dd => exact Res.noConfusion h
        · rw [if_neg hresp] at h
          exact Res.noConfusion h

/-- `st'` extends `st` by non-lookup calls only, may have switched the
changed flag on, and leaves diff and domain cache untouched: the shape
of a normal-mode mutation phase run against a diverged check state. -/
def MutExtC (st st' : St) : Prop :=
  (∃ new, st'.trace = st.trace ++ new ∧ new.all (fun c => !isListCall c) = true) ∧
  (st'.changed = st.changed ∨ st'.changed = true) ∧
  st'.diffBefore = st.diffBefore ∧ st'.diffAfter = st.diffAfter ∧
  st'.domain = st.domain

theorem MutExtC.rflC (st : St) : MutExtC st st :=
  ⟨⟨[], by simp, by simp⟩, Or.inl (Eq.refl _), Eq.refl _, Eq.refl _, Eq.refl _⟩

theorem MutExtC.transC {a b c : St} (h1 : MutExtC a b) (h2 : MutExtC b c) : MutExtC a c := by
  obtain ⟨⟨n1, ht1, ha1⟩, hc1, hb1, hf1, hd1⟩ := h1
  obtain ⟨⟨n2, ht2, ha2⟩, hc2, hb2, hf2, hd2⟩ := h2
  refine ⟨⟨n1 ++ n2, ?_, ?_⟩, ?_, hb2.trans hb1, hf2.trans hf1, hd2.trans hd1⟩
  · rw [ht2, ht1, List.append_assoc]
  · simp_all [List.all_append]
  · cases hc2 with
    | inl h => rw [h]; exact hc1
    | inr h => exact Or.inr h

theorem mutExtC_liftE {α : Type} (e : Except String α) (st0 st : St) (h : MutExtC st0 st) :
    MutExtC st0 (liftE e st).st := by
  rw [liftE_st]; exact h

theorem mutExtC_emitCall (c : Call) (resp : PyVal) (st0 st : St) (h : MutExtC st0 st)
    (hc : isListCall c = false) : MutExtC st0 (emitCall c resp st).st :=
  h.transC ⟨⟨[c], by simp [emitCall, Res.st], by simp [hc]⟩,
    Or.inl (Eq.refl _), Eq.refl _, Eq.refl _, Eq.refl _⟩

theorem mutExtC_then {α β : Type} {st0 : St} {r : Res α} {f : α → St → Res β}
    (h1 : MutExtC st0 r.st) (h2 : ∀ a st1, MutExtC st0 st1 → MutExtC st0 (f a st1).st) :
    MutExtC st0 (r.then f).st := by
  cases r with
  | ok a st => exact h2 a st h1
  | fail m st => exact h1

theorem mutExtC_setChanged {st0 st : St} (h : MutExtC st0 st) :
    MutExtC st0 (setChanged st) := by
  obtain ⟨he, _, hb, hf, hd⟩ := h
  exact ⟨he, Or.inr (Eq.refl _), hb, hf, hd⟩

theorem mutExtC_append_one {st0 st : St} (c : Call) (h : MutExtC st0 st)
    (hc : isListCall c = false) :
    MutExtC st0 { st with trace := st.trace ++ [c] } :=
  h.transC ⟨⟨[c], by simp, by simp [hc]⟩, Or.inl (Eq.refl _), Eq.refl _, Eq.refl _, Eq.refl _⟩

theorem pollLoop_mutC (jid : PyVal) (key : Option String) (job : PyVal)
    (rs : List PyVal) (st : St) : MutExtC st (pollLoop jid key job rs st).st := by
  induction rs generalizing st with
  | nil => exact MutExtC.rflC st
  | cons r rest ih =>
    unfold pollLoop
    have hstep : MutExtC st
        { st with trace := st.trace ++ [.queryAsyncJobResult jid], jobResps := rest } :=
      ⟨⟨[.queryAsyncJobResult jid], by simp, by simp [isListCall]⟩,
        Or.inl (Eq.refl _), Eq.refl _, Eq.refl _, Eq.refl _⟩
    split
    · split
      · exact hstep
      · split
        · split
          · split
            · exact hstep
            · split
              · split
                · exact hstep
                · exact hstep
              · exact hstep
          · exact hstep
        · exact hstep.transC (ih _)
    · exact hstep

theorem poll_job_mutC (job : PyVal) (key : Option String) (st : St) :
    MutExtC st (poll_job job key st).st := by
  unfold poll_job
  split
  · split
    · exact pollLoop_mutC _ _ _ _ st
    · exact MutExtC.rflC st
  · split
    · exact MutExtC.rflC st
    · exact MutExtC.rflC st
  · split
    · exact MutExtC.rflC st
    · exact MutExtC.rflC st
  · exact MutExtC.rflC st

/-- Absorb a normal-mode mutation tail into a check relation whose check
side has the changed flag on. -/
theorem ckSt_mutC {stN stC stN' : St} (h : CkSt stN stC) (hc : stC.changed = true)
    (hm : MutExtC stN stN') : CkSt stN' stC := by
  obtain ⟨⟨new, ht, ha⟩, hch, hb, hf, _⟩ := hm
  refine ⟨?_, ?_, hb.symm ▸ h.2.2.1, hf.symm ▸ h.2.2.2⟩
  · rw [ht, List.filter_append, filter_list_none ha, List.append_nil, h.1]
  · cases hch with
    | inl he => rw [he]; exact h.2.1
    | inr he => rw [he]; exact hc

/-- The tail of `AnsibleCloudStackAccount.enable_account` after the
account has been resolved. -/
def enable_after (E : Env) (cm : Bool) (account : PyVal) (st : St) : Res PyVal :=
  (liftE (pyGetItem account "state") st).then fun state st =>
  (liftE (pyLower state) st).then fun sl st =>
  if sl = "enabled" then .ok account st
  else
    let st := setChanged st
    (liftE (pyGetItem account "id") st).then fun aid st =>
    (get_domain E (some "id") st).then fun did st =>
    let args : PyDict := [("id", aid), ("account", optV E.params.name), ("domainid", did)]
    if cm then .ok account st
    else
      (emitCall (.enableAccount args) E.enableAccountResp st).then fun res st =>
      (liftE (errCheck res) st).then fun _ st =>
      (liftE (pyGetItem res "account") st).then fun acc st =>
      .ok acc st

theorem enable_account_eq (E : Env) (cm : Bool) (st : St) :
    enable_account E cm st =
      (acc_get_account E st).then fun account st =>
      (if pyTruthy account then .ok account st else present_account E cm st).then fun account st =>
      enable_after E cm account st := rfl

/-- The state-transition stage of `lock_or_disable_account`: a locked
target first enables an account found in `disabled` state. -/
def lockStage (E : Env) (cm : Bool) (lock : Bool) (account : PyVal) (st : St) : Res PyVal :=
  if lock then
    (liftE (pyGetItem account "state") st).then fun s st =>
    (liftE (pyLower s) st).then fun sl st =>
    if sl = "disabled" then enable_account E cm st else .ok account st
  else .ok account st

/-- The final stage of `lock_or_disable_account`: the disable/lock call
itself. -/
def lock_final (E : Env) (cm : Bool) (lock : Bool) (account : PyVal) (st : St) : Res PyVal :=
  (liftE (pyGetItem account "state") st).then fun s st =>
  (liftE (pyLower s) st).then fun sl st =>
  if (lock = true ∧ sl ≠ "locked") ∨ (lock = false ∧ sl ≠ "disabled") then
    let st := setChanged st
    (liftE (pyGetItem account "id") st).then fun aid st =>
    (get_domain E (some "id") st).then fun did st =>
    let args : PyDict :=
      [("id", aid), ("account", optV E.params.name), ("domainid", did), ("lock", .vbool lock)]
    if cm then .ok account st
    else
      (emitCall (.disableAccount args) E.disableAccountResp st).then fun res st =>
      (liftE (errCheck res) st).then fun _ st =>
      (if E.params.poll_async then poll_job res (some "account") st else .ok res st).then
        fun account st =>
      .ok account st
  else .ok account st

theorem lock_or_disable_eq (E : Env) (cm : Bool) (lock : Bool) (st : St) :
    lock_or_disable_account E cm lock st =
      (acc_get_account E st).then fun account st =>
      (if pyTruthy account then .ok account st else present_account E cm st).then fun account st =>
      (lockStage E cm lock account st).then fun account st =>
      lock_final E cm lock account st := rfl

/-- Quiet run: the state is left untouched except possibly for switching
the changed flag on — the shape of a check-mode mutation phase whose
domain cache is already resolved. -/
def CQuiet (st st' : St) : Prop :=
  st'.trace = st.trace ∧ (st'.changed = st.changed ∨ st'.changed = true) ∧
  st'.diffBefore = st.diffBefore ∧ st'.diffAfter = st.diffAfter ∧
  st'.domain = st.domain

theorem CQuiet.rflQ (st : St) : CQuiet st st :=
  ⟨Eq.refl _, Or.inl (Eq.refl _), Eq.refl _, Eq.refl _, Eq.refl _⟩

theorem cQuiet_setChanged (st : St) : CQuiet st (setChanged st) :=
  ⟨Eq.refl _, Or.inr (Eq.refl _), Eq.refl _, Eq.refl _, Eq.refl _⟩

/-- The normal-mode run of the resolved-account tail of `enable_account`
only appends non-lookup calls and preserves diff and domain cache,
provided the domain resolver is quiet. -/
theorem enable_after_normal (E : Env) (account : PyVal) (stN1 : St)
    (hq : DomQuiet E stN1.domain) :
    MutExtC stN1 (enable_after E false account stN1).st := by
  simp only [enable_after]
  refine mutExtC_then (mutExtC_liftE _ _ _ (MutExtC.rflC _)) ?_
  intro state st1 h1
  refine mutExtC_then (mutExtC_liftE _ _ _ h1) ?_
  intro sl st2 h2
  split
  · exact h2
  · refine mutExtC_then (mutExtC_liftE _ _ _ (mutExtC_setChanged h2)) ?_
    intro aid st3 h3
    refine mutExtC_then ?_ ?_
    · rw [hq _ st3 h3.2.2.2.2]
      exact h3
    · intro did st4 h4
      rw [if_neg Bool.false_ne_true]
      refine mutExtC_then (mutExtC_emitCall _ _ _ _ h4 (by rfl)) ?_
      intro res st5 h5
      refine mutExtC_then (mutExtC_liftE _ _ _ h5) ?_
      intro u st6 h6
      refine mutExtC_then (mutExtC_liftE _ _ _ h6) ?_
      intro acc st7 h7
      exact h7

/-- In check mode the resolved-account tail of `enable_account` fails
immediately on a falsy account value, leaving the state untouched. -/
theorem enable_after_check_falsy (E : Env) {account : PyVal} (st : St)
    (hf : pyTruthy account = false) :
    ∃ m, enable_after E true account st = .fail m st := by
  obtain ⟨m, hm⟩ := pyGetItem_falsy "state" hf
  refine ⟨m, ?_⟩
  simp only [enable_after, hm, liftE_error, Res.then]

/-- The normal-mode run of the final stage of `lock_or_disable_account`
only appends non-lookup calls and preserves diff and domain cache,
provided the domain resolver is quiet. -/
theorem lock_final_normal (E : Env) (lock : Bool) (account : PyVal) (stN1 : St)
    (hq : DomQuiet E stN1.domain) :
    MutExtC stN1 (lock_final E false lock account stN1).st := by
  simp only [lock_final]
  refine mutExtC_then (mutExtC_liftE _ _ _ (MutExtC.rflC _)) ?_
  intro s st1 h1
  refine mutExtC_then (mutExtC_liftE _ _ _ h1) ?_
  intro sl st2 h2
  split
  · refine mutExtC_then (mutExtC_liftE _ _ _ (mutExtC_setChanged h2)) ?_
    intro aid st3 h3
    refine mutExtC_then ?_ ?_
    · rw [hq _ st3 h3.2.2.2.2]
      exact h3
    · intro did st4 h4
      rw [if_neg Bool.false_ne_true]
      refine mutExtC_then (mutExtC_emitCall _ _ _ _ h4 (by rfl)) ?_
      intro res st5 h5
      refine mutExtC_then (mutExtC_liftE _ _ _ h5) ?_
      intro u st6 h6
      refine mutExtC_then ?_ ?_
      · split
        · exact (h6.transC (poll_job_mutC _ _ _))
        · exact h6
      · intro a st7 h7
        exact h7
  · exact h2

/-- The check-mode run of the final stage of `lock_or_disable_account`
is quiet when the domain resolver is quiet. -/
theorem lock_final_check (E : Env) (lock : Bool) (account : PyVal) (stC1 : St)
    (hq : DomQuiet E stC1.domain) :
    CQuiet stC1 (lock_final E true lock account stC1).st := by
  simp only [lock_final]
  cases hs : pyGetItem account "state" with
  | error m =>
    simp only [hs, liftE_error, Res.then]
    exact CQuiet.rflQ stC1
  | ok s =>
    simp only [hs, liftE_ok, Res.then]
    cases hl : pyLower s with
    | error m =>
      simp only [hl, liftE_error, Res.then]
      exact CQuiet.rflQ stC1
    | ok sl =>
      simp only [hl, liftE_ok, Res.then]
      split
      · cases hid : pyGetItem account "id" with
        | error m =>
          simp only [hid, liftE_error, Res.then]
          exact cQuiet_setChanged stC1
        | ok aid =>
          simp only [hid, liftE_ok, Res.then]
          have hgd := hq (some "id") (setChanged stC1) (Eq.refl _)
          cases hg : get_domain E (some "id") (setChanged stC1) with
          | fail m stx =>
            rw [hg] at hgd
            simp only [Res.then]
            rw [show (Res.fail m stx : Res PyVal).st = stx from rfl] at hgd
            rw [hgd]
            exact cQuiet_setChanged stC1
          | ok did stx =>
            rw [hg] at hgd
            simp only [Res.then]
            rw [show (Res.ok did stx : Res PyVal).st = stx from rfl] at hgd
            rw [if_pos trivial]
            rw [show (Res.ok account stx : Res PyVal).st = stx from rfl, hgd]
            exact cQuiet_setChanged stC1
      · exact CQuiet.rflQ stC1

/-- Check and normal runs of the final stage of
`lock_or_disable_account` from the same state are `ckRel`-related. -/
theorem ck_lock_final (E : Env) (lock : Bool) (account : PyVal) (st : St)
    (h0 : TraceAll st) :
    ckRel (lock_final E false lock account st) (lock_final E true lock account st) := by
  simp only [lock_final]
  cases hs : pyGetItem account "state" with
  | error m =>
    simp only [hs, liftE_error, Res.then]
    exact ckRel_diag h0
  | ok s =>
    simp only [hs, liftE_ok, Res.then]
    cases hl : pyLower s with
    | error m =>
      simp only [hl, liftE_error, Res.then]
      exact ckRel_diag h0
    | ok sl =>
      simp only [hl, liftE_ok, Res.then]
      split
      · cases hid : pyGetItem account "id" with
        | error m =>
          simp only [hid, liftE_error, Res.then]
          exact ckRel_diag h0
        | ok aid =>
          simp only [hid, liftE_ok, Res.then]
          cases hdom : get_domain E (some "id") (setChanged st) with
          | fail m st2 =>
            have hext := get_domain_ext E (some "id") (setChanged st)
            rw [hdom] at hext
            simp only [Res.st] at hext
            simp only [Res.then]
            exact ckRel_diag (traceAll_step (show TraceAll (setChanged st) from h0) hext)
          | ok did st2 =>
            have hext := get_domain_ext E (some "id") (setChanged st)
            rw [hdom] at hext
            simp only [Res.st] at hext
            have hta2 : TraceAll st2 :=
              traceAll_step (show TraceAll (setChanged st) from h0) hext
            simp only [Res.then]
            rw [if_pos trivial, if_neg Bool.false_ne_true]
            refine ckRel_mut rfl hta2 ?_
            refine mutExt_then
              (mutExt_liftE _ _ _ (mutExt_append_one _ (MutExt.rflM st2) (by rfl))) ?_
            intro u st5 h5
            refine mutExt_then ?_ ?_
            · split
              · exact h5.transM (poll_job_mut _ _ _)
              · exact h5
            · intro a st6 h6
              exact h6
      · exact ckRel_diag h0

/-- Relation between the normal-mode and check-mode runs of
`present_account` from a common state: either both runs are identical
(shared failure or a found account), or the runs diverged at the
check-mode guard of the create call; in the diverged case the check run
returns the falsy account unchanged and the normal state stays
`CkSt`-related to it. -/
theorem present_account_rel (E : Env) (st1 : St) (h1 : TraceAll st1) :
    (∃ m stx, present_account E false st1 = .fail m stx ∧
       present_account E true st1 = .fail m stx ∧ TraceAll stx) ∨
    (∃ a st2, present_account E false st1 = .ok a st2 ∧
       present_account E true st1 = .ok a st2 ∧ TraceAll st2) ∨
    (∃ aC stC1, present_account E true st1 = .ok aC stC1 ∧ pyTruthy aC = false ∧
       TraceAll stC1 ∧ stC1.changed = true ∧ DomQuiet E stC1.domain ∧
       CkSt (present_account E false st1).st stC1 ∧
       (present_account E false st1).st.domain = stC1.domain) := by
  simp only [present_account]
  cases hf : fail_on_missing_params (accountRequiredParams E) st1 with
  | fail m stx =>
    have hst : stx = st1 := by
      have h := fail_on_missing_params_st (accountRequiredParams E) st1
      rw [hf] at h; exact h
    rw [hst]
    simp only [Res.then]
    exact Or.inl ⟨m, st1, rfl, rfl, h1⟩
  | ok u stx =>
    have hst : stx = st1 := by
      have h := fail_on_missing_params_st (accountRequiredParams E) st1
      rw [hf] at h; exact h
    rw [hst]
    simp only [Res.then]
    cases hacc : acc_get_account E st1 with
    | fail m st2 =>
      have hext := acc_get_account_ext E st1
      rw [hacc] at hext
      simp only [Res.st] at hext
      simp only [Res.then]
      exact Or.inl ⟨m, st2, rfl, rfl, traceAll_step h1 hext⟩
    | ok account st2 =>
      have hext := acc_get_account_ext E st1
      rw [hacc] at hext
      simp only [Res.st] at hext
      have hta2 : TraceAll st2 := traceAll_step h1 hext
      simp only [Res.then]
      by_cases hpt : pyTruthy account = true
      · rw [if_pos hpt, if_pos hpt]
        exact Or.inr (Or.inl ⟨account, st2, rfl, rfl, hta2⟩)
      · rw [if_neg hpt, if_neg hpt]
        cases hdom : get_domain E (some "id") (setChanged st2) with
        | fail m st3 =>
          have hext2 := get_domain_ext E (some "id") (setChanged st2)
          rw [hdom] at hext2
          simp only [Res.st] at hext2
          simp only [Res.then]
          exact Or.inl ⟨m, st3, rfl, rfl,
            traceAll_step (show TraceAll (setChanged st2) from hta2) hext2⟩
        | ok did st3 =>
          have hext2 := get_domain_ext E (some "id") (setChanged st2)
          rw [hdom] at hext2
          simp only [Res.st] at hext2
          have hta3 : TraceAll st3 :=
            traceAll_step (show TraceAll (setChanged st2) from hta2) hext2
          have hch3 : st3.changed = true := by
            rw [hext2.2.1]
            rfl
          have hq := get_domain_quiet hdom
          simp only [Res.then]
          cases hat : get_account_type E with
          | error m =>
            simp only [hat, liftE_error, Res.then]
            exact Or.inl ⟨m, st3, rfl, rfl, hta3⟩
          | ok atype =>
            simp only [hat, liftE_ok, Res.then]
            rw [if_pos trivial, if_neg Bool.false_ne_true]
            refine Or.inr (Or.inr ⟨account, st3, rfl, ?_, hta3, hch3, hq, ?_, ?_⟩)
            · rw [← Bool.not_eq_true]
              exact hpt
            · simp only [emitCall, Res.then]
              cases hec : errCheck E.createAccountResp with
              | error m =>
                simp only [hec, liftE_error, Res.then, Res.st]
                refine ⟨?_, Eq.refl _, Eq.refl _, Eq.refl _⟩
                rw [List.filter_append, filter_list_self hta3]
                simp [List.filter_cons, isListCall]
              | ok uu =>
                simp only [hec, liftE_ok, Res.then]
                cases hga : pyGetItem E.createAccountResp "account" with
                | error m =>
                  simp only [hga, liftE_error, Res.then, Res.st]
                  refine ⟨?_, Eq.refl _, Eq.refl _, Eq.refl _⟩
                  rw [List.filter_append, filter_list_self hta3]
                  simp [List.filter_cons, isListCall]
                | ok acc =>
                  simp only [hga, liftE_ok, Res.then, Res.st]
                  refine ⟨?_, Eq.refl _, Eq.refl _, Eq.refl _⟩
                  rw [List.filter_append, filter_list_self hta3]
                  simp [List.filter_cons, isListCall]
            · simp only [emitCall, Res.then]
              cases hec : errCheck E.createAccountResp with
              | error m =>
                simp only [hec, liftE_error, Res.then, Res.st]
              | ok uu =>
                simp only [hec, liftE_ok, Res.then]
                cases hga : pyGetItem E.createAccountResp "account" with
                | error m =>
                  simp only [hga, liftE_error, Res.then, Res.st]
                | ok acc =>
                  simp only [hga, liftE_ok, Res.then, Res.st]

/-- Relation between the normal-mode and check-mode runs of the
resolved-account tail of `enable_account` from a common state: either
identical, or diverged at the check-mode guard of the enable call. -/
theorem enable_after_rel (E : Env) (account : PyVal) (st2 : St) (h2 : TraceAll st2) :
    (∃ m stx, enable_after E false account st2 = .fail m stx ∧
       enable_after E true account st2 = .fail m stx ∧ TraceAll stx) ∨
    (∃ a st3, enable_after E false account st2 = .ok a st3 ∧
       enable_after E true account st2 = .ok a st3 ∧ TraceAll st3) ∨
    (∃ aC stC3, enable_after E true account st2 = .ok aC stC3 ∧
       TraceAll stC3 ∧ stC3.changed = true ∧ DomQuiet E stC3.domain ∧
       CkSt (enable_after E false account st2).st stC3 ∧
       (enable_after E false account st2).st.domain = stC3.domain) := by
  simp only [enable_after]
  cases hs : pyGetItem account "state" with
  | error m =>
    simp only [hs, liftE_error, Res.then]
    exact Or.inl ⟨m, st2, rfl, rfl, h2⟩
  | ok s =>
    simp only [hs, liftE_ok, Res.then]
    cases hl : pyLower s with
    | error m =>
      simp only [hl, liftE_error, Res.then]
      exact Or.inl ⟨m, st2, rfl, rfl, h2⟩
    | ok sl =>
      simp only [hl, liftE_ok, Res.then]
      by_cases hsl : sl = "enabled"
      · rw [if_pos hsl, if_pos hsl]
        exact Or.inr (Or.inl ⟨account, st2, rfl, rfl, h2⟩)
      · rw [if_neg hsl, if_neg hsl]
        cases hid : pyGetItem account "id" with
        | error m =>
          simp only [hid, liftE_error, Res.then]
          exact Or.inl ⟨m, setChanged st2, rfl, rfl,
            show TraceAll (setChanged st2) from h2⟩
        | ok aid =>
          simp only [hid, liftE_ok, Res.then]
          cases hdom : get_domain E (some "id") (setChanged st2) with
          | fail m st3 =>
            have hext2 := get_domain_ext E (some "id") (setChanged st2)
            rw [hdom] at hext2
            simp only [Res.st] at hext2
            simp only [Res.then]
            exact Or.inl ⟨m, st3, rfl, rfl,
              traceAll_step (show TraceAll (setChanged st2) from h2) hext2⟩
          | ok did st3 =>
            have hext2 := get_domain_ext E (some "id") (setChanged st2)
            rw [hdom] at hext2
            simp only [Res.st] at hext2
            have hta3 : TraceAll st3 :=
              traceAll_step (show TraceAll (setChanged st2) from h2) hext2
            have hch3 : st3.changed = true := by
              rw [hext2.2.1]
              rfl
            have hq := get_domain_quiet hdom
            simp only [Res.then]
            rw [if_pos trivial, if_neg Bool.false_ne_true]
            refine Or.inr (Or.inr ⟨account, st3, rfl, hta3, hch3, hq, ?_, ?_⟩)
            · simp only [emitCall, Res.then]
              cases hec : errCheck E.enableAccountResp with
              | error m =>
                simp only [hec, liftE_error, Res.then, Res.st]
                refine ⟨?_, Eq.refl _, Eq.refl _, Eq.refl _⟩
                rw [List.filter_append, filter_list_self hta3]
                simp [List.filter_cons, isListCall]
              | ok uu =>
                simp only [hec, liftE_ok, Res.then]
                cases hga : pyGetItem E.enableAccountResp "account" with
                | error m =>
                  simp only [hga, liftE_error, Res.then, Res.st]
                  refine ⟨?_, Eq.refl _, Eq.refl _, Eq.refl _⟩
                  rw [List.filter_append, filter_list_self hta3]
                  simp [List.filter_cons, isListCall]
                | ok acc =>
                  simp only [hga, liftE_ok, Res.then, Res.st]
                  refine ⟨?_, Eq.refl _, Eq.refl _, Eq.refl _⟩
                  rw [List.filter_append, filter_list_self hta3]
                  simp [List.filter_cons, isListCall]
            · simp only [emitCall, Res.then]
              cases hec : errCheck E.enableAccountResp with
              | error m =>
                simp only [hec, liftE_error, Res.then, Res.st]
              | ok uu =>
                simp only [hec, liftE_ok, Res.then]
                cases hga : pyGetItem E.enableAccountResp "account" with
                | error m =>
                  simp only [hga, liftE_error, Res.then, Res.st]
                | ok acc =>
                  simp only [hga, liftE_ok, Res.then, Res.st]

/-- Relation between the normal-mode and check-mode runs of
`enable_account` from a common state: either identical, or diverged at
a check-mode guard (of the account-creating subcall or of the enable
call), in which case the check state is `CkSt`-related to the normal
state, has the changed flag set, and has a quiet domain cache. -/
theorem enable_account_rel (E : Env) (st : St) (h0 : TraceAll st) :
    (∃ m stx, enable_account E false st = .fail m stx ∧
       enable_account E true st = .fail m stx ∧ TraceAll stx) ∨
    (∃ a st3, enable_account E false st = .ok a st3 ∧
       enable_account E true st = .ok a st3 ∧ TraceAll st3) ∨
    (∃ stC3, (enable_account E true st).st = stC3 ∧
       TraceAll stC3 ∧ stC3.changed = true ∧ DomQuiet E stC3.domain ∧
       CkSt (enable_account E false st).st stC3 ∧
       (enable_account E false st).st.domain = stC3.domain) := by
  rw [enable_account_eq E false st, enable_account_eq E true st]
  cases hacc : acc_get_account E st with
  | fail m st1 =>
    have hext := acc_get_account_ext E st
    rw [hacc] at hext
    simp only [Res.st] at hext
    simp only [Res.then]
    exact Or.inl ⟨m, st1, rfl, rfl, traceAll_step h0 hext⟩
  | ok account st1 =>
    have hext := acc_get_account_ext E st
    rw [hacc] at hext
    simp only [Res.st] at hext
    have hta1 : TraceAll st1 := traceAll_step h0 hext
    simp only [Res.then]
    by_cases hpt : pyTruthy account = true
    · rw [if_pos hpt, if_pos hpt]
      simp only [Res.then]
      rcases enable_after_rel E account st1 hta1 with
        ⟨m, stx, hN, hC, hta⟩ | ⟨a, st3, hN, hC, hta⟩ |
        ⟨aC, stC3, hC, hta, hch, hq, hck, hdm⟩
      · exact Or.inl ⟨m, stx, hN, hC, hta⟩
      · exact Or.inr (Or.inl ⟨a, st3, hN, hC, hta⟩)
      · refine Or.inr (Or.inr ⟨stC3, ?_, hta, hch, hq, hck, hdm⟩)
        rw [hC]
        rfl
    · rw [if_neg hpt, if_neg hpt]
      rcases present_account_rel E st1 hta1 with
        ⟨m, stx, hpN, hpC, htx⟩ | ⟨a, st2, hpN, hpC, hta2⟩ |
        ⟨aC, stC1, hpC, hfalsy, htaC, hchC, hqC, hckC, hdmC⟩
      · rw [hpN, hpC]
        simp only [Res.then]
        exact Or.inl ⟨m, stx, rfl, rfl, htx⟩
      · rw [hpN, hpC]
        simp only [Res.then]
        rcases enable_after_rel E a st2 hta2 with
          ⟨m, stx, hN, hC, hta⟩ | ⟨b, st3, hN, hC, hta⟩ |
          ⟨aC, stC3, hC, hta, hch, hq, hck, hdm⟩
        · exact Or.inl ⟨m, stx, hN, hC, hta⟩
        · exact Or.inr (Or.inl ⟨b, st3, hN, hC, hta⟩)
        · refine Or.inr (Or.inr ⟨stC3, ?_, hta, hch, hq, hck, hdm⟩)
          rw [hC]
          rfl
      · rw [hpC]
        simp only [Res.then]
        obtain ⟨m2, hcf⟩ := enable_after_check_falsy E stC1 hfalsy
        rw [hcf]
        cases hpN : present_account E false st1 with
        | fail m stN1 =>
          rw [hpN] at hckC hdmC
          simp only [Res.st] at hckC hdmC
          simp only [Res.then]
          exact Or.inr (Or.inr ⟨stC1, rfl, htaC, hchC, hqC, hckC, hdmC⟩)
        | ok aN stN1 =>
          rw [hpN] at hckC hdmC
          simp only [Res.st] at hckC hdmC
          simp only [Res.then]
          have hqN : DomQuiet E stN1.domain := by
            rw [hdmC]; exact hqC
          have hmut := enable_after_normal E aN stN1 hqN
          refine Or.inr (Or.inr ⟨stC1, rfl, htaC, hchC, hqC, ?_, ?_⟩)
          · exact ckSt_mutC hckC hchC hmut
          · rw [hmut.2.2.2.2, hdmC]

/-- Assemble the final check relation of an operation from the relation
at the divergence point and the shapes of the two mutation phases. -/
theorem ckSt_assemble {stN3 stC3 stNf stCf : St}
    (hck : CkSt stN3 stC3) (hch : stC3.changed = true)
    (hm : MutExtC stN3 stNf) (hq : CQuiet stC3 stCf) : CkSt stNf stCf := by
  have h1 : CkSt stNf stC3 := ckSt_mutC hck hch hm
  obtain ⟨hqt, hqc, hqb, hqf, _⟩ := hq
  refine ⟨?_, ?_, ?_, ?_⟩
  · rw [hqt, h1.1]
  · cases hqc with
    | inl he => rw [he, h1.2.1]
    | inr he =>
      rw [he, ← h1.2.1]
      exact hch.symm
  · rw [hqb, h1.2.2.1]
  · rw [hqf, h1.2.2.2]

/-- Relation between the normal-mode and check-mode runs of the
enable-if-disabled stage of `lock_or_disable_account` from a common
state. -/
theorem lockStage_rel (E : Env) (lock : Bool) (account : PyVal) (st2 : St)
    (h2 : TraceAll st2) :
    (∃ m stx, lockStage E false lock account st2 = .fail m stx ∧
       lockStage E true lock account st2 = .fail m stx ∧ TraceAll stx) ∨
    (∃ a st3, lockStage E false lock account st2 = .ok a st3 ∧
       lockStage E true lock account st2 = .ok a st3 ∧ TraceAll st3) ∨
    (∃ stC3, (lockStage E true lock account st2).st = stC3 ∧
       TraceAll stC3 ∧ stC3.changed = true ∧ DomQuiet E stC3.domain ∧
       CkSt (lockStage E false lock account st2).st stC3 ∧
       (lockStage E false lock account st2).st.domain = stC3.domain) := by
  cases lock with
  | false =>
    simp only [lockStage]
    rw [if_neg Bool.false_ne_true, if_neg Bool.false_ne_true]
    exact Or.inr (Or.inl ⟨account, st2, rfl, rfl, h2⟩)
  | true =>
    simp only [lockStage]
    rw [if_pos trivial, if_pos trivial]
    cases hs : pyGetItem account "state" with
    | error m =>
      simp only [hs, liftE_error, Res.then]
      exact Or.inl ⟨m, st2, rfl, rfl, h2⟩
    | ok s =>
      simp only [hs, liftE_ok, Res.then]
      cases hl : pyLower s with
      | error m =>
        simp only [hl, liftE_error, Res.then]
        exact Or.inl ⟨m, st2, rfl, rfl, h2⟩
      | ok sl =>
        simp only [hl, liftE_ok, Res.then]
        by_cases hsl : sl = "disabled"
        · rw [if_pos hsl, if_pos hsl]
          rcases enable_account_rel E st2 h2 with
            ⟨m, stx, hN, hC, hta⟩ | ⟨a, st3, hN, hC, hta⟩ |
            ⟨stC3, hCst, hta, hch, hq, hck, hdm⟩
          · exact Or.inl ⟨m, stx, hN, hC, hta⟩
          · exact Or.inr (Or.inl ⟨a, st3, hN, hC, hta⟩)
          · exact Or.inr (Or.inr ⟨stC3, hCst, hta, hch, hq, hck, hdm⟩)
        · rw [if_neg hsl, if_neg hsl]
          exact Or.inr (Or.inl ⟨account, st2, rfl, rfl, h2⟩)

/-- Check and normal runs of the stage-then-final tail of
`lock_or_disable_account` from a common state are `ckRel`-related. -/
theorem ck_lock_tail (E : Env) (lock : Bool) (account : PyVal) (st1 : St)
    (h1 : TraceAll st1) :
    ckRel ((lockStage E false lock account st1).then fun a st => lock_final E false lock a st)
      ((lockStage E true lock account st1).then fun a st => lock_final E true lock a st) := by
  rcases lockStage_rel E lock account st1 h1 with
    ⟨m, stx, hN, hC, hta⟩ | ⟨a, st3, hN, hC, hta⟩ |
    ⟨stC3, hCst, hta, hch, hq, hck, hdm⟩
  · rw [hN, hC]
    simp only [Res.then]
    exact ckRel_diag hta
  · rw [hN, hC]
    simp only [Res.then]
    exact ck_lock_final E lock a st3 hta
  · cases hSN : lockStage E false lock account st1 with
    | fail mN stN3 =>
      rw [hSN] at hck hdm
      simp only [Res.st] at hck hdm
      cases hSC : lockStage E true lock account st1 with
      | fail mC stC3' =>
        rw [hSC] at hCst
        simp only [Res.st] at hCst
        subst hCst
        simp only [Res.then]
        exact ckRel_of_ckSt hck
      | ok aC stC3' =>
        rw [hSC] at hCst
        simp only [Res.st] at hCst
        subst hCst
        simp only [Res.then]
        have hcq := lock_final_check E lock aC stC3' hq
        exact ckRel_of_ckSt (ckSt_assemble hck hch (MutExtC.rflC _) hcq)
    | ok aN stN3 =>
      rw [hSN] at hck hdm
      simp only [Res.st] at hck hdm
      have hqN : DomQuiet E stN3.domain := by
        rw [hdm]; exact hq
      have hmut := lock_final_normal E lock aN stN3 hqN
      cases hSC : lockStage E true lock account st1 with
      | fail mC stC3' =>
        rw [hSC] at hCst
        simp only [Res.st] at hCst
        subst hCst
        simp only [Res.then]
        exact ckRel_of_ckSt (ckSt_assemble hck hch hmut (CQuiet.rflQ _))
      | ok aC stC3' =>
        rw [hSC] at hCst
        simp only [Res.st] at hCst
        subst hCst
        simp only [Res.then]
        have hcq := lock_final_check E lock aC stC3' hq
        exact ckRel_of_ckSt (ckSt_assemble hck hch hmut hcq)

/-- With a falsy resolved account, the check-mode stage-then-final tail
of `lock_or_disable_account` fails immediately, leaving the state
untouched. -/
theorem lock_tail_check_falsy (E : Env) (lock : Bool) {aC : PyVal} (stC1 : St)
    (hf : pyTruthy aC = false) :
    ∃ m, ((lockStage E true lock aC stC1).then fun a st => lock_final E true lock a st)
      = .fail m stC1 := by
  obtain ⟨m, hm⟩ := pyGetItem_falsy "state" hf
  cases lock with
  | true =>
    refine ⟨m, ?_⟩
    simp only [lockStage]
    rw [if_pos trivial]
    simp only [hm, liftE_error, Res.then]
  | false =>
    refine ⟨m, ?_⟩
    simp only [lockStage]
    rw [if_neg Bool.false_ne_true]
    simp only [Res.then, lock_final, hm, liftE_error]

/-- Check and normal runs of `enable_account` are `ckRel`-related. -/
theorem ck_enable_account (E : Env) (st : St) (h0 : TraceAll st) :
    ckRel (enable_account E false st) (enable_account E true st) := by
  rcases enable_account_rel E st h0 with
    ⟨m, stx, hN, hC, hta⟩ | ⟨a, st3, hN, hC, hta⟩ |
    ⟨stC3, hCst, hta, hch, hq, hck, hdm⟩
  · rw [hN, hC]
    exact ckRel_diag hta
  · rw [hN, hC]
    exact ckRel_diag hta
  · refine ckRel_of_ckSt ?_
    rw [hCst]
    exact hck

/-- Check and normal runs of `absent_account` are `ckRel`-related. -/
theorem ck_absent_account (E : Env) (st : St) (h0 : TraceAll st) :
    ckRel (absent_account E false st) (absent_account E true st) := by
  unfold absent_account
  cases hacc : acc_get_account E st with
  | fail m st1 =>
    have hext := acc_get_account_ext E st
    rw [hacc] at hext
    simp only [Res.st] at hext
    simp only [Res.then]
    exact ckRel_diag (traceAll_step h0 hext)
  | ok account st1 =>
    have hext := acc_get_account_ext E st
    rw [hacc] at hext
    simp only [Res.st] at hext
    have hta1 : TraceAll st1 := traceAll_step h0 hext
    simp only [Res.then]
    by_cases hpt : pyTruthy account = true
    · rw [if_pos hpt, if_pos hpt]
      rw [if_pos trivial, if_neg Bool.false_ne_true]
      refine ckRel_mut rfl (show TraceAll (setChanged st1) from hta1) ?_
      refine mutExt_then (mutExt_liftE _ _ _ (MutExt.rflM _)) ?_
      intro aid st2 h2
      refine mutExt_then
        (mutExt_liftE _ _ _ (mutExt_append_one _ h2 (by rfl))) ?_
      intro u st3 h3
      refine mutExt_then ?_ ?_
      · split
        · exact mutExt_then (h3.transM (poll_job_mut _ _ _)) fun a st4 h4 => h4
        · exact h3
      · intro a st4 h4
        exact h4
    · rw [if_neg hpt, if_neg hpt]
      exact ckRel_diag hta1

/-- Check and normal runs of `lock_or_disable_account` with
`lock=False` (the `disabled` target state) are `ckRel`-related. -/
theorem ck_disable_op (E : Env) (st : St) (h0 : TraceAll st) :
    ckRel (lock_or_disable_account E false false st)
      (lock_or_disable_account E true false st) := by
  rw [lock_or_disable_eq E false false st, lock_or_disable_eq E true false st]
  cases hacc : acc_get_account E st with
  | fail m st1 =>
    have hext := acc_get_account_ext E st
    rw [hacc] at hext
    simp only [Res.st] at hext
    simp only [Res.then]
    exact ckRel_diag (traceAll_step h0 hext)
  | ok account st1 =>
    have hext := acc_get_account_ext E st
    rw [hacc] at hext
    simp only [Res.st] at hext
    have hta1 : TraceAll st1 := traceAll_step h0 hext
    simp only [Res.then]
    by_cases hpt : pyTruthy account = true
    · rw [if_pos hpt, if_pos hpt]
      simp only [Res.then]
      exact ck_lock_tail E false account st1 hta1
    · rw [if_neg hpt, if_neg hpt]
      rcases present_account_rel E st1 hta1 with
        ⟨m, stx, hpN, hpC, htx⟩ | ⟨a, st2, hpN, hpC, hta2⟩ |
        ⟨aC, stC1, hpC, hfalsy, htaC, hchC, hqC, hckC, hdmC⟩
      · rw [hpN, hpC]
        simp only [Res.then]
        exact ckRel_diag htx
      · rw [hpN, hpC]
        simp only [Res.then]
        exact ck_lock_tail E false a st2 hta2
      · rw [hpC]
        obtain ⟨m2, hcf⟩ := lock_tail_check_falsy E false stC1 hfalsy
        show ckRel
          ((present_account E false st1).then fun account st =>
            (lockStage E false false account st).then fun a st =>
              lock_final E false false a st)
          ((lockStage E true false aC stC1).then fun a st => lock_final E true false a st)
        rw [hcf]
        cases hpN : present_account E false st1 with
        | fail m stN1 =>
          rw [hpN] at hckC hdmC
          simp only [Res.st] at hckC hdmC
          simp only [Res.then]
          exact ckRel_of_ckSt hckC
        | ok aN stN1 =>
          rw [hpN] at hckC hdmC
          simp only [Res.st] at hckC hdmC
          simp only [Res.then]
          have hqN : DomQuiet E stN1.domain := by
            rw [hdmC]; exact hqC
          have hmut := lock_final_normal E false aN stN1 hqN
          exact ckRel_of_ckSt (ckSt_assemble hckC hchC hmut (CQuiet.rflQ _))

/-- Check and normal runs of `lock_or_disable_account` with `lock=True`
(the `locked` target state) are `ckRel`-related whenever the check run
succeeds. -/
theorem ck_lock_op (E : Env) (st : St) (h0 : TraceAll st) {vC : PyVal} {stC : St}
    (hC : lock_or_disable_account E true true st = .ok vC stC) :
    ckRel (lock_or_disable_account E false true st)
      (lock_or_disable_account E true true st) := by
  rw [lock_or_disable_eq E true true st] at hC
  rw [lock_or_disable_eq E false true st, lock_or_disable_eq E true true st]
  cases hacc : acc_get_account E st with
  | fail m st1 =>
    have hext := acc_get_account_ext E st
    rw [hacc] at hext
    simp only [Res.st] at hext
    simp only [Res.then]
    exact ckRel_diag (traceAll_step h0 hext)
  | ok account st1 =>
    have hext := acc_get_account_ext E st
    rw [hacc] at hext
    simp only [Res.st] at hext
    have hta1 : TraceAll st1 := traceAll_step h0 hext
    rw [hacc] at hC
    simp only [Res.then] at hC ⊢
    by_cases hpt : pyTruthy account = true
    · rw [if_pos hpt, if_pos hpt]
      simp only [Res.then]
      exact ck_lock_tail E true account st1 hta1
    · rw [if_neg hpt, if_neg hpt]
      rw [if_neg hpt] at hC
      rcases present_account_rel E st1 hta1 with
        ⟨m, stx, hpN, hpC, htx⟩ | ⟨a, st2, hpN, hpC, hta2⟩ |
        ⟨aC, stC1, hpC, hfalsy, htaC, hchC, hqC, hckC, hdmC⟩
      · rw [hpN, hpC]
        simp only [Res.then]
        exact ckRel_diag htx
      · rw [hpN, hpC]
        simp only [Res.then]
        exact ck_lock_tail E true a st2 hta2
      · rw [hpC] at hC
        obtain ⟨m2, hcf⟩ := lock_tail_check_falsy E true stC1 hfalsy
        have hC2 : ((lockStage E true true aC stC1).then fun a st =>
            lock_final E true true a st) = Res.ok vC stC := hC
        rw [hcf] at hC2
        exact Res.noConfusion hC2

theorem has_changed_st_trace (want current : PyDict) (only : Option (List String))
    (st : St) : (has_changed want current only st).st.trace = st.trace := by
  unfold has_changed
  split <;> rfl

theorem has_changed_st_changed (want current : PyDict) (only : Option (List String))
    (st : St) : (has_changed want current only st).st.changed = st.changed := by
  unfold has_changed
  split <;> rfl

/-- Check and normal runs of `_create_cluster` are `ckRel`-related. -/
theorem ck_create_cluster (E : Env) (st : St) (h0 : TraceAll st) :
    ckRel (create_cluster E false st) (create_cluster E true st) := by
  simp only [create_cluster]
  cases hf : fail_on_missing_params (clusterRequiredParams E) st with
  | fail m stx =>
    have hst : stx = st := by
      have h := fail_on_missing_params_st (clusterRequiredParams E) st
      rw [hf] at h; exact h
    rw [hst]
    simp only [Res.then]
    exact ckRel_diag h0
  | ok u stx =>
    have hst : stx = st := by
      have h := fail_on_missing_params_st (clusterRequiredParams E) st
      rw [hf] at h; exact h
    rw [hst]
    simp only [Res.then]
    cases hz : get_zone E (some "id") st with
    | fail m st2 =>
      have hext := get_zone_ext E (some "id") st
      rw [hz] at hext
      simp only [Res.st] at hext
      simp only [Res.then]
      exact ckRel_diag (traceAll_step h0 hext)
    | ok zid st2 =>
      have hext := get_zone_ext E (some "id") st
      rw [hz] at hext
      simp only [Res.st] at hext
      have hta2 : TraceAll st2 := traceAll_step h0 hext
      simp only [Res.then]
      cases hp : get_pod E (some "id") st2 with
      | fail m st3 =>
        have hext2 := get_pod_ext E (some "id") st2
        rw [hp] at hext2
        simp only [Res.st] at hext2
        simp only [Res.then]
        exact ckRel_diag (traceAll_step hta2 hext2)
      | ok pid st3 =>
        have hext2 := get_pod_ext E (some "id") st2
        rw [hp] at hext2
        simp only [Res.st] at hext2
        have hta3 : TraceAll st3 := traceAll_step hta2 hext2
        simp only [Res.then]
        rw [if_pos trivial, if_neg Bool.false_ne_true]
        refine ckRel_mut rfl (show TraceAll (setChanged st3) from hta3) ?_
        refine mutExt_then
          (mutExt_liftE _ _ _ (mutExt_append_one _ (MutExt.rflM _) (by rfl))) ?_
        intro u2 st5 h5
        refine mutExt_then (mutExt_liftE _ _ _ h5) ?_
        intro cl st6 h6
        cases cl with
        | vlist xs =>
          exact mutExt_then (mutExt_liftE _ _ _ h6) fun c st7 h7 => h7
        | vnull => exact h6
        | vbool b => exact h6
        | vint n => exact h6
        | vstr s2 => exact h6
        | vdict d => exact h6

/-- Check and normal runs of `_update_cluster` are `ckRel`-related. -/
theorem ck_update_cluster (E : Env) (st : St) (h0 : TraceAll st) :
    ckRel (update_cluster E false st) (update_cluster E true st) := by
  simp only [update_cluster]
  cases hg : get_cluster E st with
  | fail m st2 =>
    have hext := get_cluster_ext E st
    rw [hg] at hext
    simp only [Res.st] at hext
    simp only [Res.then]
    exact ckRel_diag (traceAll_step h0 hext)
  | ok cluster st2 =>
    have hext := get_cluster_ext E st
    rw [hg] at hext
    simp only [Res.st] at hext
    have hta2 : TraceAll st2 := traceAll_step h0 hext
    simp only [Res.then]
    cases hid : pyGetItem cluster "id" with
    | error m =>
      simp only [hid, liftE_error, Res.then]
      exact ckRel_diag hta2
    | ok cid =>
      simp only [hid, liftE_ok, Res.then]
      cases cluster with
      | vdict cd =>
        dsimp only
        cases hhc : has_changed (dset (get_common_cluster_args E) "id" cid) cd none st2 with
        | fail m st3 =>
          simp only [Res.then]
          have ht3 : st3.trace = st2.trace := by
            have h := has_changed_st_trace (dset (get_common_cluster_args E) "id" cid) cd
              none st2
            rw [hhc] at h; exact h
          refine ckRel_diag ?_
          show TraceAll st3
          unfold TraceAll
          rw [ht3]
          exact hta2
        | ok bc st3 =>
          have ht3 : st3.trace = st2.trace := by
            have h := has_changed_st_trace (dset (get_common_cluster_args E) "id" cid) cd
              none st2
            rw [hhc] at h; exact h
          have hta3 : TraceAll st3 := by
            unfold TraceAll
            rw [ht3]
            exact hta2
          simp only [Res.then]
          by_cases hb : bc.1 = true
          · rw [if_pos hb, if_pos hb]
            rw [if_pos trivial, if_neg Bool.false_ne_true]
            refine ckRel_mut rfl
              (show TraceAll (setChanged { st3 with cluster := .vdict bc.2 }) from hta3) ?_
            refine mutExt_then
              (mutExt_liftE _ _ _ (mutExt_append_one _ (MutExt.rflM _) (by rfl))) ?_
            intro u2 st5 h5
            refine mutExt_then (mutExt_liftE _ _ _ h5) ?_
            intro c st6 h6
            exact h6
          · rw [if_neg hb, if_neg hb]
            exact ckRel_diag
              (show TraceAll { st3 with cluster := .vdict bc.2 } from hta3)
      | vnull => simp only [Res.then]; exact ckRel_diag hta2
      | vbool b => simp only [Res.then]; exact ckRel_diag hta2
      | vint n => simp only [Res.then]; exact ckRel_diag hta2
      | vstr s2 => simp only [Res.then]; exact ckRel_diag hta2
      | vlist xs => simp only [Res.then]; exact ckRel_diag hta2

/-- Check and normal runs of `present_cluster` are `ckRel`-related. -/
theorem ck_present_cluster (E : Env) (st : St) (h0 : TraceAll st) :
    ckRel (present_cluster E false st) (present_cluster E true st) := by
  unfold present_cluster
  cases hg : get_cluster E st with
  | fail m st2 =>
    have hext := get_cluster_ext E st
    rw [hg] at hext
    simp only [Res.st] at hext
    simp only [Res.then]
    exact ckRel_diag (traceAll_step h0 hext)
  | ok cluster st2 =>
    have hext := get_cluster_ext E st
    rw [hg] at hext
    simp only [Res.st] at hext
    have hta2 : TraceAll st2 := traceAll_step h0 hext
    simp only [Res.then]
    by_cases hpt : pyTruthy cluster = true
    · rw [if_pos hpt, if_pos hpt]
      exact ck_update_cluster E st2 hta2
    · rw [if_neg hpt, if_neg hpt]
      exact ck_create_cluster E st2 hta2

/-- Check and normal runs of `absent_cluster` are `ckRel`-related. -/
theorem ck_absent_cluster (E : Env) (st : St) (h0 : TraceAll st) :
    ckRel (absent_cluster E false st) (absent_cluster E true st) := by
  unfold absent_cluster
  cases hg : get_cluster E st with
  | fail m st2 =>
    have hext := get_cluster_ext E st
    rw [hg] at hext
    simp only [Res.st] at hext
    simp only [Res.then]
    exact ckRel_diag (traceAll_step h0 hext)
  | ok cluster st2 =>
    have hext := get_cluster_ext E st
    rw [hg] at hext
    simp only [Res.st] at hext
    have hta2 : TraceAll st2 := traceAll_step h0 hext
    simp only [Res.then]
    by_cases hpt : pyTruthy cluster = true
    · rw [if_pos hpt, if_pos hpt]
      cases hid : pyGetItem cluster "id" with
      | error m =>
        simp only [hid, liftE_error, Res.then]
        exact ckRel_diag (show TraceAll (setChanged st2) from hta2)
      | ok cid =>
        simp only [hid, liftE_ok, Res.then]
        rw [if_pos trivial, if_neg Bool.false_ne_true]
        refine ckRel_mut rfl (show TraceAll (setChanged st2) from hta2) ?_
        refine mutExt_then
          (mutExt_liftE _ _ _ (mutExt_append_one _ (MutExt.rflM _) (by rfl))) ?_
        intro u2 st5 h5
        exact h5
    · rw [if_neg hpt, if_neg hpt]
      exact ckRel_diag hta2

/-- Check and normal runs of `present_nic` are `ckRel`-related. -/
theorem ck_present_nic (E : Env) (st : St) (h0 : TraceAll st) :
    ckRel (present_nic E false st) (present_nic E true st) := by
  unfold present_nic
  cases hn : get_nic E st with
  | fail m st2 =>
    have hext := get_nic_ext E st
    rw [hn] at hext
    simp only [Res.st] at hext
    simp only [Res.then]
    exact ckRel_diag (traceAll_step h0 hext)
  | ok nic st2 =>
    have hext := get_nic_ext E st
    rw [hn] at hext
    simp only [Res.st] at hext
    have hta2 : TraceAll st2 := traceAll_step h0 hext
    simp only [Res.then]
    cases hsec : get_secondary_ip E st2 with
    | fail m st3 =>
      have hext2 := get_secondary_ip_ext E st2
      rw [hsec] at hext2
      simp only [Res.st] at hext2
      simp only [Res.then]
      exact ckRel_diag (traceAll_step hta2 hext2)
    | ok sec st3 =>
      have hext2 := get_secondary_ip_ext E st2
      rw [hsec] at hext2
      simp only [Res.st] at hext2
      have hta3 : TraceAll st3 := traceAll_step hta2 hext2
      simp only [Res.then]
      by_cases hpt : pyTruthy sec = true
      · rw [if_pos hpt, if_pos hpt]
        exact ckRel_diag hta3
      · rw [if_neg hpt, if_neg hpt]
        cases hid : pyGetItem nic "id" with
        | error m =>
          simp only [hid, liftE_error, Res.then]
          exact ckRel_diag (show TraceAll (setChanged st3) from hta3)
        | ok nid =>
          simp only [hid, liftE_ok, Res.then]
          rw [if_pos trivial, if_neg Bool.false_ne_true]
          refine ckRel_mut rfl (show TraceAll (setChanged st3) from hta3) ?_
          refine mutExt_then
            (mutExt_liftE _ _ _ (mutExt_append_one _ (MutExt.rflM _) (by rfl))) ?_
          intro u st5 h5
          split
          · refine mutExt_then (h5.transM (poll_job_mut _ _ _)) ?_
            intro nic2 st6 h6
            refine mutExt_then (mutExt_liftE _ _ _ h6) ?_
            intro gip st7 h7
            exact mutExt_cache _ _ _ h7 rfl rfl rfl rfl
          · exact h5

/-- Check and normal runs of `absent_nic` are `ckRel`-related. -/
theorem ck_absent_nic (E : Env) (st : St) (h0 : TraceAll st) :
    ckRel (absent_nic E false st) (absent_nic E true st) := by
  unfold absent_nic
  cases hn : get_nic E st with
  | fail m st2 =>
    have hext := get_nic_ext E st
    rw [hn] at hext
    simp only [Res.st] at hext
    simp only [Res.then]
    exact ckRel_diag (traceAll_step h0 hext)
  | ok nic st2 =>
    have hext := get_nic_ext E st
    rw [hn] at hext
    simp only [Res.st] at hext
    have hta2 : TraceAll st2 := traceAll_step h0 hext
    simp only [Res.then]
    cases hsec : get_secondary_ip E st2 with
    | fail m st3 =>
      have hext2 := get_secondary_ip_ext E st2
      rw [hsec] at hext2
      simp only [Res.st] at hext2
      simp only [Res.then]
      exact ckRel_diag (traceAll_step hta2 hext2)
    | ok sec st3 =>
      have hext2 := get_secondary_ip_ext E st2
      rw [hsec] at hext2
      simp only [Res.st] at hext2
      have hta3 : TraceAll st3 := traceAll_step hta2 hext2
      simp only [Res.then]
      by_cases hpt : pyTruthy sec = true
      · rw [if_pos hpt, if_pos hpt]
        rw [if_pos trivial, if_neg Bool.false_ne_true]
        refine ckRel_mut rfl (show TraceAll (setChanged st3) from hta3) ?_
        refine mutExt_then (mutExt_liftE _ _ _ (MutExt.rflM _)) ?_
        intro sid st4 h4
        refine mutExt_then
          (mutExt_liftE _ _ _ (mutExt_append_one _ h4 (by rfl))) ?_
        intro u st6 h6
        refine mutExt_then ?_ ?_
        · split
          · exact mutExt_then (h6.transM (poll_job_mut _ _ _)) fun a st7 h7 => h7
          · exact h6
        · intro a st7 h7
          exact h7
      · rw [if_neg hpt, if_neg hpt]
        exact ckRel_diag hta3

/-- A check-mode `_process_tags` run never calls out: it only switches
the changed flag on for a nonempty batch. -/
theorem process_tags_true_ok (E : Env) (r : PyDict) (rt : String) (ts : List Tag)
    (op : String) (st : St) :
    process_tags E true r rt ts op st =
      .ok () (if ts.isEmpty then st else setChanged st) := by
  simp only [process_tags]
  by_cases hts : ts.isEmpty = true
  · rw [if_pos hts, if_pos hts]
  · rw [if_neg hts, if_neg hts, if_pos trivial]

/-- Relation between the normal-mode and check-mode runs of
`_process_tags` against `CkSt`-related states: the check run succeeds
quietly and the relation is preserved; moreover either the normal run
succeeded or the check state has the changed flag on. -/
theorem process_tags_rel (E : Env) (r : PyDict) (rt : String) (ts : List Tag)
    (op : String) {stN stC : St} (h : CkSt stN stC) :
    ∃ stN' stC', (process_tags E false r rt ts op stN).st = stN' ∧
      process_tags E true r rt ts op stC = .ok () stC' ∧ CkSt stN' stC' ∧
      (process_tags E false r rt ts op stN = .ok () stN' ∨ stC'.changed = true) := by
  rw [process_tags_true_ok]
  by_cases hts : ts.isEmpty = true
  · rw [if_pos hts]
    have hN : process_tags E false r rt ts op stN = .ok () stN := by
      unfold process_tags
      rw [if_pos hts]
    rw [hN]
    exact ⟨stN, stC, rfl, rfl, h, Or.inl rfl⟩
  · rw [if_neg hts]
    have h' : CkSt (setChanged stN) (setChanged stC) :=
      ⟨h.1, Eq.refl _, h.2.2.1, h.2.2.2⟩
    refine ⟨(process_tags E false r rt ts op stN).st, setChanged stC, rfl, rfl, ?_,
      Or.inr (Eq.refl _)⟩
    refine ckSt_mutC h' (Eq.refl _) ?_
    unfold process_tags
    rw [if_neg hts, if_neg Bool.false_ne_true]
    refine mutExtC_then (mutExtC_liftE _ _ _ (MutExtC.rflC _)) ?_
    intro rid st1 h1
    refine mutExtC_then ?_ ?_
    · refine mutExtC_emitCall _ _ _ _ h1 ?_
      split
      · rfl
      · rfl
    · intro resp st2 h2
      refine mutExtC_then (h2.transC (poll_job_mutC _ _ _)) ?_
      intro u st3 h3
      exact h3

/-- Preservation of the check relation by a check-mode-only second
`_process_tags` run whose check state already has the changed flag. -/
theorem ckSt_process_true {stN stC : St} (h : CkSt stN stC) (hch : stC.changed = true)
    (ts : List Tag) :
    CkSt stN (if ts.isEmpty then stC else setChanged stC) := by
  by_cases hts : ts.isEmpty = true
  · rw [if_pos hts]
    exact h
  · rw [if_neg hts]
    refine ⟨h.1, ?_, h.2.2.1, h.2.2.2⟩
    show true = stN.changed
    rw [← h.2.1, hch]

/-- Check and normal runs of `ensure_tags` are `ckRel`-related. -/
theorem ck_ensure_tags (E : Env) (resource : PyDict) (rt : Option String) (st : St)
    (h0 : TraceAll st) :
    ckRel (ensure_tags E false resource rt st) (ensure_tags E true resource rt st) := by
  unfold ensure_tags
  by_cases hg : (!strTruthy rt || resource.isEmpty) = true
  · rw [if_pos hg, if_pos hg]
    exact ckRel_diag h0
  · rw [if_neg hg, if_neg hg]
    by_cases hk : (dget resource "tags").isSome = true
    · rw [if_pos hk, if_pos hk]
      cases htags : E.params.tags with
      | none =>
        simp only [htags]
        exact ckRel_diag h0
      | some ts =>
        simp only [htags]
        cases hrm : tags_that_should_not_exist resource ts with
        | error m =>
          simp only [hrm, liftE_error, Res.then]
          exact ckRel_diag h0
        | ok rm =>
          simp only [hrm, liftE_ok, Res.then]
          obtain ⟨stN1, stC1, hNst, hCok, h1, hd1⟩ :=
            process_tags_rel E resource (rt.getD "") rm "delete" (ckSt_diag h0)
          rw [hCok]
          simp only [Res.then]
          cases hN1 : process_tags E false resource (rt.getD "") rm "delete" st with
          | fail m stN1' =>
            have hN1' : stN1' = stN1 := by
              rw [hN1] at hNst
              exact hNst
            rw [hN1']
            have hch1 : stC1.changed = true := by
              cases hd1 with
              | inl hok => rw [hN1] at hok; exact Res.noConfusion hok
              | inr hch => exact hch
            simp only [Res.then]
            cases hadd : tags_that_should_exist_or_be_updated resource ts with
            | error m2 =>
              simp only [hadd, liftE_error, Res.then]
              exact ckRel_of_ckSt h1
            | ok add =>
              simp only [hadd, liftE_ok, Res.then]
              rw [process_tags_true_ok]
              simp only [Res.then]
              exact ckRel_of_ckSt (ckSt_process_true h1 hch1 add)
          | ok u stN1' =>
            have hN1' : stN1' = stN1 := by
              rw [hN1] at hNst
              exact hNst
            rw [hN1']
            simp only [Res.then]
            cases hadd : tags_that_should_exist_or_be_updated resource ts with
            | error m2 =>
              simp only [hadd, liftE_error, Res.then]
              exact ckRel_of_ckSt h1
            | ok add =>
              simp only [hadd, liftE_ok, Res.then]
              obtain ⟨stN2, stC2, hNst2, hCok2, h2, hd2⟩ :=
                process_tags_rel E resource (rt.getD "") add "create" h1
              rw [hCok2]
              simp only [Res.then]
              cases hN2 : process_tags E false resource (rt.getD "") add "create" stN1 with
              | fail m2 stN2' =>
                have hN2' : stN2' = stN2 := by
                  rw [hN2] at hNst2
                  exact hNst2
                rw [hN2']
                exact ckRel_of_ckSt h2
              | ok u2 stN2' =>
                have hN2' : stN2' = stN2 := by
                  rw [hN2] at hNst2
                  exact hNst2
                rw [hN2']
                exact ckRel_of_ckSt h2
    · rw [if_neg hk, if_neg hk]
      exact ckRel_diag h0

/-- C1 (amended): in check mode (dry run), each state-machine operation
of the three modules — `present`/`absent`/`enabled`/`disabled` for
accounts, `present`/`absent` for clusters and NICs, and tag
reconciliation — performs the same lookups and diffing and sets the
changed flag exactly as the normal run (`ckRel`: the check trace is the
lookup part of the normal trace and both agree on the changed flag and
diff), and its trace consists of read-only list calls only (`TraceAll`:
no create/update/delete call, no tag call, no job poll).  The same
holds for the `locked` operation whenever its check-mode run succeeds;
the restriction is necessary, not an artifact: a crashed check run of
`state=locked` on a missing account aborts before the account-resolving
lookups that the normal run still performs through `enable_account`, so
the unrestricted property is false there (see
`lock_check_mode_divergence_counterexample`). -/
theorem check_mode_is_dry_run (E : Env) (st : St) (h0 : TraceAll st) :
    (ckRel (present_account E false st) (present_account E true st) ∧
       TraceAll (present_account E true st).st) ∧
    (ckRel (absent_account E false st) (absent_account E true st) ∧
       TraceAll (absent_account E true st).st) ∧
    (ckRel (enable_account E false st) (enable_account E true st) ∧
       TraceAll (enable_account E true st).st) ∧
    (∀ vC stC, lock_account E true st = .ok vC stC →
       ckRel (lock_account E false st) (lock_account E true st) ∧
       TraceAll (lock_account E true st).st) ∧
    (ckRel (disable_account E false st) (disable_account E true st) ∧
       TraceAll (disable_account E true st).st) ∧
    (ckRel (present_cluster E false st) (present_cluster E true st) ∧
       TraceAll (present_cluster E true st).st) ∧
    (ckRel (absent_cluster E false st) (absent_cluster E true st) ∧
       TraceAll (absent_cluster E true st).st) ∧
    (ckRel (present_nic E false st) (present_nic E true st) ∧
       TraceAll (present_nic E true st).st) ∧
    (ckRel (absent_nic E false st) (absent_nic E true st) ∧
       TraceAll (absent_nic E true st).st) ∧
    (∀ resource rt,
       ckRel (ensure_tags E false resource rt st) (ensure_tags E true resource rt st) ∧
       TraceAll (ensure_tags E true resource rt st).st) := by
  refine ⟨?_, ?_, ?_, ?_, ?_, ?_, ?_, ?_, ?_, ?_⟩
  · have h := ck_present_account E st h0
    exact ⟨h, ckRel_traceAll h⟩
  · have h := ck_absent_account E st h0
    exact ⟨h, ckRel_traceAll h⟩
  · have h := ck_enable_account E st h0
    exact ⟨h, ckRel_traceAll h⟩
  · intro vC stC hC
    have h := ck_lock_op E st h0 hC
    exact ⟨h, ckRel_traceAll h⟩
  · have h := ck_disable_op E st h0
    exact ⟨h, ckRel_traceAll h⟩
  · have h := ck_present_cluster E st h0
    exact ⟨h, ckRel_traceAll h⟩
  · have h := ck_absent_cluster E st h0
    exact ⟨h, ckRel_traceAll h⟩
  · have h := ck_present_nic E st h0
    exact ⟨h, ckRel_traceAll h⟩
  · have h := ck_absent_nic E st h0
    exact ⟨h, ckRel_traceAll h⟩
  · intro resource rt
    have h := ck_ensure_tags E resource rt st h0
    exact ⟨h, ckRel_traceAll h⟩

/-- Witness for `check_mode_is_dry_run` at the empty environment and
fresh state. -/
theorem check_mode_is_dry_run_witness :
    TraceAll ({} : St) ∧
    ((ckRel (present_account { params := {} } false {}) (present_account { params := {} } true {}) ∧
       TraceAll (present_account { params := {} } true {}).st) ∧
    (ckRel (absent_account { params := {} } false {}) (absent_account { params := {} } true {}) ∧
       TraceAll (absent_account { params := {} } true {}).st) ∧
    (ckRel (enable_account { params := {} } false {}) (enable_account { params := {} } true {}) ∧
       TraceAll (enable_account { params := {} } true {}).st) ∧
    (∀ vC stC, lock_account { params := {} } true {} = .ok vC stC →
       ckRel (lock_account { params := {} } false {}) (lock_account { params := {} } true {}) ∧
       TraceAll (lock_account { params := {} } true {}).st) ∧
    (ckRel (disable_account { params := {} } false {}) (disable_account { params := {} } true {}) ∧
       TraceAll (disable_account { params := {} } true {}).st) ∧
    (ckRel (present_cluster { params := {} } false {}) (present_cluster { params := {} } true {}) ∧
       TraceAll (present_cluster { params := {} } true {}).st) ∧
    (ckRel (absent_cluster { params := {} } false {}) (absent_cluster { params := {} } true {}) ∧
       TraceAll (absent_cluster { params := {} } true {}).st) ∧
    (ckRel (present_nic { params := {} } false {}) (present_nic { params := {} } true {}) ∧
       TraceAll (present_nic { params := {} } true {}).st) ∧
    (ckRel (absent_nic { params := {} } false {}) (absent_nic { params := {} } true {}) ∧
       TraceAll (absent_nic { params := {} } true {}).st) ∧
    (∀ resource rt,
       ckRel (ensure_tags { params := {} } false resource rt {}) (ensure_tags { params := {} } true resource rt {}) ∧
       TraceAll (ensure_tags { params := {} } true resource rt {}).st)) :=
  ⟨rfl, check_mode_is_dry_run { params := {} } {} rfl⟩

/-- Environment of the C1 counterexample: `state=locked` requested for
an account that does not exist in the domain (every `listAccounts`
response is empty), with all create parameters supplied and a
`createAccount` response whose account starts out `Disabled`. -/
def ckLockEnv : Env :=
  { params :=
      { name := some "jdoe",
        account_type := some "user",
        email := some "jdoe@example.com",
        username := some "jdoe",
        password := some "pw",
        first_name := some "John",
        last_name := some "Doe" },
    createAccountResp :=
      .vdict [("account", .vdict [("id", .vstr "a1"), ("state", .vstr "Disabled")])],
    enableAccountResp :=
      .vdict [("account", .vdict [("id", .vstr "a1"), ("state", .vstr "Enabled")])],
    disableAccountResp := .vdict [("state", .vstr "Locked")] }

/-- C1 counterexample: dry-running `state=locked` on a missing account
is not check/normal related.  The check run crashes subscripting the
unresolved account (`account['state']` on `None`, since check mode
skips the create call) after two `listAccounts` lookups; the normal run
creates the account, finds it `Disabled`, re-resolves it inside
`enable_account` and ends up issuing four `listAccounts` lookups — so
the check trace is not the lookup part of the normal trace and the
unrestricted dry-run claim is refuted for the `locked` operation. -/
theorem lock_check_mode_divergence_counterexample :
    Res.val? (lock_account ckLockEnv true ({} : St)) = none ∧
    (Res.val? (lock_account ckLockEnv false ({} : St))).isSome = true ∧
    ((lock_account ckLockEnv true ({} : St)).st.trace).length = 2 ∧
    ((lock_account ckLockEnv false ({} : St)).st.trace.filter isListCall).length = 4 ∧
    ¬ ckRel (lock_account ckLockEnv false ({} : St))
        (lock_account ckLockEnv true ({} : St)) := by
  refine ⟨by rfl, by rfl, by rfl, by rfl, ?_⟩
  intro h
  have h1 : ((lock_account ckLockEnv true ({} : St)).st.trace).length =
      ((lock_account ckLockEnv false ({} : St)).st.trace.filter isListCall).length := by
    rw [h.1]
  rw [show ((lock_account ckLockEnv true ({} : St)).st.trace).length = 2 from rfl] at h1
  rw [show ((lock_account ckLockEnv false ({} : St)).st.trace.filter
      isListCall).length = 4 from rfl] at h1
  exact absurd h1 (by decide)
